import Mathlib

/-!
# Texture compiler: container layout, input sanitisation, compile pipeline

A shallow embedding of

* the pure layout functions of `libimage.cpp` (`image::miplevel_count`,
  `image::miplevel_width`, `image::miplevel_size`, `image::miplevel_offset`,
  `image::subimage_face_size`, ...);
* `texture_compiler_inputs_sanitize` and the pipeline of `compile_texture`
  in `compiler.cpp` (`build_level0`, `build_mipmaps`,
  `image::premultiply_alpha`, ...);
* the border-mode index functions of `libimage.cpp` (`image::index_wrap`,
  `image::index_clamp`, `image::index_mirror`);
* the pixel packers of `compiler.cpp` (`buffer_to_pixels_32i`,
  `buffer_to_pixels_16i_565`, ..., `float_to_half`);
* the polyphase kernels of `libimage.cpp` (`image::polyphase_1d_init`,
  `image::compute_polyphase_matrix_1d`), the container header
  (`image::get_header`, `image::atlas_size`), `copy_buffer_to_region` and the
  argument validation of `v8module.cpp` (`validate_arguments`);
* the sizes and offsets inside a container (`image::pixel_count`,
  `image::image_size`, `image::data_at`), `image::channel_maximum`, the half
  and single precision packers and the level descriptors of `v8module.cpp`
  (`level_byte_size`, `level_descriptor`).

Machine integers are natural numbers with explicit wrap-around:

* `size_t` is the 64-bit unsigned type of the LP64 targets the program is
  built for; every `size_t` result is reduced modulo `2 ^ 64`;
* `int` is 32-bit two's complement; a `size_t` stored into an `int` keeps its
  low 32 bits, and an `int` converted back to `size_t` is sign-extended.

Samples (`float` in the source) are a type parameter with the operations the
compiler applies to them; `malloc` is an oracle that says, call by call,
whether a block is returned. A run of the pipeline ends with a result or with
a `fault`.
-/

namespace TextureCompiler

/-! ## Machine integers -/

/-- The number of distinct `size_t` values, `2 ^ 64`. -/
abbrev SIZE_T_MOD : Nat := 2 ^ 64

/-- The result of a `size_t` computation whose mathematical value is `x`. -/
def size_t_wrap (x : Nat) : Nat := x % SIZE_T_MOD

/-- Conversion `size_t -> int` as performed by the initialisation
`int v = <size_t expression>;`: the low 32 bits, read as two's complement. -/
def size_t_to_int (x : Nat) : Int :=
  if x % 2 ^ 32 < 2 ^ 31 then ((x % 2 ^ 32 : Nat) : Int)
  else ((x % 2 ^ 32 : Nat) : Int) - 2 ^ 32

/-- Conversion `int -> size_t` as performed when an `int` is returned from a
function whose result type is `size_t`: reduction modulo `2 ^ 64`. -/
def int_to_size_t (v : Int) : Nat := (v % (2 ^ 64 : Int)).toNat

/-- The macro `CMN_MAX(x, y)`, that is `((x) > (y) ? (x) : (y))`. -/
def CMN_MAX (x y : Nat) : Nat := if x > y then x else y

namespace image

/-! ## Format codes (`image::format_e`) -/

abbrev FORMAT_UNKNOWN : Int := 0
abbrev FORMAT_R8 : Int := 1
abbrev FORMAT_RG8 : Int := 2
abbrev FORMAT_RGB8 : Int := 3
abbrev FORMAT_RGBA8 : Int := 4
abbrev FORMAT_R16 : Int := 5
abbrev FORMAT_RG16 : Int := 6
abbrev FORMAT_RGBA16 : Int := 7
abbrev FORMAT_R16F : Int := 8
abbrev FORMAT_RG16F : Int := 9
abbrev FORMAT_RGBA16F : Int := 10
abbrev FORMAT_R32F : Int := 11
abbrev FORMAT_RG32F : Int := 12
abbrev FORMAT_RGBA32F : Int := 13
abbrev FORMAT_RGB10A2 : Int := 14
abbrev FORMAT_BC1 : Int := 15
abbrev FORMAT_BC2 : Int := 16
abbrev FORMAT_BC3 : Int := 17
abbrev FORMAT_BC3_XGBR : Int := 18
abbrev FORMAT_BC3_RXBG : Int := 19
abbrev FORMAT_BC3_RBXG : Int := 20
abbrev FORMAT_BC3_XRBG : Int := 21
abbrev FORMAT_BC3_RGXB : Int := 22
abbrev FORMAT_BC3_XGXR : Int := 23
abbrev FORMAT_BC4 : Int := 24
abbrev FORMAT_BC5 : Int := 25
abbrev FORMAT_BC5_XY : Int := 26
abbrev FORMAT_ATI2N_DXT5 : Int := 27
abbrev FORMAT_PVRTC1 : Int := 28
abbrev FORMAT_PVRTC2 : Int := 29

/-- The switch of `image::is_compressed_format`. -/
def is_compressed_format (image_format : Int) : Bool :=
  image_format == FORMAT_BC1 || image_format == FORMAT_BC2 ||
  image_format == FORMAT_BC3 || image_format == FORMAT_BC3_XGBR ||
  image_format == FORMAT_BC3_RXBG || image_format == FORMAT_BC3_RBXG ||
  image_format == FORMAT_BC3_XRBG || image_format == FORMAT_BC3_RGXB ||
  image_format == FORMAT_BC3_XGXR || image_format == FORMAT_BC4 ||
  image_format == FORMAT_BC5 || image_format == FORMAT_BC5_XY ||
  image_format == FORMAT_ATI2N_DXT5 || image_format == FORMAT_PVRTC1 ||
  image_format == FORMAT_PVRTC2

/-- The switch of `image::is_block_compressed_format` (the BC1-BC5 family). -/
def is_block_compressed_format (image_format : Int) : Bool :=
  image_format == FORMAT_BC1 || image_format == FORMAT_BC2 ||
  image_format == FORMAT_BC3 || image_format == FORMAT_BC3_XGBR ||
  image_format == FORMAT_BC3_RXBG || image_format == FORMAT_BC3_RBXG ||
  image_format == FORMAT_BC3_XRBG || image_format == FORMAT_BC3_RGXB ||
  image_format == FORMAT_BC3_XGXR || image_format == FORMAT_BC4 ||
  image_format == FORMAT_BC5 || image_format == FORMAT_BC5_XY ||
  image_format == FORMAT_ATI2N_DXT5

/-- The switch of `image::bytes_per_block`. -/
def bytes_per_block (image_format : Int) : Nat :=
  if image_format = FORMAT_BC1 ∨ image_format = FORMAT_BC4 then 8
  else if image_format = FORMAT_BC2 ∨ image_format = FORMAT_BC3 ∨
      image_format = FORMAT_BC3_XGXR ∨ image_format = FORMAT_BC3_XGBR ∨
      image_format = FORMAT_BC3_RXBG ∨ image_format = FORMAT_BC3_RBXG ∨
      image_format = FORMAT_BC3_XRBG ∨ image_format = FORMAT_BC3_RGXB ∨
      image_format = FORMAT_BC5 ∨ image_format = FORMAT_BC5_XY ∨
      image_format = FORMAT_ATI2N_DXT5 then 16
  else 0

/-- The switch of `image::bytes_per_pixel`. -/
def bytes_per_pixel (image_format : Int) : Nat :=
  if image_format = FORMAT_R8 then 1
  else if image_format = FORMAT_R16 ∨ image_format = FORMAT_R16F ∨
      image_format = FORMAT_RG8 then 2
  else if image_format = FORMAT_RGB8 then 3
  else if image_format = FORMAT_R32F ∨ image_format = FORMAT_RG16 ∨
      image_format = FORMAT_RG16F ∨ image_format = FORMAT_RGBA8 ∨
      image_format = FORMAT_RGB10A2 then 4
  else if image_format = FORMAT_RG32F ∨ image_format = FORMAT_RGBA16 ∨
      image_format = FORMAT_RGBA16F then 8
  else if image_format = FORMAT_RGBA32F then 16
  else 0

/-! ## Mip-level geometry -/

/-- The loop `while (major_dim > 0) { major_dim >>= 1; level_count += 1; }`
of `image::miplevel_count`, started from the given `major_dim` and
`level_count`. -/
def miplevel_count_loop (major_dim level_count : Nat) : Nat :=
  if 0 < major_dim then
    miplevel_count_loop (major_dim >>> 1) (size_t_wrap (level_count + 1))
  else level_count
termination_by major_dim
decreasing_by
  simp only [Nat.shiftRight_eq_div_pow]
  omega

/-- The function `image::miplevel_count`. -/
def miplevel_count (level0_width level0_height level0_slices : Nat) : Nat :=
  let major_dim := if level0_width > level0_height then level0_width else level0_height
  let major_dim := if level0_slices > major_dim then level0_slices else major_dim
  miplevel_count_loop major_dim 0

/-- The function `image::miplevel_width`: the shifted width is stored in an
`int` before the comparison with zero and converted back on return. A shift
count of 64 or more is undefined in C++; here it yields the full
mathematical shift. -/
def miplevel_width (level0_width level_index : Nat) : Nat :=
  let level_width : Int := size_t_to_int (level0_width >>> level_index)
  int_to_size_t (if 0 = level_width then 1 else level_width)

/-- The function `image::miplevel_height`, same shape as `miplevel_width`. -/
def miplevel_height (level0_height level_index : Nat) : Nat :=
  let level_height : Int := size_t_to_int (level0_height >>> level_index)
  int_to_size_t (if 0 = level_height then 1 else level_height)

/-- The function `image::miplevel_slices`, same shape as `miplevel_width`. -/
def miplevel_slices (level0_slices level_index : Nat) : Nat :=
  let level_slices : Int := size_t_to_int (level0_slices >>> level_index)
  int_to_size_t (if 0 = level_slices then 1 else level_slices)

/-- The function `image::miplevel_slice_size`. -/
def miplevel_slice_size (image_format : Int)
    (level0_width level0_height level_index : Nat) : Nat :=
  let level_width := miplevel_width level0_width level_index
  let level_height := miplevel_height level0_height level_index
  let compressed := is_compressed_format image_format
  if compressed then
    if FORMAT_PVRTC1 = image_format then
      let level_width := CMN_MAX level_width 16
      let level_height := CMN_MAX level_height 8
      size_t_wrap (size_t_wrap (size_t_wrap (level_width * level_height) * 2) + 7) / 8
    else if FORMAT_PVRTC2 = image_format then
      let level_width := CMN_MAX level_width 8
      let level_height := CMN_MAX level_height 8
      size_t_wrap (size_t_wrap (size_t_wrap (level_width * level_height) * 4) + 7) / 8
    else
      size_t_wrap (size_t_wrap
        ((size_t_wrap (level_width + 3) >>> 2) * (size_t_wrap (level_height + 3) >>> 2))
          * bytes_per_block image_format)
  else
    size_t_wrap (size_t_wrap (level_width * level_height) * bytes_per_pixel image_format)

/-- The function `image::miplevel_size`. -/
def miplevel_size (image_format : Int)
    (level0_width level0_height level0_slices level_index : Nat) : Nat :=
  let level_slices := miplevel_slices level0_slices level_index
  let slice_size := miplevel_slice_size image_format level0_width level0_height level_index
  size_t_wrap (slice_size * level_slices)

/-- The accumulation `for (index = first; index < first + count; ++index)
total += image::miplevel_size(..., index)` shared by `image::miplevel_offset`
and `image::subimage_face_size`, started with the running total `total`. -/
def miplevel_size_loop (image_format : Int)
    (level0_width level0_height level0_slices : Nat) :
    Nat → Nat → Nat → Nat
  | 0, _, total => total
  | count + 1, index, total =>
    miplevel_size_loop image_format level0_width level0_height level0_slices count
      (index + 1)
      (size_t_wrap (total +
        miplevel_size image_format level0_width level0_height level0_slices index))

/-- The function `image::miplevel_offset`. -/
def miplevel_offset (image_format : Int)
    (level0_width level0_height level0_slices level_index : Nat) : Nat :=
  miplevel_size_loop image_format level0_width level0_height level0_slices level_index 0 0

/-- The function `image::subimage_face_size`. -/
def subimage_face_size (image_format : Int)
    (level0_width level0_height level0_slices mipmap_count : Nat) : Nat :=
  let mipmap_count :=
    if 0 = mipmap_count then miplevel_count level0_width level0_height level0_slices
    else mipmap_count
  miplevel_size_loop image_format level0_width level0_height level0_slices mipmap_count 0 0

/-- The planar image buffer `image::buffer_t`: `channel_count` planes of
`channel_width * channel_height` samples each. The sample type is a parameter
(`float` in the source). -/
structure buffer_t (α : Type) where
  channels : List (List α)
  channel_count : Nat
  channel_width : Nat
  channel_height : Nat
deriving DecidableEq, Repr

/-- The function `image::buffer_size`. -/
def buffer_size (channel_width channel_height channel_count : Nat) : Nat :=
  let channel_size := size_t_wrap (size_t_wrap (channel_width * channel_height) * 4)
  size_t_wrap (channel_size * channel_count)

/-- A buffer as it exists in memory: between 1 and `MAX_IMAGE_CHANNELS = 4`
planes (the assertions of `image::buffer_init_with_memory`), every plane
holding `channel_width * channel_height` samples, and a total byte size
(4 bytes per sample) that a `size_t` can express. -/
def buffer_t.valid {α : Type} (b : buffer_t α) : Prop :=
  1 ≤ b.channel_count ∧ b.channel_count ≤ 4 ∧
  b.channels.length = b.channel_count ∧
  (∀ p ∈ b.channels, p.length = b.channel_width * b.channel_height) ∧
  b.channel_width * b.channel_height * 4 * b.channel_count < SIZE_T_MOD

end image

/-- The structure `texture_compiler_inputs_t`. -/
structure texture_compiler_inputs_t (α : Type) where
  input_image : image.buffer_t α
  border_mode : Int
  target_width : Nat
  target_height : Nat
  maximum_levels : Nat
  build_mipmaps : Bool
  force_pow2 : Bool
  premultiply_a : Bool
  flip_y : Bool
deriving DecidableEq, Repr

/-- The function `is_pow2` of `compiler.cpp`:
`((value & (value - 1)) == 0)` on `size_t`, where `value - 1` wraps at 0. -/
def is_pow2 (value : Nat) : Bool :=
  (value &&& size_t_wrap (value + (SIZE_T_MOD - 1))) == 0

/-- The loop `while (target < source) target <<= 1;` of
`texture_compiler_inputs_sanitize`, run for at most `fuel` tests of the loop
condition; `none` when the loop is still running after that many tests. -/
def pow2_loop : Nat → Nat → Nat → Option Nat
  | 0, _, _ => none
  | fuel + 1, target, source =>
    if target < source then pow2_loop fuel (size_t_wrap (target <<< 1)) source
    else some target

/-- The function `texture_compiler_inputs_sanitize` (for a non-null `inputs`
with a non-null `input_image`); each of its two `while` loops is run with
the given fuel. -/
def texture_compiler_inputs_sanitize {α : Type} (fuel : Nat)
    (inputs : texture_compiler_inputs_t α) : Option (texture_compiler_inputs_t α) := do
  let source := inputs.input_image
  let source_width := source.channel_width
  let source_height := source.channel_height
  let target_width := if 0 = inputs.target_width then source_width else inputs.target_width
  let target_height := if 0 = inputs.target_height then source_height else inputs.target_height
  let force_pow2 := if inputs.build_mipmaps then true else inputs.force_pow2
  let target_width ←
    (if force_pow2 then
      if !is_pow2 target_width then pow2_loop fuel 1 source_width else some target_width
    else some target_width)
  let target_height ←
    (if force_pow2 then
      if !is_pow2 target_height then pow2_loop fuel 1 source_height else some target_height
    else some target_height)
  let max_levels :=
    if inputs.build_mipmaps then
      let max_levels := image.miplevel_count target_width target_height 1
      let maximum_levels := if inputs.maximum_levels = 0 then max_levels else inputs.maximum_levels
      if maximum_levels ≤ max_levels then maximum_levels else max_levels
    else 1
  some { inputs with
    force_pow2 := force_pow2
    target_width := target_width
    target_height := target_height
    maximum_levels := max_levels }

/-! ## Execution model of the compiler -/

/-- Why a run of the model stops without a result. -/
inductive fault where
  /-- A read or write through an uninitialised or released buffer, or outside
  an array or an allocated block. -/
  | undefined_behaviour
  /-- An `assert` of the source does not hold. -/
  | assertion_failed
  /-- A loop was still running when its fuel ran out. -/
  | out_of_fuel
deriving DecidableEq, Repr

/-- The allocator as the program sees it: whether the `n`-th call of `malloc`
returns a block, and the (indeterminate) sample that block holds at each
index before it is written. -/
structure heap_t (α : Type) where
  succeeds : Nat → Bool
  fresh : Nat → Nat → α

/-- The `float` operations the compiler applies to samples. `resample` is the
value the two-pass polyphase Kaiser resampling of `resize_buffer` stores at
one index of a target plane, given the border mode, the source and target
dimensions and the source plane. -/
structure sample_ops (α : Type) where
  mul : α → α → α
  div : α → α → α
  powf : α → α → α
  one : α
  gamma_power : α
  resample : Int → Nat → Nat → Nat → Nat → List α → Nat → α

/-- The constant `TEXTURE_COMPILER_MAX_LEVELS`. -/
abbrev TEXTURE_COMPILER_MAX_LEVELS : Nat := 16

/-- The structure `texture_compiler_outputs_t`. `level_data` is the array
`level_data[TEXTURE_COMPILER_MAX_LEVELS]` as a map from index to buffer,
`none` standing for an entry that holds no initialised buffer. -/
structure texture_compiler_outputs_t (α : Type) where
  error_message : String
  channel_count : Nat
  level_count : Nat
  level_data : Nat → Option (image.buffer_t α)

namespace image

/-- The sample `channels[c][j]` of a buffer, when it exists. -/
def buffer_t.sample {α : Type} (b : buffer_t α) (c j : Nat) : Option α :=
  (b.channels[c]?).bind fun plane => plane[j]?

/-- Rewrites the plane `channels[index]` of a buffer through `f`; the plane
has to exist. -/
def buffer_t.modify_plane {α : Type} (b : buffer_t α) (index : Nat)
    (f : List α → Except fault (List α)) : Except fault (buffer_t α) :=
  match b.channels[index]? with
  | some plane => do
    let plane ← f plane
    pure { b with channels := b.channels.set index plane }
  | none => .error .undefined_behaviour

/-- The function `image::copy_channel`: a `memcpy` of
`channel_width * channel_height * sizeof(float)` bytes. -/
def copy_channel {α : Type} (dst_channel src_channel : List α)
    (channel_width channel_height : Nat) : Except fault (List α) :=
  let total_size := size_t_wrap (size_t_wrap (channel_width * channel_height) * 4)
  let count := total_size / 4
  if count ≤ src_channel.length ∧ count ≤ dst_channel.length then
    .ok (src_channel.take count ++ dst_channel.drop count)
  else .error .undefined_behaviour

/-- Exchanges the samples at two indices of a plane. -/
def swap_samples {α : Type} (values : List α) (i j : Nat) : Except fault (List α) :=
  match values[i]?, values[j]? with
  | some a, some b => .ok ((values.set i b).set j a)
  | _, _ => .error .undefined_behaviour

/-- The function `image::flip_channel`. -/
def flip_channel {α : Type} (channel_values : List α)
    (channel_width channel_height : Nat) : Except fault (List α) :=
  let w := channel_width
  let h := channel_height
  let hh := channel_height >>> 1
  (List.range hh).foldlM (fun values y =>
    (List.range w).foldlM (fun values x =>
      swap_samples values (y * w + x) ((h - 1 - y) * w + x)) values) channel_values

/-- The function `image::flip`. -/
def flip {α : Type} (buffer : buffer_t α) : Except fault (buffer_t α) :=
  (List.range buffer.channel_count).foldlM (fun buffer i =>
    buffer.modify_plane i fun plane =>
      flip_channel plane buffer.channel_width buffer.channel_height) buffer

/-- The function `image::exponentiate_channel`. -/
def exponentiate_channel {α : Type} (ops : sample_ops α) (channel_values : List α)
    (channel_width channel_height : Nat) (power : α) : Except fault (List α) :=
  let channel_els := size_t_wrap (channel_width * channel_height)
  if channel_els ≤ channel_values.length then
    .ok ((channel_values.take channel_els).map (fun v => ops.powf v power) ++
      channel_values.drop channel_els)
  else .error .undefined_behaviour

/-- The function `image::exponentiate`. -/
def exponentiate {α : Type} (ops : sample_ops α) (buffer : buffer_t α)
    (channel_base channel_count : Nat) (power : α) : Except fault (buffer_t α) :=
  (List.range channel_count).foldlM (fun buffer i =>
    buffer.modify_plane (channel_base + i) fun plane =>
      exponentiate_channel ops plane buffer.channel_width buffer.channel_height power) buffer

/-- The function `image::linear`. -/
def linear {α : Type} (ops : sample_ops α) (buffer : buffer_t α)
    (channel_base channel_count : Nat) (gamma_power : α) : Except fault (buffer_t α) :=
  let p := ops.div ops.one gamma_power
  exponentiate ops buffer channel_base channel_count p

/-- The function `image::gamma`. -/
def gamma {α : Type} (ops : sample_ops α) (buffer : buffer_t α)
    (channel_base channel_count : Nat) (gamma_power : α) : Except fault (buffer_t α) :=
  let p := gamma_power
  exponentiate ops buffer channel_base channel_count p

/-- The argument `alpha_channel` of `image::premultiply_alpha`: a pointer to
a plane of the buffer being modified, or to samples outside it. -/
inductive alpha_pointer (α : Type) where
  | plane (index : Nat)
  | external (values : List α)

/-- The function `image::premultiply_alpha`. The outer loop runs over
`buffer->channel_count` planes; the alpha samples are read from memory as it
is when each plane is processed. -/
def premultiply_alpha {α : Type} (ops : sample_ops α) (buffer : buffer_t α)
    (channel_base _channel_count : Nat) (alpha_channel : alpha_pointer α) :
    Except fault (buffer_t α) :=
  let w := buffer.channel_width
  let h := buffer.channel_height
  let c := buffer.channel_count
  (List.range c).foldlM (fun buffer i =>
    let a : Option (List α) :=
      match alpha_channel with
      | .plane index => buffer.channels[index]?
      | .external values => some values
    match a with
    | none => .error .undefined_behaviour
    | some a =>
      buffer.modify_plane (channel_base + i) fun p =>
        let n := size_t_wrap (w * h)
        if n ≤ p.length ∧ n ≤ a.length then
          .ok (List.zipWith ops.mul (p.take n) (a.take n) ++ p.drop n)
        else .error .undefined_behaviour) buffer

end image

/-- The function `create_buffer` of `compiler.cpp`, called as the `n`-th
allocation: `none` when `malloc` returns `NULL`, otherwise the buffer set up
by `image::buffer_init_with_memory`, whose assertions require 1 to 4
channels. The planes hold whatever the block held. The block has
`image::buffer_size` bytes; when that is less than the planes take (the size
computation wrapped), every use of the buffer is out of bounds. -/
def create_buffer {α : Type} (heap : heap_t α) (n : Nat) (width height channels : Nat) :
    Except fault (Option (image.buffer_t α) × Nat) :=
  if heap.succeeds n then
    if 1 ≤ channels ∧ channels ≤ 4 then
      if width * height * 4 * channels ≤ image.buffer_size width height channels then
        .ok (some
          { channels := (List.range channels).map fun i =>
              (List.range (width * height)).map fun j => heap.fresh n (i * (width * height) + j)
            channel_count := channels
            channel_width := width
            channel_height := height }, n + 1)
      else .error .undefined_behaviour
    else .error .assertion_failed
  else .ok (none, n + 1)

/-- The function `copy_buffer`. -/
def copy_buffer {α : Type} (target source : image.buffer_t α) :
    Except fault (image.buffer_t α) :=
  (List.range source.channel_count).foldlM (fun target i =>
    match source.channels[i]? with
    | some src => target.modify_plane i fun dst =>
        image.copy_channel dst src source.channel_width source.channel_height
    | none => .error .undefined_behaviour) target

/-- The function `resize_buffer`, called with the next allocation number
`n` and the current content of `*target` (`none`: no initialised buffer).
The result is the returned flag, the content of `*target` afterwards (`none`
once `free_buffer(target)` has released it) and the next allocation number.
The two calls of `image::polyphase_1d_init` assert that all four dimensions
are at least 1; the allocations are, in order, the target, the temporary
buffer, the two weight arrays and the unchecked column buffer `tmp_cd`. -/
def resize_buffer {α : Type} (ops : sample_ops α) (heap : heap_t α) (n : Nat)
    (source : image.buffer_t α) (new_width new_height : Nat) (border_mode : Int)
    (target : Option (image.buffer_t α)) :
    Except fault (Bool × Option (image.buffer_t α) × Nat) :=
  let src_w := source.channel_width
  let src_h := source.channel_height
  let dst_w := new_width
  let dst_h := new_height
  if 1 ≤ src_w ∧ 1 ≤ dst_w ∧ 1 ≤ src_h ∧ 1 ≤ dst_h then do
    let (created, n) ← create_buffer heap n dst_w dst_h source.channel_count
    match created with
    | none => pure (false, target, n)
    | some target => do
      let (tb, n) ← create_buffer heap n dst_w src_h source.channel_count
      match tb with
      | none => pure (false, none, n)
      | some _ =>
        if !heap.succeeds n then pure (false, none, n + 1)
        else if !heap.succeeds (n + 1) then pure (false, none, n + 2)
        else if !heap.succeeds (n + 2) then .error .undefined_behaviour
        else do
          let target ← (List.range source.channel_count).foldlM (fun target c =>
            match source.channels[c]? with
            | some plane =>
              if size_t_wrap (src_w * src_h) ≤ plane.length then
                target.modify_plane c fun _ =>
                  .ok ((List.range (dst_w * dst_h)).map
                    (ops.resample border_mode src_w src_h dst_w dst_h plane))
              else .error .undefined_behaviour
            | none => .error .undefined_behaviour) target
          pure (true, some target, n + 3)
  else .error .assertion_failed

/-- The function `build_level0`: the returned flag, the content of `*target`
afterwards (`none` when it was never initialised or has been released) and
the next allocation number. The result of `resize_buffer` is not looked at. -/
def build_level0 {α : Type} (ops : sample_ops α) (heap : heap_t α) (n : Nat)
    (source : image.buffer_t α) (target_width target_height : Nat) (border_mode : Int) :
    Except fault (Bool × Option (image.buffer_t α) × Nat) := do
  let width := target_width
  let height := target_height
  let channels := source.channel_count
  let (created, n) ← create_buffer heap n width height channels
  match created with
  | none => pure (false, none, n)
  | some target =>
    if source.channel_width ≠ target_width ∨ source.channel_height ≠ target_height then do
      let (_, target, n) ← resize_buffer ops heap n source width height border_mode (some target)
      pure (true, target, n)
    else do
      let target ← copy_buffer target source
      pure (true, some target, n)

/-- The body of the loop `for (i = 1; i < level_count; ++i)` of
`build_mipmaps` for one level index `i`, from the linearised `level_0`:
`create_buffer`, `resize_buffer` (neither result is looked at) and
`image::gamma` on `level_data[i]`. -/
def build_mipmaps_level {α : Type} (ops : sample_ops α) (heap : heap_t α)
    (level_0 : image.buffer_t α) (mode : Int) (color_count : Nat)
    (state : (Nat → Option (image.buffer_t α)) × Nat) (i : Nat) :
    Except fault ((Nat → Option (image.buffer_t α)) × Nat) := do
  let (level_data, n) := state
  let l0_w := level_0.channel_width
  let l0_h := level_0.channel_height
  let l0_c := level_0.channel_count
  if i < TEXTURE_COMPILER_MAX_LEVELS then
    let level_w := image.miplevel_width l0_w i
    let level_h := image.miplevel_height l0_h i
    let (created, n) ← create_buffer heap n level_w level_h l0_c
    let slot := match created with
      | some buffer => some buffer
      | none => level_data i
    let (_, slot, n) ← resize_buffer ops heap n level_0 level_w level_h mode slot
    match slot with
    | none => .error .undefined_behaviour
    | some buffer =>
      let buffer ← image.gamma ops buffer 0 color_count ops.gamma_power
      pure (Function.update level_data i (some buffer), n)
  else .error .undefined_behaviour

/-- The function `build_mipmaps`: the returned flag, `*level_0` afterwards,
the array `level_data` afterwards and the next allocation number.
`level_data[0]` is a copy of the structure `*level_0` and shares its planes,
so it shows them as they are when the function returns. -/
def build_mipmaps {α : Type} (ops : sample_ops α) (heap : heap_t α) (n : Nat)
    (level_0 : image.buffer_t α) (border_mode : Int) (level_count : Nat)
    (level_data : Nat → Option (image.buffer_t α)) :
    Except fault (Bool × image.buffer_t α × (Nat → Option (image.buffer_t α)) × Nat) := do
  let color_count := if 4 = level_0.channel_count then 3 else level_0.channel_count
  if level_count > 1 then
    let mode := border_mode
    let level_0 ← image.linear ops level_0 0 color_count ops.gamma_power
    let (level_data, n) ← (List.range' 1 (level_count - 1)).foldlM
      (build_mipmaps_level ops heap level_0 mode color_count) (level_data, n)
    let level_0 ← image.gamma ops level_0 0 color_count ops.gamma_power
    pure (true, level_0, Function.update level_data 0 (some level_0), n)
  else pure (true, level_0, Function.update level_data 0 (some level_0), n)

/-- The function `texture_compiler_outputs_init`; `NO_ERROR` is the empty
string. -/
def texture_compiler_outputs_init {α : Type} (outputs : texture_compiler_outputs_t α) :
    texture_compiler_outputs_t α :=
  { outputs with error_message := "", channel_count := 0, level_count := 0 }

/-- The function `compile_texture`, started at allocation number `n`: the
returned flag, `*inputs` and `*outputs` afterwards and the next allocation
number. The results of `build_level0` and `build_mipmaps` are not looked at;
`level_0` is used whatever `build_level0` left in it. -/
def compile_texture {α : Type} (ops : sample_ops α) (heap : heap_t α) (n fuel : Nat)
    (inputs : texture_compiler_inputs_t α) (outputs : texture_compiler_outputs_t α) :
    Except fault (Bool × texture_compiler_inputs_t α × texture_compiler_outputs_t α × Nat) :=
  let outputs := texture_compiler_outputs_init outputs
  match texture_compiler_inputs_sanitize fuel inputs with
  | none => .error .out_of_fuel
  | some inputs => do
    let level_0_w := inputs.target_width
    let level_0_h := inputs.target_height
    let mode := inputs.border_mode
    let (_, level_0, n) ← build_level0 ops heap n inputs.input_image level_0_w level_0_h mode
    match level_0 with
    | none => .error .undefined_behaviour
    | some level_0 => do
      let level_0 ← (if inputs.flip_y then image.flip level_0 else pure level_0)
      let level_count := inputs.maximum_levels
      let (_, level_0, level_data, n) ←
        build_mipmaps ops heap n level_0 mode level_count outputs.level_data
      let level_data ←
        (if inputs.premultiply_a && 4 == level_0.channel_count then
          (List.range level_count).foldlM (fun level_data i =>
            if i < TEXTURE_COMPILER_MAX_LEVELS then
              match level_data i with
              | some buffer => do
                let buffer ← image.premultiply_alpha ops buffer 0 3 (.plane 3)
                pure (Function.update level_data i (some buffer))
              | none => .error .undefined_behaviour
            else .error .undefined_behaviour) level_data
        else pure level_data)
      pure (true, inputs,
        { error_message := ""
          channel_count := level_0.channel_count
          level_count := inputs.maximum_levels
          level_data := level_data }, n)

/-! ## Border-mode index functions (`libimage.cpp`) -/

/-- Conversion to `int32_t`: the low 32 bits, read as two's complement. -/
def to_int32_t (v : Int) : Int :=
  if v % 2 ^ 32 < 2 ^ 31 then v % 2 ^ 32 else v % 2 ^ 32 - 2 ^ 32

/-- Conversion to `ptrdiff_t`: the low 64 bits, read as two's complement. -/
def to_ptrdiff_t (v : Int) : Int :=
  if v % 2 ^ 64 < 2 ^ 63 then v % 2 ^ 64 else v % 2 ^ 64 - 2 ^ 64

/-- The smallest `ptrdiff_t` value; negating it overflows. -/
abbrev PTRDIFF_MIN : Int := -(2 ^ 63)

namespace image

abbrev BORDER_MODE_WRAP : Int := 0
abbrev BORDER_MODE_CLAMP : Int := 1
abbrev BORDER_MODE_MIRROR : Int := 2

/-- The helper `repeat_remainder(int32_t a, size_t b)`. Both `%` operate on
`size_t`: the `int32_t` operand (`a`, or `a + 1`) is converted to `size_t`
first, so a negative `a + 1` becomes `2 ^ 64 + a + 1`. The `size_t` result is
converted to the `int32_t` return type. A zero `b` divides by zero. -/
def repeat_remainder (a : Int) (b : Nat) : Except fault Int :=
  if b = 0 then .error .undefined_behaviour
  else if a ≥ 0 then pure (to_int32_t ((int_to_size_t a % b : Nat) : Int))
  else pure (to_int32_t
    ((size_t_wrap (size_t_wrap (int_to_size_t (a + 1) % b + b) + (SIZE_T_MOD - 1)) : Nat) : Int))

/-- The function `image::index_wrap`. The `ptrdiff_t` coordinates are
converted to the `int32_t` parameter of `repeat_remainder`; the index is
computed in `size_t`. -/
def index_wrap (width height : Nat) (x y : Int) : Except fault Nat := do
  let y ← repeat_remainder (to_int32_t y) height
  let x ← repeat_remainder (to_int32_t x) width
  pure (size_t_wrap (size_t_wrap (int_to_size_t y * width) + int_to_size_t x))

/-- The function `image::index_clamp`; `width - 1` is a `size_t` stored into
the `ptrdiff_t` coordinate. -/
def index_clamp (width height : Nat) (x y : Int) : Nat :=
  let x := if x < 0 then 0 else x
  let y := if y < 0 then 0 else y
  let x := if int_to_size_t x ≥ width
    then to_ptrdiff_t ((size_t_wrap (width + (SIZE_T_MOD - 1)) : Nat) : Int) else x
  let y := if int_to_size_t y ≥ height
    then to_ptrdiff_t ((size_t_wrap (height + (SIZE_T_MOD - 1)) : Nat) : Int) else y
  size_t_wrap (size_t_wrap (int_to_size_t y * width) + int_to_size_t x)

/-- One of the two `while` loops of `image::index_mirror`, for one coordinate
`x` and its extent `width`, run for at most `fuel` rounds. Negating
`PTRDIFF_MIN` overflows; `width + width - x - 1` is computed in `size_t` and
stored into the `ptrdiff_t` coordinate. -/
def index_mirror_loop : Nat → Nat → Int → Except fault Int
  | 0, _, _ => .error .out_of_fuel
  | fuel + 1, width, x =>
    if x < 0 ∨ int_to_size_t x > size_t_wrap (width + (SIZE_T_MOD - 1)) then
      if x = PTRDIFF_MIN then .error .undefined_behaviour
      else
        let x := if x < 0 then -x else x
        let x := if int_to_size_t x ≥ width
          then to_ptrdiff_t ((int_to_size_t ((width : Int) + width - x - 1) : Nat) : Int) else x
        index_mirror_loop fuel width x
    else pure x

/-- The function `image::index_mirror`, each loop run for at most `fuel`
rounds. -/
def index_mirror (fuel : Nat) (width height : Nat) (x y : Int) : Except fault Nat := do
  let x ← index_mirror_loop fuel width x
  let y ← index_mirror_loop fuel height y
  pure (size_t_wrap (size_t_wrap (int_to_size_t y * width) + int_to_size_t x))

/-- The inline function `image::sample_index`; the `size_t` location is
converted to the `ptrdiff_t` parameters of the index functions. -/
def sample_index (fuel : Nat) (width height at_x at_y : Nat) (border_mode : Int) :
    Except fault Nat :=
  if border_mode = BORDER_MODE_WRAP then
    index_wrap width height (to_ptrdiff_t at_x) (to_ptrdiff_t at_y)
  else if border_mode = BORDER_MODE_CLAMP then
    pure (index_clamp width height (to_ptrdiff_t at_x) (to_ptrdiff_t at_y))
  else if border_mode = BORDER_MODE_MIRROR then
    index_mirror fuel width height (to_ptrdiff_t at_x) (to_ptrdiff_t at_y)
  else pure 0

end image

/-! ## Pixel packing (`compiler.cpp`) -/

/-- Conversion to `uint16_t`: the low 16 bits. -/
def to_uint16_t (v : Nat) : Nat := v % 2 ^ 16

/-- Conversion to `uint32_t`: the low 32 bits. -/
def to_uint32_t (v : Nat) : Nat := v % 2 ^ 32

abbrev HALF_MIN_BIASED_EXP_AS_SINGLE_EXP : Nat := 0x38000000
abbrev HALF_MAX_BIASED_EXP_AS_SINGLE_EXP : Nat := 0x47800000
abbrev HALF_MAX_BIASED_EXP : Nat := 0x1F <<< 10
abbrev SINGLE_MAX_BIASED_EXP : Nat := 0xFF <<< 23

/-- The function `float_to_half`, on the 32 bits `x` of the `float` it is
given. In `(uint16_t) mantissa >> 16` the cast applies to `mantissa`, before
the shift. The shift `mantissa >>= (exponent + 14)` of a `uint32_t` is
undefined for a count of 32 or more (`none`). -/
def float_to_half (x : Nat) : Option Nat :=
  let x := to_uint32_t x
  let sign := to_uint16_t (x >>> 31)
  let mantissa := x &&& ((1 <<< 23) - 1)
  let exponent := x &&& SINGLE_MAX_BIASED_EXP
  if exponent ≥ HALF_MAX_BIASED_EXP_AS_SINGLE_EXP then
    let mantissa :=
      if mantissa ≠ 0 ∧ exponent = SINGLE_MAX_BIASED_EXP then (1 <<< 23) - 1 else 0
    some (to_uint16_t ((to_uint16_t sign <<< 15) ||| to_uint16_t HALF_MAX_BIASED_EXP |||
      (to_uint16_t mantissa >>> 16)))
  else if exponent ≤ HALF_MIN_BIASED_EXP_AS_SINGLE_EXP then
    let exponent := to_uint32_t ((HALF_MIN_BIASED_EXP_AS_SINGLE_EXP - exponent) >>> 23)
    if exponent + 14 < 32 then
      let mantissa := mantissa >>> (exponent + 14)
      some (to_uint16_t ((to_uint16_t sign <<< 15) ||| to_uint16_t mantissa))
    else none
  else
    some (to_uint16_t ((to_uint16_t sign <<< 15) |||
      to_uint16_t ((exponent - HALF_MIN_BIASED_EXP_AS_SINGLE_EXP) >>> 13) |||
      to_uint16_t (mantissa >>> 13)))

/-- The macro `MAKE_RGB565(r, g, b)` on `uint8_t` arguments, as stored into a
`uint16_t`; the cast in the macro applies to its first term only. -/
def MAKE_RGB565 (r g b : Nat) : Nat :=
  to_uint16_t (to_uint16_t ((r >>> 3) <<< 11) ||| ((g >>> 2) <<< 5) ||| (b >>> 3))

/-- The macro `MAKE_RGB4444(r, g, b, a)`, as stored into a `uint16_t`. -/
def MAKE_RGB4444 (r g b a : Nat) : Nat :=
  to_uint16_t (to_uint16_t ((r >>> 4) <<< 12) ||| ((g >>> 4) <<< 8) ||| ((b >>> 4) <<< 4) |||
    (a >>> 4))

/-- The macro `MAKE_RGB5551(r, g, b, a)`, as stored into a `uint16_t`. -/
def MAKE_RGB5551 (r g b a : Nat) : Nat :=
  to_uint16_t (to_uint16_t ((r >>> 3) <<< 11) ||| ((g >>> 3) <<< 6) ||| ((b >>> 3) <<< 1) |||
    (a >>> 7))

/-- Floating-point arithmetic as the packers use it. A finite `float` or
`double` is the rational number it stands for; an operation yields its exact
result rounded to the result type: `to_float` rounds to `float`, `to_double`
to `double`. -/
structure float_rounding where
  to_float : ℚ → ℚ
  to_double : ℚ → ℚ

/-- What is assumed of a rounding: it is monotone, and the integers from 0 to
255 are values of the type. -/
def float_rounding.faithful (fr : float_rounding) : Prop :=
  Monotone fr.to_float ∧ Monotone fr.to_double ∧
  (∀ k : Nat, k ≤ 255 → fr.to_float k = k) ∧ (∀ k : Nat, k ≤ 255 → fr.to_double k = k)

/-- A floating-point value with its fractional part discarded. -/
def float_trunc (x : ℚ) : Int := if 0 ≤ x then ⌊x⌋ else ⌈x⌉

/-- The conversion `(uint8_t) x` of a floating-point value: the value is
truncated toward zero; the conversion is undefined when the truncated value
is not one of 0 .. 255. -/
def float_to_uint8_t (x : ℚ) : Except fault Nat :=
  if 0 ≤ float_trunc x ∧ float_trunc x ≤ 255 then pure (float_trunc x).toNat
  else .error .undefined_behaviour

/-- The expression `(uint8_t) (v * 255.0f)` on a `float` sample `v`. -/
def quantize_float (fr : float_rounding) (v : ℚ) : Except fault Nat :=
  float_to_uint8_t (fr.to_float (v * 255))

/-- The expression `(uint8_t) (v * 255.0)` on a `float` sample `v`: the
product is a `double`. -/
def quantize_double (fr : float_rounding) (v : ℚ) : Except fault Nat :=
  float_to_uint8_t (fr.to_double (v * 255))

/-- The product `v * 255` as the 8-bit packer for `channel_count` channels
computes it: `buffer_to_pixels_1_32` multiplies by the `double` constant
`255.0`, the other three by the `float` constant `255.0f`. -/
def packed_product (fr : float_rounding) (channel_count : Nat) (v : ℚ) : ℚ :=
  if channel_count = 1 then fr.to_double (v * 255) else fr.to_float (v * 255)

/-- The read `*source++` at the `i`-th round of a packing loop. -/
def read_sample (source : List ℚ) (i : Nat) : Except fault ℚ :=
  match source[i]? with
  | some v => pure v
  | none => .error .undefined_behaviour

/-- The loop `for (i = 0; i < count; ++i)` shared by the packers: each round
reads one sample from every source plane and appends the elements `texel`
makes of them to the output. -/
def pack_pixels {β : Type} (count : Nat) (sources : List (List ℚ))
    (texel : List ℚ → Except fault (List β)) : Except fault (List β) := do
  let texels ← (List.range count).mapM fun i => do
    let samples ← sources.mapM fun source => read_sample source i
    texel samples
  pure texels.flatten

/-- The body shared by the packers: `malloc (width * height * bpp)`, then the
loop, which does not run when `malloc` returned `NULL`. The result is the
array `pixels`, `none` for `NULL`. When the block is smaller than
`width * height` elements of `bpp` bytes (the size computation wrapped), the
loop writes outside it. -/
def pack_buffer {β : Type} (heap : heap_t ℚ) (n : Nat) (buffer : image.buffer_t ℚ)
    (bpp : Nat) (sources : List (List ℚ)) (texel : List ℚ → Except fault (List β)) :
    Except fault (Option (List β)) :=
  let width := buffer.channel_width
  let height := buffer.channel_height
  if heap.succeeds n then
    if size_t_wrap (width * height) * bpp ≤ size_t_wrap (size_t_wrap (width * height) * bpp) then do
      let pixels ← pack_pixels (size_t_wrap (width * height)) sources texel
      pure (some pixels)
    else .error .undefined_behaviour
  else pure none

/-- The plane pointer `buffer->channels[k]`; an entry that was never set
points at no sample. -/
def source_plane (buffer : image.buffer_t ℚ) (k : Nat) : List ℚ :=
  buffer.channels.getD k []

/-- The function `buffer_to_pixels_1_32`, its `malloc` the `n`-th allocation. -/
def buffer_to_pixels_1_32 (fr : float_rounding) (heap : heap_t ℚ) (n : Nat)
    (buffer : image.buffer_t ℚ) : Except fault (Option (List Nat)) :=
  pack_buffer heap n buffer 1 [source_plane buffer 0]
    fun samples => samples.mapM (quantize_double fr)

/-- The function `buffer_to_pixels_2_32`. -/
def buffer_to_pixels_2_32 (fr : float_rounding) (heap : heap_t ℚ) (n : Nat)
    (buffer : image.buffer_t ℚ) : Except fault (Option (List Nat)) :=
  pack_buffer heap n buffer 2 [source_plane buffer 0, source_plane buffer 1]
    fun samples => samples.mapM (quantize_float fr)

/-- The function `buffer_to_pixels_3_32`. -/
def buffer_to_pixels_3_32 (fr : float_rounding) (heap : heap_t ℚ) (n : Nat)
    (buffer : image.buffer_t ℚ) : Except fault (Option (List Nat)) :=
  pack_buffer heap n buffer 3
    [source_plane buffer 0, source_plane buffer 1, source_plane buffer 2]
    fun samples => samples.mapM (quantize_float fr)

/-- The function `buffer_to_pixels_4_32`. -/
def buffer_to_pixels_4_32 (fr : float_rounding) (heap : heap_t ℚ) (n : Nat)
    (buffer : image.buffer_t ℚ) : Except fault (Option (List Nat)) :=
  pack_buffer heap n buffer 4
    [source_plane buffer 0, source_plane buffer 1, source_plane buffer 2, source_plane buffer 3]
    fun samples => samples.mapM (quantize_float fr)

/-- The function `buffer_to_pixels_32i`. -/
def buffer_to_pixels_32i (fr : float_rounding) (heap : heap_t ℚ) (n : Nat)
    (buffer : image.buffer_t ℚ) : Except fault (Option (List Nat)) :=
  match buffer.channel_count with
  | 1 => buffer_to_pixels_1_32 fr heap n buffer
  | 2 => buffer_to_pixels_2_32 fr heap n buffer
  | 3 => buffer_to_pixels_3_32 fr heap n buffer
  | 4 => buffer_to_pixels_4_32 fr heap n buffer
  | _ => pure none

/-- The function `buffer_to_pixels_16i_565`; each output element is one
`uint16_t`. -/
def buffer_to_pixels_16i_565 (fr : float_rounding) (heap : heap_t ℚ) (n : Nat)
    (buffer : image.buffer_t ℚ) : Except fault (Option (List Nat)) :=
  if buffer.channel_count < 3 then pure none
  else pack_buffer heap n buffer 2
    [source_plane buffer 0, source_plane buffer 1, source_plane buffer 2]
    fun samples => do
      let values ← samples.mapM (quantize_float fr)
      pure [MAKE_RGB565 (values.getD 0 0) (values.getD 1 0) (values.getD 2 0)]

/-- The function `buffer_to_pixels_16i_4444`. -/
def buffer_to_pixels_16i_4444 (fr : float_rounding) (heap : heap_t ℚ) (n : Nat)
    (buffer : image.buffer_t ℚ) : Except fault (Option (List Nat)) :=
  if buffer.channel_count < 4 then pure none
  else pack_buffer heap n buffer 2
    [source_plane buffer 0, source_plane buffer 1, source_plane buffer 2, source_plane buffer 3]
    fun samples => do
      let values ← samples.mapM (quantize_float fr)
      pure [MAKE_RGB4444 (values.getD 0 0) (values.getD 1 0) (values.getD 2 0)
        (values.getD 3 0)]

/-- The function `buffer_to_pixels_16i_5551`. -/
def buffer_to_pixels_16i_5551 (fr : float_rounding) (heap : heap_t ℚ) (n : Nat)
    (buffer : image.buffer_t ℚ) : Except fault (Option (List Nat)) :=
  if buffer.channel_count < 4 then pure none
  else pack_buffer heap n buffer 2
    [source_plane buffer 0, source_plane buffer 1, source_plane buffer 2, source_plane buffer 3]
    fun samples => do
      let values ← samples.mapM (quantize_float fr)
      pure [MAKE_RGB5551 (values.getD 0 0) (values.getD 1 0) (values.getD 2 0)
        (values.getD 3 0)]

/-! ## Polyphase kernels (`libimage.cpp`) -/

/-- The conversion `(size_t) x` of a floating-point value: the value truncated
toward zero. For a value the type cannot hold (a negative one, or one of
`2 ^ 64` or more) the language leaves the behaviour undefined; the run goes on
with the `size_t` the target produces, given by the parameter `out_of_range`. -/
def float_to_size_t (out_of_range : Int → Nat) (x : ℚ) : Nat :=
  if 0 ≤ float_trunc x ∧ float_trunc x < 2 ^ 64 then (float_trunc x).toNat
  else size_t_wrap (out_of_range (float_trunc x))

/-- A `float` division `a / b`. A division by zero has no finite result: the
run stops there. -/
def float_div (fr : float_rounding) (a b : ℚ) : Except fault ℚ :=
  if b = 0 then .error .undefined_behaviour else pure (fr.to_float (a / b))

namespace image

/-- The structure `image::polyphase_kernel_1d_t`; `filter_weights` is `none`
when null, otherwise the array it points at. -/
structure polyphase_kernel_1d_t where
  window_size : Nat
  column_count : Nat
  sample_count : Nat
  scale_value : ℚ
  scale_inverse : ℚ
  filter_width : ℚ
  filter_weights : Option (List ℚ)
deriving DecidableEq, Repr

/-- The function `image::polyphase_1d_init`: the returned byte count and
`*out_kernel_info`. `scale_inv` is computed before `scale` is set to 1 for an
upsampling kernel. -/
def polyphase_1d_init (fr : float_rounding) (out_of_range : Int → Nat)
    (source_dimension target_dimension sample_count : Nat) (filter_width : ℚ) :
    Except fault (Nat × polyphase_kernel_1d_t) :=
  if source_dimension ≥ 1 ∧ target_dimension ≥ 1 ∧ sample_count > 0 then do
    let scale ← float_div fr (fr.to_float target_dimension) (fr.to_float source_dimension)
    let scale_inv ← float_div fr 1 scale
    let upsampling : Bool := decide (scale > 1)
    let scale := if upsampling then 1 else scale
    let sample_count := if upsampling then 1 else sample_count
    let width := fr.to_float (filter_width * scale_inv)
    let columns := target_dimension
    let window := size_t_wrap
      (float_to_size_t out_of_range ((⌈fr.to_float (2 * width)⌉ : Int) : ℚ) + 1)
    let bytes := size_t_wrap (size_t_wrap (columns * window) * 4)
    pure (bytes,
      { window_size := window
        column_count := columns
        sample_count := sample_count
        scale_value := scale
        scale_inverse := scale_inv
        filter_width := width
        filter_weights := none })
  else .error .assertion_failed

/-- The function `image::sample_box`, for a filter function `filter_kernel`
(with its arguments). -/
def sample_box (fr : float_rounding) (x scale : ℚ) (sample_count : Nat)
    (filter_kernel : ℚ → ℚ) : Except fault ℚ := do
  let nrm ← float_div fr 1 (fr.to_float sample_count)
  let sum := (List.range sample_count).foldl (fun sum i =>
    let p := fr.to_float
      (fr.to_float (x + fr.to_float (fr.to_float (fr.to_float i + 1 / 2) * nrm)) * scale)
    let v := filter_kernel p
    fr.to_float (sum + v)) 0
  pure (fr.to_float (sum * nrm))

/-- The value `center` of column `i` in `image::compute_polyphase_matrix_1d`:
`(0.5f + i) * scale_inv`. -/
def polyphase_center (fr : float_rounding) (kernel_weights : polyphase_kernel_1d_t)
    (i : Nat) : ℚ :=
  fr.to_float (fr.to_float (1 / 2 + fr.to_float i) * kernel_weights.scale_inverse)

/-- The value `left` of column `i` in `image::compute_polyphase_matrix_1d`, a
`size_t`: `(size_t) floorf(center - width)`. -/
def polyphase_left (fr : float_rounding) (out_of_range : Int → Nat)
    (kernel_weights : polyphase_kernel_1d_t) (i : Nat) : Nat :=
  float_to_size_t out_of_range
    ((⌊fr.to_float (polyphase_center fr kernel_weights i - kernel_weights.filter_width)⌋ : Int) : ℚ)

/-- The weight of tap `j` of column `i` before normalisation: the call
`sample_box(left + j - center, scale, samples, filter_kernel, filter_args)`,
where `left + j` is a `size_t` sum converted to `float`. -/
def polyphase_tap (fr : float_rounding) (out_of_range : Int → Nat) (filter_kernel : ℚ → ℚ)
    (kernel_weights : polyphase_kernel_1d_t) (i j : Nat) : Except fault ℚ :=
  sample_box fr
    (fr.to_float (fr.to_float (size_t_wrap (polyphase_left fr out_of_range kernel_weights i + j)) -
      polyphase_center fr kernel_weights i))
    kernel_weights.scale_value kernel_weights.sample_count filter_kernel

/-- The body of the loop over the columns of
`image::compute_polyphase_matrix_1d` for column `i`: the loop that stores the
weights and adds them up, then the loop that divides them by the total. -/
def compute_polyphase_column (fr : float_rounding) (out_of_range : Int → Nat)
    (filter_kernel : ℚ → ℚ) (kernel_weights : polyphase_kernel_1d_t)
    (weights : List ℚ) (i : Nat) : Except fault (List ℚ) := do
  let window := kernel_weights.window_size
  let (weights, total) ← (List.range window).foldlM
    (fun (state : List ℚ × ℚ) j => do
      let (weights, total) := state
      let index := size_t_wrap (size_t_wrap (i * window) + j)
      let weight ← polyphase_tap fr out_of_range filter_kernel kernel_weights i j
      if index < weights.length then
        pure (weights.set index weight, fr.to_float (total + weight))
      else .error .undefined_behaviour)
    (weights, 0)
  (List.range window).foldlM
    (fun weights j =>
      let index := size_t_wrap (size_t_wrap (i * window) + j)
      match weights[index]? with
      | some weight => do
        let weight ← float_div fr weight total
        pure (weights.set index weight)
      | none => .error .undefined_behaviour)
    weights

/-- The function `image::compute_polyphase_matrix_1d`: `*kernel_weights`
afterwards. With a null `filter_weights` the first store is through a null
pointer. -/
def compute_polyphase_matrix_1d (fr : float_rounding) (out_of_range : Int → Nat)
    (filter_kernel : ℚ → ℚ) (kernel_weights : polyphase_kernel_1d_t) :
    Except fault polyphase_kernel_1d_t :=
  match kernel_weights.filter_weights with
  | some weights => do
    let weights ← (List.range kernel_weights.column_count).foldlM
      (compute_polyphase_column fr out_of_range filter_kernel kernel_weights) weights
    pure { kernel_weights with filter_weights := some weights }
  | none =>
    if kernel_weights.column_count = 0 ∨ kernel_weights.window_size = 0 then pure kernel_weights
    else .error .undefined_behaviour

end image

/-! ## Container header and atlas records (`libimage.cpp`) -/

namespace image

/-- The structure `image::atlas_entry_t`, declared under `#pragma pack(1)`:
four `uint16_t` fields. -/
structure atlas_entry_t where
  x : Nat
  y : Nat
  width : Nat
  height : Nat
deriving DecidableEq, Repr

/-- The value of `sizeof(image::atlas_entry_t)`: four 2-byte fields without
padding. -/
abbrev sizeof_atlas_entry_t : Nat := 2 + 2 + 2 + 2

/-- The function `image::atlas_size`. -/
def atlas_size (atlas_entry_count : Nat) : Nat :=
  let names_size := size_t_wrap (atlas_entry_count * 4)
  let entry_size := size_t_wrap (atlas_entry_count * sizeof_atlas_entry_t)
  size_t_wrap (size_t_wrap (names_size + entry_size) + 4)

/-- The structure `image::header_t`: `format` and `flags` are `int32_t`, the
counts and dimensions `uint32_t`, the two sizes `uint64_t`, and `reserved`
is an array of five `uint32_t`. -/
structure header_t where
  format : Int
  flags : Int
  items : Nat
  levels : Nat
  width : Nat
  height : Nat
  slices : Nat
  image_size : Nat
  atlas_size : Nat
  reserved : List Nat
deriving DecidableEq, Repr

/-- The structure `image::container_t`: `format` and `flags` are `int32_t`,
the counts, dimensions and sizes `size_t`; a pointer is `none` when null. -/
structure container_t where
  format : Int
  flags : Int
  items : Nat
  levels : Nat
  width : Nat
  height : Nat
  slices : Nat
  image_size : Nat
  atlas_size : Nat
  alloc_base : Option Nat
  image_data : Option Nat
  atlas_data : Option Nat
deriving DecidableEq, Repr

/-- The function `image::get_header`: `*out_header` afterwards, `none` for a
null `out_header`. The characters stored in `reserved` are their codes. -/
def get_header (image : container_t) (out_header : Option header_t) : Option header_t :=
  match out_header with
  | none => none
  | some _ => some
    { format := to_int32_t image.format
      flags := to_int32_t image.flags
      items := to_uint32_t image.items
      levels := to_uint32_t image.levels
      width := to_uint32_t image.width
      height := to_uint32_t image.height
      slices := to_uint32_t image.slices
      image_size := image.image_size % 2 ^ 64
      atlas_size := image.atlas_size % 2 ^ 64
      reserved := [73, 77, 71, 67, 70] }

/-- The function `image::container_from_header`: `*out_container` afterwards,
`none` for a null `out_container`. -/
def container_from_header (header : header_t) (out_container : Option container_t) :
    Option container_t :=
  match out_container with
  | none => none
  | some _ => some
    { format := header.format
      flags := header.flags
      items := header.items
      levels := header.levels
      width := header.width
      height := header.height
      slices := header.slices
      image_size := size_t_wrap header.image_size
      atlas_size := size_t_wrap header.atlas_size
      alloc_base := none
      image_data := none
      atlas_data := none }

end image

/-! ## Region copy (`compiler.cpp`) -/

/-- A `memcpy` of `copy_size` bytes from the samples at `source + source_offset`
to those at `target + target_offset`; a copy of no bytes changes nothing. -/
def memcpy_samples {α : Type} (target source : List α)
    (target_offset source_offset copy_size : Nat) : Except fault (List α) :=
  let count := copy_size / 4
  if copy_size = 0 then pure target
  else if source_offset + count ≤ source.length ∧ target_offset + count ≤ target.length then
    pure (target.take target_offset ++ (source.drop source_offset).take count ++
      target.drop (target_offset + count))
  else .error .undefined_behaviour

/-- The function `copy_buffer_to_region`: `*target` afterwards. The two
clipping statements subtract in `size_t`. -/
def copy_buffer_to_region {α : Type} (target source : image.buffer_t α)
    (target_x target_y : Nat) : Except fault (image.buffer_t α) :=
  let num_rows := source.channel_height
  let num_cols := source.channel_width
  let source_width := source.channel_width
  let target_height := target.channel_height
  let target_width := target.channel_width
  let target_offset := size_t_wrap (size_t_wrap (target_y * target_width) + target_x)
  let source_offset := 0
  let num_rows :=
    if size_t_wrap (target_y + num_rows) > target_height then
      size_t_wrap (num_rows + (SIZE_T_MOD -
        size_t_wrap (size_t_wrap (target_y + num_rows) + (SIZE_T_MOD - target_height))))
    else num_rows
  let num_cols :=
    if size_t_wrap (target_x + num_cols) > target_width then
      size_t_wrap (num_cols + (SIZE_T_MOD -
        size_t_wrap (size_t_wrap (target_x + num_cols) + (SIZE_T_MOD - target_width))))
    else num_cols
  let copy_size := size_t_wrap (num_cols * 4)
  do
    let (target, _, _) ← (List.range num_rows).foldlM
      (fun (state : image.buffer_t α × Nat × Nat) _ => do
        let (target, source_offset, target_offset) := state
        let target ← (List.range source.channel_count).foldlM (fun target c =>
          match source.channels[c]? with
          | some source_ptr => target.modify_plane c fun target_ptr =>
              memcpy_samples target_ptr source_ptr target_offset source_offset copy_size
          | none => .error .undefined_behaviour) target
        pure (target, size_t_wrap (source_offset + source_width),
          size_t_wrap (target_offset + target_width)))
      (target, source_offset, target_offset)
    pure target

/-! ## Argument validation of the module (`v8module.cpp`) -/

abbrev TEXTURE_FORMAT_UNKNOWN : Int := 0
abbrev TEXTURE_FORMAT_565_I : Int := 1
abbrev TEXTURE_FORMAT_5551_I : Int := 2
abbrev TEXTURE_FORMAT_4444_I : Int := 3
abbrev TEXTURE_FORMAT_8_I : Int := 4
abbrev TEXTURE_FORMAT_88_I : Int := 5
abbrev TEXTURE_FORMAT_888_I : Int := 6
abbrev TEXTURE_FORMAT_8888_I : Int := 7
abbrev TEXTURE_FORMAT_16_F : Int := 8
abbrev TEXTURE_FORMAT_1616_F : Int := 9
abbrev TEXTURE_FORMAT_161616_F : Int := 10
abbrev TEXTURE_FORMAT_16161616_F : Int := 11
abbrev TEXTURE_FORMAT_32_F : Int := 12
abbrev TEXTURE_FORMAT_3232_F : Int := 13
abbrev TEXTURE_FORMAT_323232_F : Int := 14
abbrev TEXTURE_FORMAT_32323232_F : Int := 15

abbrev TEXTURE_TARGET_UNKNOWN : Int := 0
abbrev TEXTURE_TARGET_2D : Int := 1
abbrev TEXTURE_TARGET_CUBE_POS_X : Int := 2
abbrev TEXTURE_TARGET_CUBE_NEG_X : Int := 3
abbrev TEXTURE_TARGET_CUBE_POS_Y : Int := 4
abbrev TEXTURE_TARGET_CUBE_NEG_Y : Int := 5
abbrev TEXTURE_TARGET_CUBE_POS_Z : Int := 6
abbrev TEXTURE_TARGET_CUBE_NEG_Z : Int := 7

abbrev TEXTURE_TYPE_UNKNOWN : Int := 0
abbrev TEXTURE_TYPE_COLOR : Int := 1
abbrev TEXTURE_TYPE_ALPHA : Int := 2
abbrev TEXTURE_TYPE_LUMINANCE : Int := 3
abbrev TEXTURE_TYPE_LUMINANCE_ALPHA : Int := 4
abbrev TEXTURE_TYPE_DISTANCE_FIELD : Int := 5
abbrev TEXTURE_TYPE_HEIGHT : Int := 6
abbrev TEXTURE_TYPE_NORMAL : Int := 7

abbrev TEXTURE_WRAP_UNKNOWN : Int := 0
abbrev TEXTURE_WRAP_REPEAT : Int := 1
abbrev TEXTURE_WRAP_CLAMP_TO_EDGE : Int := 2
abbrev TEXTURE_WRAP_MIRRORED_REPEAT : Int := 3

abbrev TEXTURE_FILTER_UNKNOWN : Int := 0
abbrev TEXTURE_FILTER_NEAREST : Int := 1
abbrev TEXTURE_FILTER_LINEAR : Int := 2
abbrev TEXTURE_FILTER_NEAREST_MIPMAP_NEAREST : Int := 3
abbrev TEXTURE_FILTER_NEAREST_MIPMAP_LINEAR : Int := 4
abbrev TEXTURE_FILTER_LINEAR_MIPMAP_NEAREST : Int := 5
abbrev TEXTURE_FILTER_LINEAR_MIPMAP_LINEAR : Int := 6

/-- The structure `texture_compiler_args_t`; a string pointer is `none` when
null. -/
structure texture_compiler_args_t where
  source_path : Option String
  target_path : Option String
  target_format : Option String
  texture_type : Option String
  texture_target : Option String
  magnify_filter : Option String
  minify_filter : Option String
  wrap_mode_s : Option String
  wrap_mode_t : Option String
  border_mode : Option String
  flip_y : Bool
  premultiplied : Bool
  force_pow2 : Bool
  build_mipmaps : Bool
  level_count : Nat
  target_width : Nat
  target_height : Nat
deriving DecidableEq, Repr

/-- The test `NULL == str || 0 == strlen(str)`. -/
def is_null_or_empty (str : Option String) : Bool :=
  match str with
  | none => true
  | some s => s == ""

/-- The test `!strcmp(str, name)` on a non-null `str`. -/
def str_is (str : Option String) (name : String) : Bool :=
  match str with
  | none => false
  | some s => s == name

/-- The function `texture_format` of `v8module.cpp`. -/
def texture_format (str : Option String) (channel_count : Nat) : Int :=
  if is_null_or_empty str then
    match channel_count with
    | 1 => TEXTURE_FORMAT_8_I
    | 2 => TEXTURE_FORMAT_88_I
    | 3 => TEXTURE_FORMAT_888_I
    | 4 => TEXTURE_FORMAT_8888_I
    | _ => TEXTURE_FORMAT_UNKNOWN
  else if str_is str "RGB565" then TEXTURE_FORMAT_565_I
  else if str_is str "RGBA4444" then TEXTURE_FORMAT_4444_I
  else if str_is str "RGBA5551" then TEXTURE_FORMAT_5551_I
  else if str_is str "R8" then TEXTURE_FORMAT_8_I
  else if str_is str "RG8" then TEXTURE_FORMAT_88_I
  else if str_is str "RGB" then TEXTURE_FORMAT_888_I
  else if str_is str "RGB8" then TEXTURE_FORMAT_888_I
  else if str_is str "RGBA" then TEXTURE_FORMAT_8888_I
  else if str_is str "RGBA8" then TEXTURE_FORMAT_8888_I
  else if str_is str "R16F" then TEXTURE_FORMAT_16_F
  else if str_is str "RG16F" then TEXTURE_FORMAT_1616_F
  else if str_is str "RGB16F" then TEXTURE_FORMAT_161616_F
  else if str_is str "RGBA16F" then TEXTURE_FORMAT_16161616_F
  else if str_is str "R32F" then TEXTURE_FORMAT_32_F
  else if str_is str "RG32F" then TEXTURE_FORMAT_3232_F
  else if str_is str "RGB32F" then TEXTURE_FORMAT_323232_F
  else if str_is str "RGBA32F" then TEXTURE_FORMAT_32323232_F
  else TEXTURE_FORMAT_UNKNOWN

/-- The function `texture_target`. -/
def texture_target (str : Option String) : Int :=
  if is_null_or_empty str then TEXTURE_TARGET_2D
  else if str_is str "TEXTURE_2D" then TEXTURE_TARGET_2D
  else if str_is str "TEXTURE_CUBE_MAP_POSITIVE_X" then TEXTURE_TARGET_CUBE_POS_X
  else if str_is str "TEXTURE_CUBE_MAP_NEGATIVE_X" then TEXTURE_TARGET_CUBE_NEG_X
  else if str_is str "TEXTURE_CUBE_MAP_POSITIVE_Y" then TEXTURE_TARGET_CUBE_POS_Y
  else if str_is str "TEXTURE_CUBE_MAP_NEGATIVE_Y" then TEXTURE_TARGET_CUBE_NEG_Y
  else if str_is str "TEXTURE_CUBE_MAP_POSITIVE_Z" then TEXTURE_TARGET_CUBE_POS_Z
  else if str_is str "TEXTURE_CUBE_MAP_NEGATIVE_Z" then TEXTURE_TARGET_CUBE_NEG_Z
  else TEXTURE_TARGET_UNKNOWN

/-- The function `texture_type`. -/
def texture_type (str : Option String) (channel_count : Nat) : Int :=
  if is_null_or_empty str then
    match channel_count with
    | 1 => TEXTURE_TYPE_LUMINANCE
    | 2 => TEXTURE_TYPE_LUMINANCE_ALPHA
    | 3 => TEXTURE_TYPE_COLOR
    | 4 => TEXTURE_TYPE_COLOR
    | _ => TEXTURE_TYPE_UNKNOWN
  else if str_is str "COLOR" then TEXTURE_TYPE_COLOR
  else if str_is str "ALPHA" then TEXTURE_TYPE_ALPHA
  else if str_is str "LUMINANCE" then TEXTURE_TYPE_LUMINANCE
  else if str_is str "LUMINANCE_ALPHA" then TEXTURE_TYPE_LUMINANCE_ALPHA
  else if str_is str "DISTANCE_FIELD" then TEXTURE_TYPE_DISTANCE_FIELD
  else if str_is str "HEIGHT" then TEXTURE_TYPE_HEIGHT
  else if str_is str "NORMAL" then TEXTURE_TYPE_NORMAL
  else TEXTURE_TYPE_UNKNOWN

/-- The function `texture_wrap`. -/
def texture_wrap (str : Option String) : Int :=
  if is_null_or_empty str then TEXTURE_WRAP_CLAMP_TO_EDGE
  else if str_is str "REPEAT" then TEXTURE_WRAP_REPEAT
  else if str_is str "CLAMP_TO_EDGE" then TEXTURE_WRAP_CLAMP_TO_EDGE
  else if str_is str "MIRRORED_REPEAT" then TEXTURE_WRAP_MIRRORED_REPEAT
  else TEXTURE_WRAP_UNKNOWN

/-- The function `minify_filter`. -/
def minify_filter (str : Option String) (mipmaps : Bool) : Int :=
  if mipmaps then
    if is_null_or_empty str then TEXTURE_FILTER_LINEAR_MIPMAP_LINEAR
    else if str_is str "NEAREST" then TEXTURE_FILTER_NEAREST
    else if str_is str "LINEAR" then TEXTURE_FILTER_LINEAR
    else if str_is str "NEAREST_MIPMAP_NEAREST" then TEXTURE_FILTER_NEAREST_MIPMAP_NEAREST
    else if str_is str "NEAREST_MIPMAP_LINEAR" then TEXTURE_FILTER_NEAREST_MIPMAP_LINEAR
    else if str_is str "LINEAR_MIPMAP_NEAREST" then TEXTURE_FILTER_LINEAR_MIPMAP_NEAREST
    else if str_is str "LINEAR_MIPMAP_LINEAR" then TEXTURE_FILTER_LINEAR_MIPMAP_LINEAR
    else TEXTURE_FILTER_UNKNOWN
  else
    if is_null_or_empty str then TEXTURE_FILTER_LINEAR
    else if str_is str "NEAREST" then TEXTURE_FILTER_NEAREST
    else if str_is str "LINEAR" then TEXTURE_FILTER_LINEAR
    else TEXTURE_FILTER_UNKNOWN

/-- The function `magnify_filter`. -/
def magnify_filter (str : Option String) : Int :=
  if is_null_or_empty str then TEXTURE_FILTER_LINEAR
  else if str_is str "NEAREST" then TEXTURE_FILTER_NEAREST
  else if str_is str "LINEAR" then TEXTURE_FILTER_LINEAR
  else TEXTURE_FILTER_UNKNOWN

/-- The function `validate_arguments`: the message of the exception it
returns, `none` when it returns `undefined` (the arguments are accepted).
Only `channel_count` is read from the source image. -/
def validate_arguments {α : Type} (args : texture_compiler_args_t)
    (source : image.buffer_t α) : Option String :=
  let mipmaps := args.build_mipmaps
  let channels := source.channel_count
  if TEXTURE_TYPE_UNKNOWN = texture_type args.texture_type channels then
    some "The type field has an invalid value."
  else if TEXTURE_FORMAT_UNKNOWN = texture_format args.target_format channels then
    some "The format field has an invalid value."
  else if TEXTURE_TARGET_UNKNOWN = texture_target args.texture_target then
    some "The target field has an invalid value."
  else if TEXTURE_WRAP_UNKNOWN = texture_wrap args.wrap_mode_s then
    some "The wrapModeS field has an invalid value."
  else if TEXTURE_WRAP_UNKNOWN = texture_wrap args.wrap_mode_t then
    some "The wrapModeT field has an invalid value."
  else if TEXTURE_FILTER_UNKNOWN = magnify_filter args.magnify_filter then
    some "The magnifyFilter field has an invalid value."
  else if TEXTURE_FILTER_UNKNOWN = minify_filter args.minify_filter mipmaps then
    some "The minifyFilter field has an invalid value."
  else none

/-! ## Sizes and offsets within a container (`libimage.cpp`, `libimage.hpp`) -/

namespace image

/-- The attribute bit `ATTRIBUTES_CUBEMAP`, `1 << 3`. -/
abbrev ATTRIBUTES_CUBEMAP : Int := 8

/-- The function `image::face_count`. -/
def face_count (attributes : Int) : Nat :=
  if Int.land attributes ATTRIBUTES_CUBEMAP ≠ 0 then 6 else 1

/-- The function `image::miplevel_slice_offset`. -/
def miplevel_slice_offset (image_format : Int)
    (level0_width level0_height level_index slice_index : Nat) : Nat :=
  let slice_size := miplevel_slice_size image_format level0_width level0_height level_index
  size_t_wrap (slice_size * slice_index)

/-- The function `image::subimage_size`. -/
def subimage_size (image_format attributes : Int)
    (level0_width level0_height level0_slices mipmap_count : Nat) : Nat :=
  let face_size :=
    subimage_face_size image_format level0_width level0_height level0_slices mipmap_count
  size_t_wrap (face_size * face_count attributes)

/-- The function `image::subimage_offset`. -/
def subimage_offset (image_format attributes : Int)
    (level0_width level0_height level0_slices mipmap_count image_index : Nat) : Nat :=
  let item_size :=
    subimage_size image_format attributes level0_width level0_height level0_slices mipmap_count
  size_t_wrap (item_size * image_index)

/-- The function `image::subimage_face_offset`. -/
def subimage_face_offset (image_format : Int)
    (level0_width level0_height level0_slices mipmap_count face_index : Nat) : Nat :=
  let face_size :=
    subimage_face_size image_format level0_width level0_height level0_slices mipmap_count
  size_t_wrap (face_size * face_index)

/-- The loop `for (i = level_index; i <= mipmap_count; ++i)` of
`image::pixel_count`, for the given number of rounds, started at index `i`
with the running total `sum`. -/
def pixel_count_loop (level0_width level0_height level0_slices : Nat) :
    Nat → Nat → Nat → Nat
  | 0, _, sum => sum
  | count + 1, i, sum =>
    let level_w := miplevel_width level0_width i
    let level_h := miplevel_height level0_height i
    let level_s := miplevel_slices level0_slices i
    pixel_count_loop level0_width level0_height level0_slices count (i + 1)
      (size_t_wrap (sum + size_t_wrap (size_t_wrap (level_w * level_h) * level_s)))

/-- The function `image::pixel_count`. The loop runs while
`i <= mipmap_count`, that is `mipmap_count + 1 - level_index` times; for
`mipmap_count = SIZE_MAX` the condition holds for every `size_t` and the loop
does not end (`none`). -/
def pixel_count (level0_width level0_height level0_slices level_index mipmap_count : Nat) :
    Option Nat :=
  let mipmap_count :=
    if 0 = mipmap_count then miplevel_count level0_width level0_height level0_slices
    else mipmap_count
  if mipmap_count = SIZE_T_MOD - 1 then none
  else some (pixel_count_loop level0_width level0_height level0_slices
    (mipmap_count + 1 - level_index) level_index 0)

/-- The function `image::image_size`. -/
def image_size (image_format attributes : Int)
    (image_count level0_width level0_height level0_slices mipmap_count : Nat) : Nat :=
  let item_size :=
    subimage_size image_format attributes level0_width level0_height level0_slices mipmap_count
  size_t_wrap (item_size * image_count)

/-- The function template `image::data_at`: the displacement
`io + fo + mo + so`, in bytes, of the returned pointer from
`image->image_data`. -/
def data_at (image : container_t)
    (image_index cface_index level_index slice_index : Nat) : Nat :=
  let f := image.format
  let a := image.flags
  let w := image.width
  let h := image.height
  let d := image.slices
  let m := image.levels
  let io := subimage_offset f a w h d m image_index
  let fo := subimage_face_offset f w h d m cface_index
  let mo := miplevel_offset f w h d level_index
  let so := miplevel_slice_offset f w h level_index slice_index
  io + fo + mo + so

/-- The value `std::numeric_limits<float>::min()`: the least positive normal
`float`, `2 ^ -126`. -/
abbrev FLT_MIN : ℚ := 1 / 2 ^ 126

/-- The function `image::channel_maximum`. -/
def channel_maximum (channel_values : List ℚ) (channel_width channel_height : Nat) :
    Except fault ℚ :=
  let channel_els := size_t_wrap (channel_width * channel_height)
  if channel_els ≤ channel_values.length then
    pure ((channel_values.take channel_els).foldl
      (fun channel_max v => if v < channel_max then v else channel_max) FLT_MIN)
  else .error .undefined_behaviour

/-- The conversion `(int32_t) x` of a floating-point value: the value
truncated toward zero, undefined outside the range of the type. -/
def float_to_int32_t (x : ℚ) : Except fault Int :=
  if -(2 ^ 31) ≤ float_trunc x ∧ float_trunc x < 2 ^ 31 then pure (float_trunc x)
  else .error .undefined_behaviour

/-- The value `left` of column `i` in `image::apply_polyphase_horizontal_1d`
and `image::apply_polyphase_vertical_1d`, an `int32_t`:
`(int32_t) floorf(center - width)`. -/
def apply_polyphase_left (fr : float_rounding) (kernel_weights : polyphase_kernel_1d_t)
    (i : Nat) : Except fault Int :=
  float_to_int32_t
    ((⌊fr.to_float (polyphase_center fr kernel_weights i - kernel_weights.filter_width)⌋ : Int) : ℚ)

/-- The coordinate `left + j` that the two functions hand to
`image::sample_index` for tap `j` of column `i`: the `int32_t` is converted
to `size_t` for the sum, and `sample_index` reads the sum as a `ptrdiff_t`. -/
def apply_polyphase_position (fr : float_rounding) (kernel_weights : polyphase_kernel_1d_t)
    (i j : Nat) : Except fault Int := do
  let left ← apply_polyphase_left fr kernel_weights i
  pure (to_ptrdiff_t (size_t_wrap (int_to_size_t left + j)))

end image

/-! ## Half and single precision packers (`compiler.cpp`) -/

/-- The call `float_to_half(source++)` on a sample whose 32 bits are given by
`float_bits`. -/
def half_of_sample (float_bits : ℚ → Nat) (v : ℚ) : Except fault Nat :=
  match float_to_half (float_bits v) with
  | some half => pure half
  | none => .error .undefined_behaviour

/-- The function `buffer_to_pixels_1_16f`; each output element is one
`uint16_t`. -/
def buffer_to_pixels_1_16f (float_bits : ℚ → Nat) (heap : heap_t ℚ) (n : Nat)
    (buffer : image.buffer_t ℚ) : Except fault (Option (List Nat)) :=
  pack_buffer heap n buffer 2 [source_plane buffer 0]
    fun samples => samples.mapM (half_of_sample float_bits)

/-- The function `buffer_to_pixels_2_16f`. -/
def buffer_to_pixels_2_16f (float_bits : ℚ → Nat) (heap : heap_t ℚ) (n : Nat)
    (buffer : image.buffer_t ℚ) : Except fault (Option (List Nat)) :=
  pack_buffer heap n buffer 4 [source_plane buffer 0, source_plane buffer 1]
    fun samples => samples.mapM (half_of_sample float_bits)

/-- The function `buffer_to_pixels_3_16f`. -/
def buffer_to_pixels_3_16f (float_bits : ℚ → Nat) (heap : heap_t ℚ) (n : Nat)
    (buffer : image.buffer_t ℚ) : Except fault (Option (List Nat)) :=
  pack_buffer heap n buffer 6
    [source_plane buffer 0, source_plane buffer 1, source_plane buffer 2]
    fun samples => samples.mapM (half_of_sample float_bits)

/-- The function `buffer_to_pixels_4_16f`. -/
def buffer_to_pixels_4_16f (float_bits : ℚ → Nat) (heap : heap_t ℚ) (n : Nat)
    (buffer : image.buffer_t ℚ) : Except fault (Option (List Nat)) :=
  pack_buffer heap n buffer 8
    [source_plane buffer 0, source_plane buffer 1, source_plane buffer 2, source_plane buffer 3]
    fun samples => samples.mapM (half_of_sample float_bits)

/-- The function `buffer_to_pixels_64f`. -/
def buffer_to_pixels_64f (float_bits : ℚ → Nat) (heap : heap_t ℚ) (n : Nat)
    (buffer : image.buffer_t ℚ) : Except fault (Option (List Nat)) :=
  match buffer.channel_count with
  | 1 => buffer_to_pixels_1_16f float_bits heap n buffer
  | 2 => buffer_to_pixels_2_16f float_bits heap n buffer
  | 3 => buffer_to_pixels_3_16f float_bits heap n buffer
  | 4 => buffer_to_pixels_4_16f float_bits heap n buffer
  | _ => pure none

/-- The function `buffer_to_pixels_1_32f`; each output element is one
`float`. -/
def buffer_to_pixels_1_32f (heap : heap_t ℚ) (n : Nat) (buffer : image.buffer_t ℚ) :
    Except fault (Option (List ℚ)) :=
  pack_buffer heap n buffer 4 [source_plane buffer 0] fun samples => pure samples

/-- The function `buffer_to_pixels_2_32f`. -/
def buffer_to_pixels_2_32f (heap : heap_t ℚ) (n : Nat) (buffer : image.buffer_t ℚ) :
    Except fault (Option (List ℚ)) :=
  pack_buffer heap n buffer 8 [source_plane buffer 0, source_plane buffer 1]
    fun samples => pure samples

/-- The function `buffer_to_pixels_3_32f`. -/
def buffer_to_pixels_3_32f (heap : heap_t ℚ) (n : Nat) (buffer : image.buffer_t ℚ) :
    Except fault (Option (List ℚ)) :=
  pack_buffer heap n buffer 12
    [source_plane buffer 0, source_plane buffer 1, source_plane buffer 2]
    fun samples => pure samples

/-- The function `buffer_to_pixels_4_32f`. -/
def buffer_to_pixels_4_32f (heap : heap_t ℚ) (n : Nat) (buffer : image.buffer_t ℚ) :
    Except fault (Option (List ℚ)) :=
  pack_buffer heap n buffer 16
    [source_plane buffer 0, source_plane buffer 1, source_plane buffer 2, source_plane buffer 3]
    fun samples => pure samples

/-- The function `buffer_to_pixels_128f`. -/
def buffer_to_pixels_128f (heap : heap_t ℚ) (n : Nat) (buffer : image.buffer_t ℚ) :
    Except fault (Option (List ℚ)) :=
  match buffer.channel_count with
  | 1 => buffer_to_pixels_1_32f heap n buffer
  | 2 => buffer_to_pixels_2_32f heap n buffer
  | 3 => buffer_to_pixels_3_32f heap n buffer
  | 4 => buffer_to_pixels_4_32f heap n buffer
  | _ => pure none

/-! ## Level descriptors of the module (`v8module.cpp`) -/

/-- A pixel array as a packer returns it: its elements and their type. -/
inductive pixel_array where
  | uint8 (values : List Nat)
  | uint16 (values : List Nat)
  | float32 (values : List ℚ)

/-- The number of bytes a pixel array holds. -/
def pixel_array.byte_count : pixel_array → Nat
  | .uint8 values => values.length
  | .uint16 values => 2 * values.length
  | .float32 values => 4 * values.length

/-- The function `texture_format_bits_per_pixel`: the value stored to
`*out_bpp`. -/
def texture_format_bits_per_pixel (format : Int) : Nat :=
  if format = TEXTURE_FORMAT_565_I then 16
  else if format = TEXTURE_FORMAT_5551_I then 16
  else if format = TEXTURE_FORMAT_4444_I then 16
  else if format = TEXTURE_FORMAT_8_I then 8
  else if format = TEXTURE_FORMAT_88_I then 16
  else if format = TEXTURE_FORMAT_888_I then 24
  else if format = TEXTURE_FORMAT_8888_I then 32
  else if format = TEXTURE_FORMAT_16_F then 16
  else if format = TEXTURE_FORMAT_1616_F then 32
  else if format = TEXTURE_FORMAT_161616_F then 48
  else if format = TEXTURE_FORMAT_16161616_F then 64
  else if format = TEXTURE_FORMAT_32_F then 32
  else if format = TEXTURE_FORMAT_3232_F then 64
  else if format = TEXTURE_FORMAT_323232_F then 96
  else if format = TEXTURE_FORMAT_32323232_F then 128
  else 0

/-- The function `level_byte_size`: the values stored to `*out_bpp` and
`*out_size`. -/
def level_byte_size (format : Int) (width height : Nat) : Nat × Nat :=
  let bpp := texture_format_bits_per_pixel format
  (bpp, size_t_wrap (size_t_wrap (width * height) * (bpp / 8)))

/-- The function `level_descriptor`: the values stored to `*out_bpp` and
`*out_size`, and the returned pixel array (`none` for `NULL`), the `malloc`
of the packer being the `n`-th allocation. -/
def level_descriptor (fr : float_rounding) (float_bits : ℚ → Nat) (heap : heap_t ℚ) (n : Nat)
    (level : image.buffer_t ℚ) (format : Int) :
    Nat × Nat × Except fault (Option pixel_array) :=
  let width := level.channel_width
  let height := level.channel_height
  let (bpp, size) := level_byte_size format width height
  let pixels : Except fault (Option pixel_array) :=
    if format = TEXTURE_FORMAT_565_I then
      (buffer_to_pixels_16i_565 fr heap n level).map (Option.map .uint16)
    else if format = TEXTURE_FORMAT_5551_I then
      (buffer_to_pixels_16i_5551 fr heap n level).map (Option.map .uint16)
    else if format = TEXTURE_FORMAT_4444_I then
      (buffer_to_pixels_16i_4444 fr heap n level).map (Option.map .uint16)
    else if format = TEXTURE_FORMAT_8_I ∨ format = TEXTURE_FORMAT_88_I ∨
        format = TEXTURE_FORMAT_888_I ∨ format = TEXTURE_FORMAT_8888_I then
      (buffer_to_pixels_32i fr heap n level).map (Option.map .uint8)
    else if format = TEXTURE_FORMAT_16_F ∨ format = TEXTURE_FORMAT_1616_F ∨
        format = TEXTURE_FORMAT_161616_F ∨ format = TEXTURE_FORMAT_16161616_F then
      (buffer_to_pixels_64f float_bits heap n level).map (Option.map .uint16)
    else if format = TEXTURE_FORMAT_32_F ∨ format = TEXTURE_FORMAT_3232_F ∨
        format = TEXTURE_FORMAT_323232_F ∨ format = TEXTURE_FORMAT_32323232_F then
      (buffer_to_pixels_128f heap n level).map (Option.map .float32)
    else pure none
  (bpp, size, pixels)

/-! ## Sample inputs -/

/-- A `w` x `h` image with `c` planes of zero samples. -/
def sample_image (w h c : Nat) : image.buffer_t Nat :=
  { channels := List.replicate c (List.replicate (w * h) 0)
    channel_count := c
    channel_width := w
    channel_height := h }

/-- Compiler inputs as left by `texture_compiler_inputs_init` (mirror border
mode, no target size, no level limit), for the given image and flags. -/
def sample_inputs (source : image.buffer_t Nat) (build_mipmaps force_pow2 : Bool) :
    texture_compiler_inputs_t Nat :=
  { input_image := source
    border_mode := 2
    target_width := 0
    target_height := 0
    maximum_levels := 0
    build_mipmaps := build_mipmaps
    force_pow2 := force_pow2
    premultiply_a := false
    flip_y := false }

/-- Sample arithmetic on natural numbers, standing in for `float`. -/
def sample_ops_nat : sample_ops Nat :=
  { mul := fun a b => a * b
    div := fun a b => a / b
    powf := fun a b => a ^ b
    one := 1
    gamma_power := 2
    resample := fun _ _ _ _ _ plane j => plane.getD j 0 }

/-- An allocator whose every call succeeds and returns zeroed blocks. -/
def sample_heap : heap_t Nat :=
  { succeeds := fun _ => true
    fresh := fun _ _ => 0 }

/-- A 2 x 2 image with four planes, the last one the alpha plane. -/
def sample_rgba : image.buffer_t Nat :=
  { channels := [[1, 2, 3, 4], [5, 6, 7, 8], [9, 10, 11, 12], [2, 3, 4, 5]]
    channel_count := 4
    channel_width := 2
    channel_height := 2 }

/-- An output structure that holds no level yet. -/
def sample_outputs : texture_compiler_outputs_t Nat :=
  { error_message := ""
    channel_count := 0
    level_count := 0
    level_data := fun _ => none }

/-- Arithmetic without rounding error. -/
def exact_rounding : float_rounding := { to_float := id, to_double := id }

/-- An allocator of pixel arrays whose every call succeeds. -/
def packing_heap : heap_t ℚ := { succeeds := fun _ => true, fresh := fun _ _ => 0 }

/-- A 1 x 1 image with one plane, holding the sample `v`. -/
def sample_gray (v : ℚ) : image.buffer_t ℚ :=
  { channels := [[v]], channel_count := 1, channel_width := 1, channel_height := 1 }

/-- A 2 x 1 image with `c` planes taken from four fixed ones. -/
def sample_planes (c : Nat) : image.buffer_t ℚ :=
  { channels := [[1, 1 / 2], [0, 1 / 3], [1 / 4, 1 / 5], [1, 0]].take c
    channel_count := c
    channel_width := 2
    channel_height := 1 }

/-- An allocator whose call number `k` fails and whose other calls succeed. -/
def failing_heap (k : Nat) : heap_t Nat :=
  { succeeds := fun n => n != k
    fresh := fun _ _ => 0 }

/-- The arguments as `init_compiler_args` leaves them. -/
def sample_args : texture_compiler_args_t :=
  { source_path := none, target_path := none, target_format := none, texture_type := none
    texture_target := none, magnify_filter := none, minify_filter := none
    wrap_mode_s := none, wrap_mode_t := none, border_mode := none
    flip_y := false, premultiplied := false, force_pow2 := false, build_mipmaps := false
    level_count := 0, target_width := 0, target_height := 0 }

/-- The conversion of an out-of-range value to `size_t` on x86-64: the low 64
bits of the integer. -/
def sample_out_of_range (z : Int) : Nat := int_to_size_t z

/-- A triangle filter of width 1. -/
def sample_filter (x : ℚ) : ℚ := if |x| < 1 then 1 - |x| else 0

/-- The kernel `polyphase_1d_init` sets up for halving 2 samples to 1 with one
box sample and filter width 1, with the weight array of 5 values attached. -/
def sample_kernel : image.polyphase_kernel_1d_t :=
  { window_size := 5, column_count := 1, sample_count := 1, scale_value := 1 / 2,
    scale_inverse := 2, filter_width := 2, filter_weights := some [0, 0, 0, 0, 0] }

/-! # Properties -/

namespace image

/-! ## Machine-integer helpers -/

theorem size_t_wrap_lt (x : Nat) : size_t_wrap x < SIZE_T_MOD :=
  Nat.mod_lt _ (by norm_num)

theorem size_t_wrap_of_lt {x : Nat} (h : x < SIZE_T_MOD) : size_t_wrap x = x :=
  Nat.mod_eq_of_lt h

theorem ceil_div_four (n : Nat) : ⌈(n : ℚ) / 4⌉₊ = (n + 3) / 4 := by
  apply le_antisymm
  · rw [Nat.ceil_le, div_le_iff₀ (by norm_num)]
    have h : n ≤ (n + 3) / 4 * 4 := by omega
    exact_mod_cast h
  · by_contra hlt
    push_neg at hlt
    have h1 : ⌈(n : ℚ) / 4⌉₊ + 1 ≤ (n + 3) / 4 := hlt
    have h2 : (n : ℚ) / 4 ≤ ⌈(n : ℚ) / 4⌉₊ := Nat.le_ceil _
    rw [div_le_iff₀ (by norm_num)] at h2
    have h3 : n ≤ ⌈(n : ℚ) / 4⌉₊ * 4 := by exact_mod_cast h2
    omega

/-! ## The level-count loop -/

theorem miplevel_count_loop_zero (c : Nat) : miplevel_count_loop 0 c = c := by
  rw [miplevel_count_loop]; simp

theorem miplevel_count_loop_pos (m c : Nat) (hm : 0 < m) :
    miplevel_count_loop m c = miplevel_count_loop (m / 2) (size_t_wrap (c + 1)) := by
  rw [miplevel_count_loop]
  simp [hm, Nat.shiftRight_eq_div_pow]

theorem miplevel_count_loop_eq (m : Nat) :
    ∀ c, 1 ≤ m → c + Nat.log 2 m + 1 < SIZE_T_MOD →
      miplevel_count_loop m c = c + Nat.log 2 m + 1 := by
  induction m using Nat.strong_induction_on with
  | _ m ih =>
    intro c hm hc
    rw [miplevel_count_loop_pos m c hm]
    have hwrap : size_t_wrap (c + 1) = c + 1 := size_t_wrap_of_lt (by omega)
    rw [hwrap]
    rcases Nat.lt_or_ge m 2 with h2 | h2
    · have h1 : m = 1 := by omega
      subst h1
      simp [miplevel_count_loop_zero]
    · have hlog : Nat.log 2 m = Nat.log 2 (m / 2) + 1 :=
        Nat.log_of_one_lt_of_le (by norm_num) h2
      have hlt : m / 2 < m := by omega
      have hpos : 1 ≤ m / 2 := by omega
      rw [ih (m / 2) hlt (c + 1) hpos (by omega), hlog]
      omega

theorem miplevel_count_major_dim (w h s : Nat) :
    miplevel_count w h s = miplevel_count_loop (max w (max h s)) 0 := by
  have hmax : (if s > (if w > h then w else h) then s else (if w > h then w else h)) =
      max w (max h s) := by
    split_ifs <;> omega
  simp only [miplevel_count, hmax]

theorem log2_lt_64 (m : Nat) (hm : m < 2 ^ 64) : Nat.log 2 m < 64 := by
  rcases Nat.eq_zero_or_pos m with h0 | h0
  · subst h0; simp
  · exact Nat.log_lt_of_lt_pow (by omega) hm

theorem miplevel_count_eq (w h s : Nat) (hm : 1 ≤ max w (max h s))
    (hlt : max w (max h s) < 2 ^ 64) :
    miplevel_count w h s = Nat.log 2 (max w (max h s)) + 1 := by
  rw [miplevel_count_major_dim, miplevel_count_loop_eq _ 0 hm]
  · omega
  · have := log2_lt_64 _ hlt
    simp only [SIZE_T_MOD]
    omega

/-! ## The size accumulation loop -/

theorem miplevel_size_loop_eq (f : Int) (w h s : Nat) :
    ∀ count index total, total < SIZE_T_MOD →
      miplevel_size_loop f w h s count index total =
        (total + ∑ k in Finset.range count, miplevel_size f w h s (index + k)) %
          SIZE_T_MOD := by
  intro count
  induction count with
  | zero =>
    intro index total ht
    simp [miplevel_size_loop, Nat.mod_eq_of_lt ht]
  | succ n ih =>
    intro index total ht
    rw [miplevel_size_loop, ih (index + 1) _ (size_t_wrap_lt _), Finset.sum_range_succ']
    unfold size_t_wrap
    have hre : ∀ k, index + 1 + k = index + (k + 1) := by intro k; omega
    simp only [hre, Nat.add_zero]
    rw [Nat.add_mod, Nat.mod_mod, ← Nat.add_mod]
    congr 1
    omega

theorem miplevel_offset_eq (f : Int) (w h s i : Nat) :
    miplevel_offset f w h s i =
      (∑ k in Finset.range i, miplevel_size f w h s k) % SIZE_T_MOD := by
  unfold miplevel_offset
  rw [miplevel_size_loop_eq f w h s i 0 0 (by norm_num)]
  simp

theorem miplevel_size_lt (f : Int) (w h s i : Nat) :
    miplevel_size f w h s i < SIZE_T_MOD := by
  unfold miplevel_size
  exact size_t_wrap_lt _

/-! ## Level dimensions below the `int` range -/

theorem miplevel_width_of_lt (w i : Nat) (h : w >>> i < 2 ^ 31) :
    miplevel_width w i = max 1 (w >>> i) := by
  unfold miplevel_width size_t_to_int int_to_size_t
  have h32 : (w >>> i) % 2 ^ 32 = w >>> i := Nat.mod_eq_of_lt (by omega)
  simp only [h32, if_pos h]
  by_cases h0 : w >>> i = 0
  · simp [h0]
  · have hne : ¬ (0 : Int) = ((w >>> i : Nat) : Int) := by omega
    rw [if_neg hne]
    have hmax : max 1 (w >>> i) = w >>> i := by omega
    rw [hmax]
    omega

theorem miplevel_height_eq_width (h i : Nat) : miplevel_height h i = miplevel_width h i := rfl

theorem miplevel_slices_eq_width (s i : Nat) : miplevel_slices s i = miplevel_width s i := rfl

theorem miplevel_width_succ_of_lt (w i : Nat) (h : w < 2 ^ 31) :
    miplevel_width w (i + 1) = max 1 (miplevel_width w i / 2) := by
  have hi : w >>> i < 2 ^ 31 :=
    lt_of_le_of_lt (by rw [Nat.shiftRight_eq_div_pow]; exact Nat.div_le_self _ _) h
  have hi1 : w >>> (i + 1) < 2 ^ 31 :=
    lt_of_le_of_lt (by rw [Nat.shiftRight_eq_div_pow]; exact Nat.div_le_self _ _) h
  rw [miplevel_width_of_lt w i hi, miplevel_width_of_lt w (i + 1) hi1, Nat.shiftRight_succ]
  rcases Nat.eq_zero_or_pos (w >>> i) with h0 | h0
  · rw [h0]; rfl
  · have hmax : max 1 (w >>> i) = w >>> i := by omega
    rw [hmax]

/-! ## Format families -/

theorem block_compressed_cases (f : Int) (hf : is_block_compressed_format f = true) :
    f = 15 ∨ f = 16 ∨ f = 17 ∨ f = 18 ∨ f = 19 ∨ f = 20 ∨ f = 21 ∨ f = 22 ∨ f = 23 ∨
      f = 24 ∨ f = 25 ∨ f = 26 ∨ f = 27 := by
  simpa [is_block_compressed_format, or_assoc] using hf

theorem block_compressed_facts (f : Int) (hf : is_block_compressed_format f = true) :
    is_compressed_format f = true ∧ FORMAT_PVRTC1 ≠ f ∧ FORMAT_PVRTC2 ≠ f := by
  rcases block_compressed_cases f hf with h | h | h | h | h | h | h | h | h | h | h | h | h <;>
    subst h <;> decide

/-! ## Claims on the container layout -/

/-- C1 (counterexample). With `levels = 0` the function does not return the
empty sum: it substitutes `miplevel_count` and returns the size of the whole
chain (1 byte for a 1x1x1 `R8` image). With two levels of a
2147483647 x 2147483647 x 4 `R8` image the exact sum of the two level sizes
is above `2 ^ 64` and the function returns it reduced modulo `2 ^ 64`. -/
theorem subimage_face_size_counterexample :
    subimage_face_size FORMAT_R8 1 1 1 0 = 1 ∧
    (∑ i in Finset.range 0, miplevel_size FORMAT_R8 1 1 1 i) = 0 ∧
    subimage_face_size FORMAT_R8 2147483647 2147483647 4 2 = 2305842987738857478 ∧
    (∑ i in Finset.range 2, miplevel_size FORMAT_R8 2147483647 2147483647 4 i) =
      20752587061448409094 := by
  refine ⟨?_, by simp, by decide, ?_⟩
  · simp [subimage_face_size, miplevel_count, miplevel_count_loop, miplevel_size_loop,
      size_t_wrap]
    decide
  · simp only [Finset.sum_range_succ, Finset.sum_range_zero]
    decide

/-- C1 (amended). `subimage_face_size` is the sum of `miplevel_size` over the
levels `[0, n)` reduced modulo `2 ^ 64`, where `n` is `levels` when
`levels >= 1` and `miplevel_count w h slices` when `levels = 0`; for
`levels >= 1` it is exactly the sum of the claim whenever that sum is below
`2 ^ 64`. -/
theorem subimage_face_size_eq_sum (image_format : Int) (w h slices levels : Nat) :
    subimage_face_size image_format w h slices levels =
      (∑ i in Finset.range (if levels = 0 then miplevel_count w h slices else levels),
        miplevel_size image_format w h slices i) % 2 ^ 64 ∧
    (1 ≤ levels →
      (∑ i in Finset.range levels, miplevel_size image_format w h slices i) < 2 ^ 64 →
      subimage_face_size image_format w h slices levels =
        ∑ i in Finset.range levels, miplevel_size image_format w h slices i) := by
  have key : subimage_face_size image_format w h slices levels =
      (∑ i in Finset.range (if levels = 0 then miplevel_count w h slices else levels),
        miplevel_size image_format w h slices i) % 2 ^ 64 := by
    unfold subimage_face_size
    simp only []
    rw [miplevel_size_loop_eq image_format w h slices _ 0 0 (by norm_num)]
    simp [SIZE_T_MOD, eq_comm]
  refine ⟨key, ?_⟩
  intro hl hsum
  have hne : ¬ levels = 0 := by omega
  rw [key, if_neg hne, Nat.mod_eq_of_lt hsum]

/-- C2 (failing input). A level-0 width of `2 ^ 32` at level 0 passes through
the `int` local as 0 and comes back as 1, not as `max 1 (w >>> 0) = 2 ^ 32`;
a width of `2 ^ 31` comes back sign-extended. Height and slices behave the
same way. -/
theorem miplevel_width_int_truncation :
    miplevel_width 4294967296 0 = 1 ∧
    max 1 (4294967296 >>> 0) = 4294967296 ∧
    miplevel_height 4294967296 0 = 1 ∧
    miplevel_slices 4294967296 0 = 1 ∧
    miplevel_width 2147483648 0 = 18446744071562067968 ∧
    max 1 (2147483648 >>> 0) = 2147483648 := by
  decide

/-- C3. For `size_t` dimensions whose maximum `m` is at least 1,
`miplevel_count` is `floor(log2 m) + 1`, the unique `n` with
`2 ^ (n - 1) <= m < 2 ^ n`; `miplevel_count 1 1 1 = 1` and
`miplevel_count 256 1 1 = 9`. -/
theorem miplevel_count_eq_log2 (w h s : Nat)
    (hw : w < 2 ^ 64) (hh : h < 2 ^ 64) (hs : s < 2 ^ 64)
    (hm : 1 ≤ max w (max h s)) :
    miplevel_count w h s = Nat.log 2 (max w (max h s)) + 1 ∧
    2 ^ (miplevel_count w h s - 1) ≤ max w (max h s) ∧
    max w (max h s) < 2 ^ miplevel_count w h s ∧
    (∀ n, 2 ^ (n - 1) ≤ max w (max h s) → max w (max h s) < 2 ^ n →
      n = miplevel_count w h s) ∧
    miplevel_count 1 1 1 = 1 ∧ miplevel_count 256 1 1 = 9 := by
  have hlt : max w (max h s) < 2 ^ 64 := by
    simp only [max_lt_iff]
    exact ⟨hw, hh, hs⟩
  have hne : max w (max h s) ≠ 0 := by omega
  have hc := miplevel_count_eq w h s hm hlt
  refine ⟨hc, ?_, ?_, ?_, ?_, ?_⟩
  · rw [hc, Nat.add_sub_cancel]
    exact Nat.pow_log_le_self 2 hne
  · rw [hc]
    exact Nat.lt_pow_succ_log_self (by norm_num) _
  · intro n h1 h2
    rw [hc]
    rcases Nat.eq_zero_or_pos n with h0 | h0
    · subst h0
      simp at h2
      omega
    · have hn : n = (n - 1) + 1 := by omega
      rw [hn] at h2
      have := Nat.log_eq_of_pow_le_of_lt_pow h1 h2
      omega
  · rw [miplevel_count_eq 1 1 1 (by decide) (by decide)]
    simp
  · rw [miplevel_count_eq 256 1 1 (by decide) (by decide)]
    have : max 256 (max 1 1) = 2 ^ 8 := by norm_num
    rw [this, Nat.log_pow (by norm_num)]

/-- C3 (witness): a 300 x 200 x 1 image. -/
theorem miplevel_count_eq_log2_witness :
    miplevel_count 300 200 1 = Nat.log 2 (max 300 (max 200 1)) + 1 ∧
    2 ^ (miplevel_count 300 200 1 - 1) ≤ max 300 (max 200 1) ∧
    max 300 (max 200 1) < 2 ^ miplevel_count 300 200 1 ∧
    (∀ n, 2 ^ (n - 1) ≤ max 300 (max 200 1) → max 300 (max 200 1) < 2 ^ n →
      n = miplevel_count 300 200 1) ∧
    miplevel_count 1 1 1 = 1 ∧ miplevel_count 256 1 1 = 9 :=
  miplevel_count_eq_log2 300 200 1 (by norm_num) (by norm_num) (by norm_num) (by decide)

/-- C4 (counterexample). A 1073741824 x 1073741824 `RGBA32F` level has
`2 ^ 30 * 2 ^ 30 * 16 = 2 ^ 64` bytes, which `size_t` cannot hold: the slice
size comes back as 0. Eight slices of a 2147483647 x 2147483647 `R8` level
overflow in the same way in `miplevel_size`. -/
theorem miplevel_size_plain_counterexample :
    is_compressed_format FORMAT_RGBA32F = false ∧
    miplevel_slice_size FORMAT_RGBA32F 1073741824 1073741824 0 = 0 ∧
    miplevel_width 1073741824 0 * miplevel_height 1073741824 0 *
      bytes_per_pixel FORMAT_RGBA32F = 18446744073709551616 ∧
    is_compressed_format FORMAT_R8 = false ∧
    miplevel_size FORMAT_R8 2147483647 2147483647 8 0 = 18446744039349813256 ∧
    miplevel_slice_size FORMAT_R8 2147483647 2147483647 0 * miplevel_slices 8 0 =
      36893488113059364872 := by
  decide

/-- C4 (amended). For a non-compressed format the slice size is
`miplevel_width * miplevel_height * bytes_per_pixel` and the level size is
the slice size times `miplevel_slices`, both reduced modulo `2 ^ 64`; each
is the exact product whenever that product is below `2 ^ 64`. -/
theorem miplevel_size_plain (f : Int) (w h s i : Nat)
    (hf : is_compressed_format f = false) :
    miplevel_slice_size f w h i =
      (miplevel_width w i * miplevel_height h i * bytes_per_pixel f) % 2 ^ 64 ∧
    miplevel_size f w h s i =
      (miplevel_slice_size f w h i * miplevel_slices s i) % 2 ^ 64 ∧
    (miplevel_width w i * miplevel_height h i * bytes_per_pixel f < 2 ^ 64 →
      miplevel_slice_size f w h i =
        miplevel_width w i * miplevel_height h i * bytes_per_pixel f) ∧
    (miplevel_slice_size f w h i * miplevel_slices s i < 2 ^ 64 →
      miplevel_size f w h s i = miplevel_slice_size f w h i * miplevel_slices s i) := by
  have hslice : miplevel_slice_size f w h i =
      (miplevel_width w i * miplevel_height h i * bytes_per_pixel f) % 2 ^ 64 := by
    unfold miplevel_slice_size
    simp only [hf, size_t_wrap, SIZE_T_MOD]
    rw [if_neg (by simp), Nat.mod_mul_mod]
  have hsize : miplevel_size f w h s i =
      (miplevel_slice_size f w h i * miplevel_slices s i) % 2 ^ 64 := rfl
  refine ⟨hslice, hsize, ?_, ?_⟩
  · intro hlt
    rw [hslice, Nat.mod_eq_of_lt hlt]
  · intro hlt
    rw [hsize, Nat.mod_eq_of_lt hlt]

/-- C4 (witness): level 3 of a 300 x 200 `RGB8` image. -/
theorem miplevel_size_plain_witness :
    miplevel_slice_size FORMAT_RGB8 300 200 3 =
      (miplevel_width 300 3 * miplevel_height 200 3 * bytes_per_pixel FORMAT_RGB8) % 2 ^ 64 ∧
    miplevel_size FORMAT_RGB8 300 200 1 3 =
      (miplevel_slice_size FORMAT_RGB8 300 200 3 * miplevel_slices 1 3) % 2 ^ 64 ∧
    (miplevel_width 300 3 * miplevel_height 200 3 * bytes_per_pixel FORMAT_RGB8 < 2 ^ 64 →
      miplevel_slice_size FORMAT_RGB8 300 200 3 =
        miplevel_width 300 3 * miplevel_height 200 3 * bytes_per_pixel FORMAT_RGB8) ∧
    (miplevel_slice_size FORMAT_RGB8 300 200 3 * miplevel_slices 1 3 < 2 ^ 64 →
      miplevel_size FORMAT_RGB8 300 200 1 3 =
        miplevel_slice_size FORMAT_RGB8 300 200 3 * miplevel_slices 1 3) :=
  miplevel_size_plain FORMAT_RGB8 300 200 1 3 (by decide)

/-- C5 (counterexample). At level 0 of an 18446744073709551615 x 1 image the
level width is `2 ^ 64 - 1`: for `BC1` the padding `level_width + 3` wraps to
2 and the slice size is 0 instead of `2 ^ 62 * 1 * 8`; for `PVRTC1` and
`PVRTC2` the product wraps before the division by 8. -/
theorem miplevel_slice_size_compressed_counterexample :
    miplevel_width 18446744073709551615 0 = 18446744073709551615 ∧
    miplevel_height 1 0 = 1 ∧
    miplevel_slice_size FORMAT_BC1 18446744073709551615 1 0 = 0 ∧
    ⌈((miplevel_width 18446744073709551615 0 : Nat) : ℚ) / 4⌉₊ *
      ⌈((miplevel_height 1 0 : Nat) : ℚ) / 4⌉₊ * bytes_per_block FORMAT_BC1 =
        36893488147419103232 ∧
    miplevel_slice_size FORMAT_PVRTC1 18446744073709551615 1 0 = 2305843009213693950 ∧
    (max (miplevel_width 18446744073709551615 0) 16 * max (miplevel_height 1 0) 8 * 2 + 7)
      / 8 = 36893488147419103230 ∧
    miplevel_slice_size FORMAT_PVRTC2 18446744073709551615 1 0 = 2305843009213693948 ∧
    (max (miplevel_width 18446744073709551615 0) 8 * max (miplevel_height 1 0) 8 * 4 + 7)
      / 8 = 73786976294838206460 := by
  refine ⟨by decide, by decide, by decide, ?_, by decide, by decide, by decide, by decide⟩
  rw [ceil_div_four, ceil_div_four]
  decide

theorem CMN_MAX_eq_max (x y : Nat) : CMN_MAX x y = max x y := by
  unfold CMN_MAX
  split_ifs <;> omega

/-- C5 (amended). With `lw = miplevel_width w i` and `lh = miplevel_height h i`:
for a block-compressed format the slice size is
`ceil(lw/4) * ceil(lh/4) * bytes_per_block f` provided `lw + 3`, `lh + 3` and
that product are below `2 ^ 64`; for `PVRTC1` it is
`(max lw 16 * max lh 8 * 2 + 7) / 8` provided the dividend is below `2 ^ 64`,
and for `PVRTC2` it is `(max lw 8 * max lh 8 * 4 + 7) / 8` under the same
proviso. -/
theorem miplevel_slice_size_compressed (w h i : Nat) :
    (∀ f : Int, is_block_compressed_format f = true →
      miplevel_width w i + 3 < 2 ^ 64 → miplevel_height h i + 3 < 2 ^ 64 →
      ⌈((miplevel_width w i : Nat) : ℚ) / 4⌉₊ * ⌈((miplevel_height h i : Nat) : ℚ) / 4⌉₊ *
        bytes_per_block f < 2 ^ 64 →
      miplevel_slice_size f w h i =
        ⌈((miplevel_width w i : Nat) : ℚ) / 4⌉₊ * ⌈((miplevel_height h i : Nat) : ℚ) / 4⌉₊ *
          bytes_per_block f) ∧
    (max (miplevel_width w i) 16 * max (miplevel_height h i) 8 * 2 + 7 < 2 ^ 64 →
      miplevel_slice_size FORMAT_PVRTC1 w h i =
        (max (miplevel_width w i) 16 * max (miplevel_height h i) 8 * 2 + 7) / 8) ∧
    (max (miplevel_width w i) 8 * max (miplevel_height h i) 8 * 4 + 7 < 2 ^ 64 →
      miplevel_slice_size FORMAT_PVRTC2 w h i =
        (max (miplevel_width w i) 8 * max (miplevel_height h i) 8 * 4 + 7) / 8) := by
  refine ⟨?_, ?_, ?_⟩
  · intro f hf hw hh hprod
    obtain ⟨hc, h1, h2⟩ := block_compressed_facts f hf
    rw [ceil_div_four, ceil_div_four] at hprod ⊢
    unfold miplevel_slice_size
    simp only [hc, if_true, if_neg h1, if_neg h2, size_t_wrap, SIZE_T_MOD,
      Nat.shiftRight_eq_div_pow]
    rw [Nat.mod_eq_of_lt hw, Nat.mod_eq_of_lt hh, Nat.mod_mul_mod, Nat.mod_eq_of_lt]
    simpa using hprod
  · intro hlt
    unfold miplevel_slice_size
    have hc : is_compressed_format FORMAT_PVRTC1 = true := by decide
    simp only [hc, if_true, size_t_wrap, SIZE_T_MOD, CMN_MAX_eq_max]
    rw [Nat.mod_mul_mod, Nat.mod_add_mod, Nat.mod_eq_of_lt hlt]
  · intro hlt
    unfold miplevel_slice_size
    have hc : is_compressed_format FORMAT_PVRTC2 = true := by decide
    have hne : ¬ FORMAT_PVRTC1 = FORMAT_PVRTC2 := by decide
    simp only [hc, if_true, if_neg hne, size_t_wrap, SIZE_T_MOD, CMN_MAX_eq_max]
    rw [Nat.mod_mul_mod, Nat.mod_add_mod, Nat.mod_eq_of_lt hlt]

/-- C6 (counterexample). For a 2147483647 x 2147483647 x 4 `R8` image the
first two levels together exceed `2 ^ 64` bytes: the offset of level 2 is not
the offset of level 1 plus the size of level 1, and it lies below the end of
level 0. -/
theorem miplevel_offset_counterexample :
    miplevel_offset FORMAT_R8 2147483647 2147483647 4 1 = 18446744056529682436 ∧
    miplevel_size FORMAT_R8 2147483647 2147483647 4 1 = 2305843004918726658 ∧
    miplevel_offset FORMAT_R8 2147483647 2147483647 4 2 = 2305842987738857478 ∧
    miplevel_offset FORMAT_R8 2147483647 2147483647 4 2 ≠
      miplevel_offset FORMAT_R8 2147483647 2147483647 4 1 +
        miplevel_size FORMAT_R8 2147483647 2147483647 4 1 ∧
    ¬ (miplevel_offset FORMAT_R8 2147483647 2147483647 4 0 +
        miplevel_size FORMAT_R8 2147483647 2147483647 4 0 ≤
      miplevel_offset FORMAT_R8 2147483647 2147483647 4 2) := by
  decide

/-- C6 (amended). `miplevel_offset` is the prefix sum of `miplevel_size` in
`size_t` arithmetic: it is 0 at level 0 and each step adds the level size
modulo `2 ^ 64`. Whenever the levels before `j` total less than `2 ^ 64`
bytes, every step below `j` is exact and the byte range of each level
`i < j` ends at or before the start of level `j`. -/
theorem miplevel_offset_prefix_sum (f : Int) (w h s : Nat) :
    miplevel_offset f w h s 0 = 0 ∧
    (∀ i, miplevel_offset f w h s (i + 1) =
      (miplevel_offset f w h s i + miplevel_size f w h s i) % 2 ^ 64) ∧
    (∀ j, (∑ k in Finset.range j, miplevel_size f w h s k) < 2 ^ 64 →
      ∀ i, i < j →
        miplevel_offset f w h s (i + 1) =
          miplevel_offset f w h s i + miplevel_size f w h s i ∧
        miplevel_offset f w h s i + miplevel_size f w h s i ≤ miplevel_offset f w h s j) := by
  refine ⟨rfl, ?_, ?_⟩
  · intro i
    rw [miplevel_offset_eq, miplevel_offset_eq, Finset.sum_range_succ]
    simp [SIZE_T_MOD]
  · intro j hj i hij
    have hmono : ∀ n, n ≤ j →
        (∑ k in Finset.range n, miplevel_size f w h s k) ≤
          ∑ k in Finset.range j, miplevel_size f w h s k := by
      intro n hn
      exact Finset.sum_le_sum_of_subset (Finset.range_mono hn)
    have hexact : ∀ n, n ≤ j →
        miplevel_offset f w h s n = ∑ k in Finset.range n, miplevel_size f w h s k := by
      intro n hn
      rw [miplevel_offset_eq]
      exact Nat.mod_eq_of_lt (lt_of_le_of_lt (hmono n hn) hj)
    rw [hexact (i + 1) hij, hexact i (le_of_lt hij), hexact j le_rfl,
      ← Finset.sum_range_succ]
    exact ⟨rfl, hmono (i + 1) hij⟩

/-- C9 (failing input). For a level-0 width (or height) of `2 ^ 32`, level 1
comes back as `2 ^ 64 - 2 ^ 31` (the `int` local holds `-2 ^ 31`), which is
not half of the level-0 dimension and not `max 1 (miplevel_width w 0 / 2)`. -/
theorem miplevel_width_halving_fails :
    miplevel_width 4294967296 1 = 18446744071562067968 ∧
    max 1 (miplevel_width 4294967296 0 / 2) = 1 ∧
    max 1 (4294967296 / 2) = 2147483648 ∧
    miplevel_height 4294967296 1 = 18446744071562067968 ∧
    max 1 (miplevel_height 4294967296 0 / 2) = 1 := by
  decide

end image

/-! ## Input sanitisation -/

theorem land_pred_even (u : Nat) (hu : 1 ≤ u) :
    (2 * u) &&& (2 * u - 1) = 2 * (u &&& (u - 1)) := by
  have h1 : 2 * u = Nat.bit false u := by simp [Nat.bit_val]
  have h2 : 2 * u - 1 = Nat.bit true (u - 1) := by simp [Nat.bit_val]; omega
  rw [h2, h1, Nat.land_bit]
  simp [Nat.bit_val]

theorem land_pred_odd (u : Nat) : (2 * u + 1) &&& (2 * u + 1 - 1) = 2 * u := by
  have h1 : 2 * u + 1 = Nat.bit true u := by simp [Nat.bit_val]
  have h2 : 2 * u + 1 - 1 = Nat.bit false u := by simp [Nat.bit_val]
  rw [h2, h1, Nat.land_bit]
  simp [Nat.bit_val]

theorem land_pred_eq_zero_iff (v : Nat) : 1 ≤ v → (v &&& (v - 1) = 0 ↔ ∃ k, v = 2 ^ k) := by
  induction v using Nat.strong_induction_on with
  | _ v ih =>
    intro hv
    rcases Nat.even_or_odd' v with ⟨u, hu | hu⟩
    · subst hu
      have hu1 : 1 ≤ u := by omega
      rw [land_pred_even u hu1]
      have := ih u (by omega) hu1
      constructor
      · intro h
        have h0 : u &&& (u - 1) = 0 := by omega
        obtain ⟨k, hk⟩ := this.1 h0
        exact ⟨k + 1, by rw [hk, pow_succ]; ring⟩
      · rintro ⟨k, hk⟩
        rcases k with _ | k
        · rw [pow_zero] at hk; omega
        · have hu2 : u = 2 ^ k := by rw [pow_succ] at hk; omega
          have := this.2 ⟨k, hu2⟩
          omega
    · subst hu
      rw [land_pred_odd u]
      constructor
      · intro h
        have : u = 0 := by omega
        subst this
        exact ⟨0, rfl⟩
      · rintro ⟨k, hk⟩
        rcases k with _ | k
        · rw [pow_zero] at hk; omega
        · rw [pow_succ] at hk; omega

theorem is_pow2_iff (v : Nat) (h1 : 1 ≤ v) (hv : v < 2 ^ 64) :
    is_pow2 v = true ↔ ∃ k, v = 2 ^ k := by
  have hwrap : size_t_wrap (v + (SIZE_T_MOD - 1)) = v - 1 := by
    unfold size_t_wrap
    simp only [SIZE_T_MOD]
    omega
  unfold is_pow2
  rw [hwrap, beq_iff_eq]
  exact land_pred_eq_zero_iff v h1

theorem pow2_loop_spec (source : Nat) (hs : Nat.clog 2 source ≤ 63) :
    ∀ d j fuel, Nat.clog 2 source = j + d → d < fuel →
      pow2_loop fuel (2 ^ j) source = some (2 ^ Nat.clog 2 source) := by
  intro d
  induction d with
  | zero =>
    intro j fuel hj hfuel
    obtain ⟨f, rfl⟩ : ∃ f, fuel = f + 1 := ⟨fuel - 1, by omega⟩
    have hle : source ≤ 2 ^ j := (Nat.le_pow_iff_clog_le (by norm_num)).2 (by omega)
    rw [pow2_loop, if_neg (by omega)]
    simp at hj
    rw [hj]
  | succ d ih =>
    intro j fuel hj hfuel
    obtain ⟨f, rfl⟩ : ∃ f, fuel = f + 1 := ⟨fuel - 1, by omega⟩
    have hlt : 2 ^ j < source := by
      by_contra hcon
      have := (Nat.le_pow_iff_clog_le (b := 2) (by norm_num)).1 (not_lt.1 hcon)
      omega
    have hj63 : j + 1 ≤ 63 := by omega
    have hpow : 2 ^ (j + 1) < 2 ^ 64 := Nat.pow_lt_pow_right (by norm_num) (by omega)
    have hwrap : size_t_wrap (2 ^ j <<< 1) = 2 ^ (j + 1) := by
      unfold size_t_wrap
      rw [Nat.shiftLeft_eq, pow_one, ← pow_succ]
      exact Nat.mod_eq_of_lt hpow
    rw [pow2_loop, if_pos hlt, hwrap]
    exact ih (j + 1) f (by omega) (by omega)

theorem pow2_loop_eq (source fuel : Nat) (hs : source ≤ 2 ^ 63) (hfuel : 64 ≤ fuel) :
    pow2_loop fuel 1 source = some (2 ^ Nat.clog 2 source) := by
  have hc : Nat.clog 2 source ≤ 63 := (Nat.le_pow_iff_clog_le (by norm_num)).1 hs
  have := pow2_loop_spec source hc (Nat.clog 2 source) 0 fuel (by omega) (by omega)
  simpa using this

theorem pow2_loop_diverges (source : Nat) (hs : 2 ^ 63 < source) :
    ∀ fuel, pow2_loop fuel 1 source = none := by
  have hzero : ∀ fuel, pow2_loop fuel 0 source = none := by
    intro fuel
    induction fuel with
    | zero => rfl
    | succ f ih =>
      rw [pow2_loop, if_pos (by omega)]
      simpa [size_t_wrap] using ih
  have hstep : ∀ fuel j, j ≤ 63 → pow2_loop fuel (2 ^ j) source = none := by
    intro fuel
    induction fuel with
    | zero => intro j _; rfl
    | succ f ih =>
      intro j hj
      have hlt : 2 ^ j < source :=
        lt_of_le_of_lt (Nat.pow_le_pow_right (by norm_num) hj) hs
      rw [pow2_loop, if_pos hlt]
      rcases Nat.lt_or_ge j 63 with h | h
      · have hwrap : size_t_wrap (2 ^ j <<< 1) = 2 ^ (j + 1) := by
          unfold size_t_wrap
          rw [Nat.shiftLeft_eq, pow_one, ← pow_succ]
          exact Nat.mod_eq_of_lt (Nat.pow_lt_pow_right (by norm_num) (by omega))
        rw [hwrap]
        exact ih (j + 1) (by omega)
      · have hj' : j = 63 := by omega
        subst hj'
        have hwrap : size_t_wrap (2 ^ 63 <<< 1) = 0 := by decide
        rw [hwrap]
        exact hzero f
  intro fuel
  simpa using hstep fuel 0 (by omega)


/-- The result of `texture_compiler_inputs_sanitize`, spelled out: it returns
exactly when both dimension adjustments do, with the record below. -/
theorem sanitize_unfold {α : Type} (fuel : Nat) (inputs : texture_compiler_inputs_t α)
    (out : texture_compiler_inputs_t α) :
    texture_compiler_inputs_sanitize fuel inputs = some out ↔ 
    ∃ tw th,
      (if (if inputs.build_mipmaps then true else inputs.force_pow2) then
        if !is_pow2 (if 0 = inputs.target_width then inputs.input_image.channel_width
            else inputs.target_width) then
          pow2_loop fuel 1 inputs.input_image.channel_width
        else some (if 0 = inputs.target_width then inputs.input_image.channel_width
            else inputs.target_width)
      else some (if 0 = inputs.target_width then inputs.input_image.channel_width
            else inputs.target_width)) = some tw ∧
      (if (if inputs.build_mipmaps then true else inputs.force_pow2) then
        if !is_pow2 (if 0 = inputs.target_height then inputs.input_image.channel_height
            else inputs.target_height) then
          pow2_loop fuel 1 inputs.input_image.channel_height
        else some (if 0 = inputs.target_height then inputs.input_image.channel_height
            else inputs.target_height)
      else some (if 0 = inputs.target_height then inputs.input_image.channel_height
            else inputs.target_height)) = some th ∧
      out = { inputs with
        force_pow2 := (if inputs.build_mipmaps then true else inputs.force_pow2)
        target_width := tw
        target_height := th
        maximum_levels :=
          if inputs.build_mipmaps then
            if (if inputs.maximum_levels = 0 then image.miplevel_count tw th 1
                else inputs.maximum_levels) ≤ image.miplevel_count tw th 1 then
              (if inputs.maximum_levels = 0 then image.miplevel_count tw th 1
                else inputs.maximum_levels)
            else image.miplevel_count tw th 1
          else 1 } := by
  unfold texture_compiler_inputs_sanitize
  simp only [Option.bind_eq_bind, Option.bind_eq_some, Option.some.injEq, bind, pure]
  constructor
  · rintro ⟨tw, htw, th, hth, rfl⟩
    exact ⟨tw, th, htw, hth, rfl⟩
  · rintro ⟨tw, th, htw, hth, rfl⟩
    exact ⟨tw, htw, th, hth, rfl⟩


theorem pow2_clog_least (s : Nat) :
    s ≤ 2 ^ Nat.clog 2 s ∧ ∀ j, s ≤ 2 ^ j → 2 ^ Nat.clog 2 s ≤ 2 ^ j := by
  refine ⟨Nat.le_pow_clog (by norm_num) s, ?_⟩
  intro j hj
  exact Nat.pow_le_pow_right (by norm_num) ((Nat.le_pow_iff_clog_le (by norm_num)).1 hj)

theorem pow2_loop_lt (source : Nat) :
    ∀ fuel target r, target < 2 ^ 64 → pow2_loop fuel target source = some r → r < 2 ^ 64 := by
  intro fuel
  induction fuel with
  | zero => intro target r _ h; simp [pow2_loop] at h
  | succ f ih =>
    intro target r ht h
    rw [pow2_loop] at h
    split_ifs at h with hlt
    · exact ih _ r (Nat.mod_lt _ (by norm_num)) h
    · simp only [Option.some.injEq] at h
      omega

/-- One dimension of the power-of-two adjustment of
`texture_compiler_inputs_sanitize`, for a source dimension in `[1, 2 ^ 63]`. -/
theorem sanitize_dim (fuel : Nat) (flag : Bool) (t s : Nat)
    (hs1 : 1 ≤ s) (hs : s ≤ 2 ^ 63) (ht : t < 2 ^ 64) (hfuel : 64 ≤ fuel) :
    ∃ r, (if flag then
            if !is_pow2 (if 0 = t then s else t) then pow2_loop fuel 1 s
            else some (if 0 = t then s else t)
          else some (if 0 = t then s else t)) = some r ∧
      (flag = true →
        ((∃ k, (if 0 = t then s else t) = 2 ^ k) → r = (if 0 = t then s else t)) ∧
        ((¬ ∃ k, (if 0 = t then s else t) = 2 ^ k) → r = 2 ^ Nat.clog 2 s) ∧
        ∃ k, r = 2 ^ k) ∧
      (flag = false → r = (if 0 = t then s else t)) := by
  have ht0 : 1 ≤ (if 0 = t then s else t) ∧ (if 0 = t then s else t) < 2 ^ 64 := by
    split_ifs <;> omega
  have hiff := is_pow2_iff _ ht0.1 ht0.2
  cases flag with
  | false => exact ⟨_, rfl, by simp, by simp⟩
  | true =>
    by_cases hp : is_pow2 (if 0 = t then s else t) = true
    · refine ⟨(if 0 = t then s else t), by simp [hp], ?_, by simp⟩
      intro _
      exact ⟨fun _ => rfl, fun hn => absurd (hiff.1 hp) hn, hiff.1 hp⟩
    · refine ⟨2 ^ Nat.clog 2 s, ?_, ?_, by simp⟩
      · simp only [if_true, hp, Bool.not_false]
        simp only [Bool.not_eq_true] at hp
        simp [hp, pow2_loop_eq s fuel hs hfuel]
      · intro _
        exact ⟨fun hk => absurd (hiff.2 hk) hp, fun _ => rfl, ⟨_, rfl⟩⟩

theorem valid_dims_le {α : Type} (b : image.buffer_t α) (hv : b.valid)
    (hw : 1 ≤ b.channel_width) (hh : 1 ≤ b.channel_height) :
    b.channel_width ≤ 2 ^ 63 ∧ b.channel_height ≤ 2 ^ 63 := by
  obtain ⟨hc1, _, _, _, hsz⟩ := hv
  simp only [SIZE_T_MOD] at hsz
  have h1 : b.channel_width ≤ b.channel_width * b.channel_height :=
    Nat.le_mul_of_pos_right _ hh
  have h2 : b.channel_height ≤ b.channel_width * b.channel_height :=
    Nat.le_mul_of_pos_left _ hw
  have h3 : b.channel_width * b.channel_height * 4 ≤
      b.channel_width * b.channel_height * 4 * b.channel_count :=
    Nat.le_mul_of_pos_right _ hc1
  generalize b.channel_width * b.channel_height * 4 * b.channel_count = q at hsz h3
  generalize b.channel_width * b.channel_height = p at h1 h2 h3
  constructor <;> omega


theorem sanitize_dim_lt (fuel : Nat) (flag : Bool) (t s r : Nat)
    (hs : s < 2 ^ 64) (ht : t < 2 ^ 64)
    (h : (if flag then
            if !is_pow2 (if 0 = t then s else t) then pow2_loop fuel 1 s
            else some (if 0 = t then s else t)
          else some (if 0 = t then s else t)) = some r) : r < 2 ^ 64 := by
  have ht0 : (if 0 = t then s else t) < 2 ^ 64 := by split_ifs <;> omega
  split_ifs at h with h1 h2 h3
  all_goals first
    | exact pow2_loop_lt s fuel 1 r (by norm_num) h
    | (simp only [Option.some.injEq] at h; omega)

theorem sanitize_dim_isSome (fuel : Nat) (flag : Bool) (t s : Nat)
    (hs : s ≤ 2 ^ 63) (hfuel : 64 ≤ fuel) :
    ∃ r, (if flag then
            if !is_pow2 (if 0 = t then s else t) then pow2_loop fuel 1 s
            else some (if 0 = t then s else t)
          else some (if 0 = t then s else t)) = some r := by
  split_ifs
  all_goals first
    | exact ⟨_, pow2_loop_eq s fuel hs hfuel⟩
    | exact ⟨_, rfl⟩

theorem miplevel_count_two_dims (tw th : Nat) (htw : tw < 2 ^ 64) (hth : th < 2 ^ 64) :
    image.miplevel_count tw th 1 = Nat.log 2 (max tw th) + 1 := by
  have hlt : max tw (max th 1) < 2 ^ 64 := by
    simp only [max_lt_iff]
    exact ⟨htw, hth, by norm_num⟩
  rw [image.miplevel_count_eq tw th 1 (by omega) hlt]
  rcases Nat.eq_zero_or_pos (max tw th) with h0 | h0
  · have h1 : tw = 0 := by omega
    have h2 : th = 0 := by omega
    subst h1 h2
    simp
  · have : max tw (max th 1) = max tw th := by omega
    rw [this]

/-- C7. For a source image (a valid in-memory buffer) with width and height
at least 1, run with enough fuel for the two doubling loops,
`texture_compiler_inputs_sanitize` returns, and: when `force_pow2` or
`build_mipmaps` is set, a target dimension (the source dimension when the
request is 0) that is a power of two is kept, any other is replaced by the
least power of two that is at least the source dimension, and both resulting
dimensions are powers of two; when neither flag is set each target dimension
is the requested one, or the source dimension when the request is 0. -/
theorem sanitize_target_dimensions {α : Type} (inputs : texture_compiler_inputs_t α)
    (fuel : Nat) (hvalid : inputs.input_image.valid)
    (hw : 1 ≤ inputs.input_image.channel_width)
    (hh : 1 ≤ inputs.input_image.channel_height)
    (htw : inputs.target_width < 2 ^ 64) (hth : inputs.target_height < 2 ^ 64)
    (hfuel : 64 ≤ fuel) :
    ∃ out, texture_compiler_inputs_sanitize fuel inputs = some out ∧
      ((inputs.force_pow2 = true ∨ inputs.build_mipmaps = true) →
        ((∃ k, (if 0 = inputs.target_width then inputs.input_image.channel_width
              else inputs.target_width) = 2 ^ k) →
          out.target_width = (if 0 = inputs.target_width then
            inputs.input_image.channel_width else inputs.target_width)) ∧
        ((¬ ∃ k, (if 0 = inputs.target_width then inputs.input_image.channel_width
              else inputs.target_width) = 2 ^ k) →
          ∃ k, out.target_width = 2 ^ k ∧ inputs.input_image.channel_width ≤ 2 ^ k ∧
            ∀ j, inputs.input_image.channel_width ≤ 2 ^ j → 2 ^ k ≤ 2 ^ j) ∧
        ((∃ k, (if 0 = inputs.target_height then inputs.input_image.channel_height
              else inputs.target_height) = 2 ^ k) →
          out.target_height = (if 0 = inputs.target_height then
            inputs.input_image.channel_height else inputs.target_height)) ∧
        ((¬ ∃ k, (if 0 = inputs.target_height then inputs.input_image.channel_height
              else inputs.target_height) = 2 ^ k) →
          ∃ k, out.target_height = 2 ^ k ∧ inputs.input_image.channel_height ≤ 2 ^ k ∧
            ∀ j, inputs.input_image.channel_height ≤ 2 ^ j → 2 ^ k ≤ 2 ^ j) ∧
        (∃ k, out.target_width = 2 ^ k) ∧ (∃ k, out.target_height = 2 ^ k)) ∧
      (inputs.force_pow2 = false → inputs.build_mipmaps = false →
        out.target_width = (if 0 = inputs.target_width then
          inputs.input_image.channel_width else inputs.target_width) ∧
        out.target_height = (if 0 = inputs.target_height then
          inputs.input_image.channel_height else inputs.target_height)) := by
  obtain ⟨hsw, hsh⟩ := valid_dims_le inputs.input_image hvalid hw hh
  obtain ⟨tw, hdw, hwT, hwF⟩ :=
    sanitize_dim fuel (if inputs.build_mipmaps then true else inputs.force_pow2)
      inputs.target_width inputs.input_image.channel_width hw hsw htw hfuel
  obtain ⟨th, hdh, hhT, hhF⟩ :=
    sanitize_dim fuel (if inputs.build_mipmaps then true else inputs.force_pow2)
      inputs.target_height inputs.input_image.channel_height hh hsh hth hfuel
  refine ⟨_, (sanitize_unfold fuel inputs _).2 ⟨tw, th, hdw, hdh, rfl⟩, ?_, ?_⟩
  · intro hflag
    have hf : (if inputs.build_mipmaps then true else inputs.force_pow2) = true := by
      rcases hflag with h | h <;> simp [h]
    obtain ⟨w1, w2, w3⟩ := hwT hf
    obtain ⟨h1, h2, h3⟩ := hhT hf
    refine ⟨w1, ?_, h1, ?_, w3, h3⟩
    · intro hn
      exact ⟨_, w2 hn, pow2_clog_least _⟩
    · intro hn
      exact ⟨_, h2 hn, pow2_clog_least _⟩
  · intro hfp hbm
    have hf : (if inputs.build_mipmaps then true else inputs.force_pow2) = false := by
      simp [hfp, hbm]
    exact ⟨hwF hf, hhF hf⟩

theorem sample_image_valid (w h c : Nat) (hc1 : 1 ≤ c) (hc4 : c ≤ 4)
    (hsz : w * h * 4 * c < 2 ^ 64) : (sample_image w h c).valid := by
  refine ⟨hc1, hc4, by simp [sample_image], ?_, hsz⟩
  intro p hp
  simp only [sample_image, List.mem_replicate] at hp
  rw [hp.2]
  simp [sample_image]

/-- C7 (witness): with `force_pow2` a 100 x 50 source gets the target
128 x 64, and with `build_mipmaps` a 300 x 200 source gets 512 x 256. -/
theorem sanitize_target_dimensions_witness :
    (∃ out, texture_compiler_inputs_sanitize 64
        (sample_inputs (sample_image 100 50 3) false true) = some out ∧
      (∃ k, out.target_width = 2 ^ k) ∧ (∃ k, out.target_height = 2 ^ k) ∧
      out.target_width = 128 ∧ out.target_height = 64) ∧
    (texture_compiler_inputs_sanitize 64
        (sample_inputs (sample_image 300 200 3) true false)).map
      (fun out => (out.target_width, out.target_height)) = some (512, 256) := by
  constructor
  · obtain ⟨out, hout, hflag, _⟩ :=
      sanitize_target_dimensions (sample_inputs (sample_image 100 50 3) false true) 64
        (sample_image_valid 100 50 3 (by norm_num) (by norm_num) (by norm_num))
        (by decide) (by decide) (by decide) (by decide) (le_refl 64)
    obtain ⟨_, _, _, _, hpw, hph⟩ := hflag (Or.inl rfl)
    have heval : (texture_compiler_inputs_sanitize 64
        (sample_inputs (sample_image 100 50 3) false true)).map
          (fun o => (o.target_width, o.target_height)) = some (128, 64) := by decide
    rw [hout] at heval
    simp only [Option.map_some', Option.some.injEq, Prod.mk.injEq] at heval
    exact ⟨out, hout, hpw, hph, heval.1, heval.2⟩
  · decide

/-- C8. Whenever `texture_compiler_inputs_sanitize` returns: without
`build_mipmaps` the level count is 1 whatever was requested; with
`build_mipmaps` it is `min requested (floor(log2(max target_width
target_height)) + 1)` for a request of at least 1 and that derived maximum for
a request of 0 (for a 0 x 0 target, where the logarithm is read as 0, this is
one level). The function does return, given fuel 64, as soon as both source
dimensions are at most `2 ^ 63`. -/
theorem sanitize_maximum_levels {α : Type} (inputs : texture_compiler_inputs_t α)
    (hsw : inputs.input_image.channel_width < 2 ^ 64)
    (hsh : inputs.input_image.channel_height < 2 ^ 64)
    (htw : inputs.target_width < 2 ^ 64) (hth : inputs.target_height < 2 ^ 64) :
    (∀ fuel out, texture_compiler_inputs_sanitize fuel inputs = some out →
      (inputs.build_mipmaps = false → out.maximum_levels = 1) ∧
      (inputs.build_mipmaps = true → 1 ≤ inputs.maximum_levels →
        out.maximum_levels = min inputs.maximum_levels
          (Nat.log 2 (max out.target_width out.target_height) + 1)) ∧
      (inputs.build_mipmaps = true → inputs.maximum_levels = 0 →
        out.maximum_levels = Nat.log 2 (max out.target_width out.target_height) + 1)) ∧
    (inputs.input_image.channel_width ≤ 2 ^ 63 →
      inputs.input_image.channel_height ≤ 2 ^ 63 →
      ∀ fuel, 64 ≤ fuel → ∃ out, texture_compiler_inputs_sanitize fuel inputs = some out) := by
  constructor
  · intro fuel out hout
    obtain ⟨tw, th, hdw, hdh, rfl⟩ := (sanitize_unfold fuel inputs out).1 hout
    have htw' := sanitize_dim_lt fuel _ _ _ tw hsw htw hdw
    have hth' := sanitize_dim_lt fuel _ _ _ th hsh hth hdh
    have hcount := miplevel_count_two_dims tw th htw' hth'
    simp only [hcount]
    refine ⟨?_, ?_, ?_⟩
    · intro hb
      simp [hb]
    · intro hb hreq
      have hne : ¬ inputs.maximum_levels = 0 := by omega
      simp only [hb, if_true, if_neg hne]
      split_ifs <;> omega
    · intro hb hreq
      simp [hb, hreq]
  · intro h1 h2 fuel hfuel
    obtain ⟨tw, hdw⟩ := sanitize_dim_isSome fuel
      (if inputs.build_mipmaps then true else inputs.force_pow2)
      inputs.target_width inputs.input_image.channel_width h1 hfuel
    obtain ⟨th, hdh⟩ := sanitize_dim_isSome fuel
      (if inputs.build_mipmaps then true else inputs.force_pow2)
      inputs.target_height inputs.input_image.channel_height h2 hfuel
    exact ⟨_, (sanitize_unfold fuel inputs _).2 ⟨tw, th, hdw, hdh, rfl⟩⟩

/-- C8 (witness): a 300 x 200 source with `build_mipmaps` and no requested
limit ends with the target 512 x 256 and 10 levels. -/
theorem sanitize_maximum_levels_witness :
    ∃ out, texture_compiler_inputs_sanitize 64
        (sample_inputs (sample_image 300 200 3) true false) = some out ∧
      out.target_width = 512 ∧ out.target_height = 256 ∧ out.maximum_levels = 10 := by
  have h := sanitize_maximum_levels (sample_inputs (sample_image 300 200 3) true false)
    (by decide) (by decide) (by decide) (by decide)
  obtain ⟨out, hout⟩ := h.2 (by decide) (by decide) 64 (le_refl 64)
  obtain ⟨_, _, hzero⟩ := h.1 64 out hout
  have heval : (texture_compiler_inputs_sanitize 64
      (sample_inputs (sample_image 300 200 3) true false)).map
        (fun o => (o.target_width, o.target_height)) = some (512, 256) := by decide
  rw [hout] at heval
  simp only [Option.map_some', Option.some.injEq, Prod.mk.injEq] at heval
  refine ⟨out, hout, heval.1, heval.2, ?_⟩
  rw [hzero rfl rfl, heval.1, heval.2]
  have hmax : max 512 256 = 2 ^ 9 := by norm_num
  rw [hmax, Nat.log_pow (by norm_num)]

/-! ## The compile pipeline -/

theorem copy_channel_full {α : Type} (dst src : List α) (w h : Nat)
    (hsrc : src.length = w * h) (hdst : dst.length = w * h) (hsz : w * h * 4 < 2 ^ 64) :
    image.copy_channel dst src w h = .ok src := by
  have h1 : size_t_wrap (w * h) = w * h := Nat.mod_eq_of_lt (by simp only [SIZE_T_MOD]; omega)
  have h2 : size_t_wrap (w * h * 4) = w * h * 4 := Nat.mod_eq_of_lt (by simpa using hsz)
  unfold image.copy_channel
  simp only [h1, h2, Nat.mul_div_cancel _ (by norm_num : 0 < 4)]
  rw [if_pos ⟨by omega, by omega⟩]
  rw [← hsrc, List.take_length, hsrc, ← hdst, List.drop_length, List.append_nil]

theorem copy_buffer_steps {α : Type} (target source : image.buffer_t α)
    (hlen : target.channels.length = source.channels.length)
    (hsrc : ∀ p ∈ source.channels, p.length = source.channel_width * source.channel_height)
    (htgt : ∀ p ∈ target.channels, p.length = source.channel_width * source.channel_height)
    (hsz : source.channel_width * source.channel_height * 4 < 2 ^ 64) :
    ∀ k, k ≤ source.channels.length →
      (List.range k).foldlM (fun target i =>
        match source.channels[i]? with
        | some src => target.modify_plane i fun dst =>
            image.copy_channel dst src source.channel_width source.channel_height
        | none => .error .undefined_behaviour) target =
      .ok { target with
        channels := source.channels.take k ++ target.channels.drop k } := by
  intro k
  induction k with
  | zero => intro _; simp [pure, Except.pure]
  | succ k ih =>
    intro hk
    have hk' : k < source.channels.length := hk
    rw [List.range_succ, List.foldlM_append, ih (by omega)]
    have hs : source.channels[k]? = some source.channels[k] := List.getElem?_eq_getElem hk'
    have ht : k < target.channels.length := by omega
    have hget : (source.channels.take k ++ target.channels.drop k)[k]? =
        some target.channels[k] := by
      rw [List.getElem?_append_right (by simp)]
      simp [List.length_take, Nat.min_eq_left (le_of_lt hk'), List.getElem?_eq_getElem ht]
    simp only [List.foldlM_cons, List.foldlM_nil, bind, Except.bind, hs, pure, Except.pure,
      image.buffer_t.modify_plane, hget]
    rw [copy_channel_full _ _ _ _ (hsrc _ (List.getElem_mem _)) (htgt _ (List.getElem_mem _)) hsz]
    simp only [Except.ok.injEq, image.buffer_t.mk.injEq, and_true]
    apply List.ext_getElem?
    intro j
    rcases Nat.lt_trichotomy j k with hj | hj | hj
    · rw [List.getElem?_set_ne (by omega), List.getElem?_append_left (by simp; omega),
        List.getElem?_append_left (by simp; omega)]
      simp [List.getElem?_take, hj, Nat.lt_succ_of_lt hj]
    · subst hj
      rw [List.getElem?_set_self (by simp; omega), List.getElem?_append_left (by simp; omega)]
      simp [List.getElem?_take, hs]
    · rw [List.getElem?_set_ne (by omega), List.getElem?_append_right (by simp; omega),
        List.getElem?_append_right (by simp; omega)]
      simp [List.length_take, Nat.min_eq_left (le_of_lt hk'), Nat.min_eq_left hk]
      congr 1
      omega


theorem copy_buffer_valid {α : Type} (target source : image.buffer_t α)
    (hcount : source.channels.length = source.channel_count)
    (hlen : target.channels.length = source.channels.length)
    (hsrc : ∀ p ∈ source.channels, p.length = source.channel_width * source.channel_height)
    (htgt : ∀ p ∈ target.channels, p.length = source.channel_width * source.channel_height)
    (hsz : source.channel_width * source.channel_height * 4 < 2 ^ 64) :
    copy_buffer target source = .ok { target with channels := source.channels } := by
  unfold copy_buffer
  rw [← hcount, copy_buffer_steps target source hlen hsrc htgt hsz _ le_rfl]
  simp [← hlen]

theorem buffer_size_of_lt (w h c : Nat) (hsz : w * h * 4 * c < 2 ^ 64) :
    image.buffer_size w h c = w * h * 4 * c := by
  unfold image.buffer_size size_t_wrap
  simp only [SIZE_T_MOD]
  rw [Nat.mod_mul_mod, Nat.mul_assoc, Nat.mod_mul_mod, ← Nat.mul_assoc,
    Nat.mod_eq_of_lt hsz]

theorem create_buffer_ok {α : Type} (heap : heap_t α) (n w h c : Nat)
    (hheap : heap.succeeds n = true) (hc1 : 1 ≤ c) (hc4 : c ≤ 4)
    (hsz : w * h * 4 * c < 2 ^ 64) :
    ∃ b : image.buffer_t α, create_buffer heap n w h c = .ok (some b, n + 1) ∧
      b.channel_count = c ∧ b.channel_width = w ∧ b.channel_height = h ∧
      b.channels.length = c ∧ ∀ p ∈ b.channels, p.length = w * h := by
  refine ⟨image.buffer_t.mk
    ((List.range c).map fun i =>
      (List.range (w * h)).map fun j => heap.fresh n (i * (w * h) + j)) c w h,
    ?_, rfl, rfl, rfl, ?_, ?_⟩
  · unfold create_buffer
    rw [if_pos hheap, if_pos ⟨hc1, hc4⟩, if_pos (le_of_eq (buffer_size_of_lt w h c hsz).symm)]
  · simp
  · intro p hp
    simp only [List.mem_map, List.mem_range] at hp
    obtain ⟨i, _, rfl⟩ := hp
    simp

theorem valid_plane_bytes {α : Type} (b : image.buffer_t α) (hv : b.valid) :
    b.channel_width * b.channel_height * 4 < 2 ^ 64 := by
  obtain ⟨hc1, _, _, _, hsz⟩ := hv
  simp only [SIZE_T_MOD] at hsz
  have h3 : b.channel_width * b.channel_height * 4 ≤
      b.channel_width * b.channel_height * 4 * b.channel_count :=
    Nat.le_mul_of_pos_right _ hc1
  omega

/-- When the target dimensions are the source dimensions and the allocation
succeeds, `build_level0` returns a copy of a valid source. -/
theorem build_level0_copy {α : Type} (ops : sample_ops α) (heap : heap_t α) (n : Nat)
    (source : image.buffer_t α) (mode : Int) (hv : source.valid)
    (hheap : heap.succeeds n = true) :
    build_level0 ops heap n source source.channel_width source.channel_height mode =
      .ok (true, some source, n + 1) := by
  have hbytes := valid_plane_bytes source hv
  obtain ⟨hc1, hc4, hlen, hplanes, hsz⟩ := hv
  obtain ⟨b, hb, hbc, hbw, hbh, hblen, hbplanes⟩ :=
    create_buffer_ok heap n source.channel_width source.channel_height source.channel_count
      hheap hc1 hc4 (by simpa using hsz)
  unfold build_level0
  simp only [hb, bind, Except.bind, ne_eq, not_true_eq_false, or_self, if_false]
  rw [copy_buffer_valid b source hlen (by omega) hplanes hbplanes hbytes]
  simp only [pure, Except.pure, Except.ok.injEq, Prod.mk.injEq, Option.some.injEq, true_and,
    and_true]
  cases source
  cases b
  simp_all

theorem zipWith_full {α : Type} (f : α → α → α) (p a : List α) (m : Nat)
    (hp : p.length = m) (ha : a.length = m) :
    List.zipWith f (p.take m) (a.take m) ++ p.drop m = List.zipWith f p a := by
  rw [← hp, List.take_length, List.drop_length, List.append_nil, hp, ← ha, List.take_length]

/-- The compiler's call of `image::premultiply_alpha` on a four-plane buffer:
the loop runs over all four planes, the alpha plane last. -/
theorem premultiply_alpha_four {α : Type} (ops : sample_ops α) (b : image.buffer_t α)
    (p0 p1 p2 p3 : List α) (hch : b.channels = [p0, p1, p2, p3]) (hc : b.channel_count = 4)
    (h0 : p0.length = b.channel_width * b.channel_height)
    (h1 : p1.length = b.channel_width * b.channel_height)
    (h2 : p2.length = b.channel_width * b.channel_height)
    (h3 : p3.length = b.channel_width * b.channel_height)
    (hsz : b.channel_width * b.channel_height < 2 ^ 64) :
    image.premultiply_alpha ops b 0 3 (.plane 3) =
      .ok { b with channels :=
        [List.zipWith ops.mul p0 p3, List.zipWith ops.mul p1 p3,
         List.zipWith ops.mul p2 p3, List.zipWith ops.mul p3 p3] } := by
  have hw : size_t_wrap (b.channel_width * b.channel_height) =
      b.channel_width * b.channel_height := Nat.mod_eq_of_lt (by simpa using hsz)
  unfold image.premultiply_alpha
  simp only [hc, hw, List.range_succ, List.range_zero, List.nil_append, List.cons_append,
    List.foldlM_cons, List.foldlM_nil, bind, Except.bind, image.buffer_t.modify_plane, hch,
    List.getElem?_cons_succ, List.getElem?_cons_zero, Nat.zero_add, Nat.add_zero,
    h0, h1, h2, h3, le_refl, and_self, if_true, pure, Except.pure, List.set_cons_zero,
    List.set_cons_succ, zipWith_full ops.mul _ _ _ h0 h3, zipWith_full ops.mul _ _ _ h1 h3,
    zipWith_full ops.mul _ _ _ h2 h3, zipWith_full ops.mul _ _ _ h3 h3]


/-- A target dimension that is unset or equal to the source dimension stays
the source dimension through the power-of-two adjustment, when the adjustment
is off or the source dimension is a power of two. -/
theorem sanitize_dim_keep (fuel : Nat) (flag : Bool) (t s : Nat)
    (ht : t = 0 ∨ t = s) (hflag : flag = true → (∃ k, s = 2 ^ k) ∧ s < 2 ^ 64) :
    (if flag then
        if !is_pow2 (if 0 = t then s else t) then pow2_loop fuel 1 s
        else some (if 0 = t then s else t)
      else some (if 0 = t then s else t)) = some s := by
  have ht0 : (if 0 = t then s else t) = s := by
    rcases ht with h | h
    · simp [h]
    · split_ifs <;> omega
  rw [ht0]
  cases flag with
  | false => rfl
  | true =>
    obtain ⟨⟨k, hk⟩, hs⟩ := hflag rfl
    have h1 : 1 ≤ s := by rw [hk]; exact Nat.one_le_two_pow
    have hp : is_pow2 s = true := (is_pow2_iff s h1 hs).2 ⟨k, hk⟩
    simp [hp]

theorem valid_dims_lt {α : Type} (b : image.buffer_t α) (hv : b.valid) :
    (1 ≤ b.channel_height → b.channel_width < 2 ^ 64) ∧
    (1 ≤ b.channel_width → b.channel_height < 2 ^ 64) ∧
    b.channel_width * b.channel_height < 2 ^ 64 := by
  have hb := valid_plane_bytes b hv
  refine ⟨fun hh => ?_, fun hw => ?_, by omega⟩
  · have : b.channel_width ≤ b.channel_width * b.channel_height :=
      Nat.le_mul_of_pos_right _ hh
    omega
  · have : b.channel_height ≤ b.channel_width * b.channel_height :=
      Nat.le_mul_of_pos_left _ hw
    omega

/-- C10. For a valid four-channel source image, `compile_texture` with
`premultiply_a` set, `build_mipmaps` and `flip_y` clear and target dimensions
that are unset or equal to the source dimensions (with `force_pow2` only on
power-of-two dimensions, so that nothing is resized), given that the
allocation of the level-0 buffer succeeds, returns `true` with the empty
error message and exactly one level; that level has the source dimensions and
in each of the channels 0, 1, 2 every sample is the source sample multiplied
by the source alpha sample (channel 3) at the same index. -/
theorem compile_texture_premultiply {α : Type} (ops : sample_ops α) (heap : heap_t α)
    (n fuel : Nat) (inputs : texture_compiler_inputs_t α)
    (outputs : texture_compiler_outputs_t α)
    (hvalid : inputs.input_image.valid)
    (hfour : inputs.input_image.channel_count = 4)
    (hpre : inputs.premultiply_a = true)
    (hmip : inputs.build_mipmaps = false)
    (hflip : inputs.flip_y = false)
    (hpow2 : inputs.force_pow2 = true →
      (∃ k, inputs.input_image.channel_width = 2 ^ k) ∧
      (∃ k, inputs.input_image.channel_height = 2 ^ k))
    (htw : inputs.target_width = 0 ∨
      inputs.target_width = inputs.input_image.channel_width)
    (hth : inputs.target_height = 0 ∨
      inputs.target_height = inputs.input_image.channel_height)
    (hheap : heap.succeeds n = true) :
    ∃ inputs' outputs' n',
      compile_texture ops heap n fuel inputs outputs = .ok (true, inputs', outputs', n') ∧
      outputs'.error_message = "" ∧ outputs'.level_count = 1 ∧
      outputs'.channel_count = 4 ∧
      ∃ level, outputs'.level_data 0 = some level ∧
        level.channel_count = 4 ∧
        level.channel_width = inputs.input_image.channel_width ∧
        level.channel_height = inputs.input_image.channel_height ∧
        ∀ c j, c < 3 →
          j < inputs.input_image.channel_width * inputs.input_image.channel_height →
          ∃ x a, inputs.input_image.sample c j = some x ∧
            inputs.input_image.sample 3 j = some a ∧
            level.sample c j = some (ops.mul x a) := by
  obtain ⟨hdw, hdh, harea⟩ := valid_dims_lt inputs.input_image hvalid
  have hflag : (if inputs.build_mipmaps then true else inputs.force_pow2) =
      inputs.force_pow2 := by simp [hmip]
  -- the sanitised inputs: the target is the source size, one level
  have hkw := sanitize_dim_keep fuel inputs.force_pow2 inputs.target_width
    inputs.input_image.channel_width htw (fun hf => by
      obtain ⟨⟨k, hk⟩, ⟨l, hl⟩⟩ := hpow2 hf
      exact ⟨⟨k, hk⟩, hdw (by rw [hl]; exact Nat.one_le_two_pow)⟩)
  have hkh := sanitize_dim_keep fuel inputs.force_pow2 inputs.target_height
    inputs.input_image.channel_height hth (fun hf => by
      obtain ⟨⟨k, hk⟩, ⟨l, hl⟩⟩ := hpow2 hf
      exact ⟨⟨l, hl⟩, hdh (by rw [hk]; exact Nat.one_le_two_pow)⟩)
  have hsan := (sanitize_unfold fuel inputs _).2
    ⟨_, _, by rw [hflag]; exact hkw, by rw [hflag]; exact hkh, rfl⟩
  -- the four planes of the source
  obtain ⟨_, _, hlen, hplanes, _⟩ := hvalid
  have hvalid' : inputs.input_image.valid := ⟨by assumption, by assumption, hlen, hplanes,
    by assumption⟩
  rw [hfour] at hlen
  obtain ⟨p0, p1, p2, p3, hch⟩ : ∃ p0 p1 p2 p3, inputs.input_image.channels = [p0, p1, p2, p3] := by
    match hc : inputs.input_image.channels, hlen with
    | [a, b, c, d], _ => exact ⟨a, b, c, d, rfl⟩
  have h0 := hplanes p0 (by simp [hch])
  have h1 := hplanes p1 (by simp [hch])
  have h2 := hplanes p2 (by simp [hch])
  have h3 := hplanes p3 (by simp [hch])
  have hpm := premultiply_alpha_four ops inputs.input_image p0 p1 p2 p3 hch hfour h0 h1 h2 h3 harea
  simp only [hmip, if_false, Bool.false_eq_true] at hsan
  have hrun : compile_texture ops heap n fuel inputs outputs =
      .ok (true,
        { inputs with
          target_width := inputs.input_image.channel_width
          target_height := inputs.input_image.channel_height
          maximum_levels := 1 },
        { error_message := ""
          channel_count := 4
          level_count := 1
          level_data := Function.update
            (Function.update (texture_compiler_outputs_init outputs).level_data 0
              (some inputs.input_image)) 0
            (some { inputs.input_image with
              channels :=
                [List.zipWith ops.mul p0 p3, List.zipWith ops.mul p1 p3,
                 List.zipWith ops.mul p2 p3, List.zipWith ops.mul p3 p3]
              channel_count := 4 }) },
        n + 1) := by
    unfold compile_texture
    simp only [hsan]
    simp only [build_level0_copy ops heap n inputs.input_image inputs.border_mode hvalid' hheap,
      bind, Except.bind, hflip, hpre, hfour, build_mipmaps, pure, Except.pure,
      if_false, Bool.false_eq_true, gt_iff_lt, lt_self_iff_false, List.range_succ,
      List.range_zero, List.nil_append, List.foldlM_cons, List.foldlM_nil,
      Function.update_same, hpm, beq_self_eq_true, Bool.and_self, if_true,
      TEXTURE_COMPILER_MAX_LEVELS, Nat.zero_lt_succ]
    simp only [hmip]
  refine ⟨_, _, _, hrun, rfl, rfl, rfl,
    image.buffer_t.mk
      [List.zipWith ops.mul p0 p3, List.zipWith ops.mul p1 p3,
       List.zipWith ops.mul p2 p3, List.zipWith ops.mul p3 p3] 4
      inputs.input_image.channel_width inputs.input_image.channel_height,
    by simp only [Function.update_same], rfl, rfl, rfl, ?_⟩
  intro c j hc hj
  have hj0 : j < p0.length := by omega
  have hj1 : j < p1.length := by omega
  have hj2 : j < p2.length := by omega
  have hj3 : j < p3.length := by omega
  have ha : inputs.input_image.sample 3 j = some p3[j] := by
    simp [image.buffer_t.sample, hch, List.getElem?_eq_getElem hj3]
  rcases (by omega : c = 0 ∨ c = 1 ∨ c = 2) with rfl | rfl | rfl
  · refine ⟨p0[j], p3[j], ?_, ha, ?_⟩
    · simp [image.buffer_t.sample, hch, List.getElem?_eq_getElem hj0]
    · simp [image.buffer_t.sample, List.getElem?_zipWith, List.getElem?_eq_getElem hj0,
        List.getElem?_eq_getElem hj3]
  · refine ⟨p1[j], p3[j], ?_, ha, ?_⟩
    · simp [image.buffer_t.sample, hch, List.getElem?_eq_getElem hj1]
    · simp [image.buffer_t.sample, List.getElem?_zipWith, List.getElem?_eq_getElem hj1,
        List.getElem?_eq_getElem hj3]
  · refine ⟨p2[j], p3[j], ?_, ha, ?_⟩
    · simp [image.buffer_t.sample, hch, List.getElem?_eq_getElem hj2]
    · simp [image.buffer_t.sample, List.getElem?_zipWith, List.getElem?_eq_getElem hj2,
        List.getElem?_eq_getElem hj3]

/-- C10 (witness): compiling the 2 x 2 sample image with `premultiply_a`
gives one level whose colour samples are the products with the alpha
samples. -/
theorem compile_texture_premultiply_witness :
    ∃ inputs' outputs' n',
      compile_texture sample_ops_nat sample_heap 0 64
        { sample_inputs sample_rgba false false with premultiply_a := true }
        sample_outputs = .ok (true, inputs', outputs', n') ∧
      outputs'.level_count = 1 ∧
      ∃ level, outputs'.level_data 0 = some level ∧
        level.sample 0 3 = some (4 * 5) ∧ level.sample 1 0 = some (5 * 2) ∧
        level.sample 2 1 = some (10 * 3) := by
  have hvalid : sample_rgba.valid := by
    refine ⟨by decide, by decide, by decide, ?_, by decide⟩
    intro p hp
    simp only [sample_rgba, List.mem_cons, List.mem_singleton, List.not_mem_nil, or_false] at hp
    rcases hp with h | h | h | h <;> subst h <;> rfl
  obtain ⟨i', o', n', hrun, _, hcount, _, level, hlevel, _, _, _, hs⟩ :=
    compile_texture_premultiply sample_ops_nat sample_heap 0 64
      { sample_inputs sample_rgba false false with premultiply_a := true }
      sample_outputs hvalid rfl rfl rfl rfl (by intro h; cases h) (Or.inl rfl) (Or.inl rfl) rfl
  refine ⟨i', o', n', hrun, hcount, level, hlevel, ?_, ?_, ?_⟩
  · obtain ⟨x, a, hx, ha, hl⟩ := hs 0 3 (by decide) (by decide)
    have hx' : x = 4 := by
      have h : sample_rgba.sample 0 3 = some 4 := by decide
      exact (Option.some.inj (hx.symm.trans h))
    have ha' : a = 5 := by
      have h : sample_rgba.sample 3 3 = some 5 := by decide
      exact (Option.some.inj (ha.symm.trans h))
    rw [hl, hx', ha']
    rfl
  · obtain ⟨x, a, hx, ha, hl⟩ := hs 1 0 (by decide) (by decide)
    have hx' : x = 5 := by
      have h : sample_rgba.sample 1 0 = some 5 := by decide
      exact (Option.some.inj (hx.symm.trans h))
    have ha' : a = 2 := by
      have h : sample_rgba.sample 3 0 = some 2 := by decide
      exact (Option.some.inj (ha.symm.trans h))
    rw [hl, hx', ha']
    rfl
  · obtain ⟨x, a, hx, ha, hl⟩ := hs 2 1 (by decide) (by decide)
    have hx' : x = 10 := by
      have h : sample_rgba.sample 2 1 = some 10 := by decide
      exact (Option.some.inj (hx.symm.trans h))
    have ha' : a = 3 := by
      have h : sample_rgba.sample 3 1 = some 3 := by decide
      exact (Option.some.inj (ha.symm.trans h))
    rw [hl, hx', ha']
    rfl

/-! ## The pixel packers -/

/-- A `mapM` all of whose elements succeed is a `map`. -/
theorem mapM_ok {α β : Type} (f : α → Except fault β) (g : α → β) :
    ∀ l : List α, (∀ a ∈ l, f a = .ok (g a)) → l.mapM f = .ok (l.map g) := by
  intro l
  induction l with
  | nil => intro _; rfl
  | cons a l ih =>
    intro h
    rw [List.mapM_cons, h a (List.mem_cons_self a l), ih (fun b hb => h b (List.mem_cons_of_mem a hb))]
    rfl

/-- A failing `mapM` fails with the fault of one of its elements. -/
theorem mapM_error_mem {α β : Type} (f : α → Except fault β) (e : fault) :
    ∀ l : List α, l.mapM f = .error e → ∃ a ∈ l, f a = .error e := by
  intro l
  induction l with
  | nil => intro h; cases h
  | cons a l ih =>
    intro h
    rw [List.mapM_cons] at h
    cases hfa : f a with
    | error e' =>
      rw [hfa] at h
      have : e' = e := by cases h; rfl
      exact ⟨a, List.mem_cons_self a l, by rw [hfa, this]⟩
    | ok b =>
      rw [hfa] at h
      cases hl : l.mapM f with
      | error e' =>
        rw [hl] at h
        have : e' = e := by cases h; rfl
        obtain ⟨a', ha', hf'⟩ := ih (by rw [hl, this])
        exact ⟨a', List.mem_cons_of_mem a ha', hf'⟩
      | ok bs => rw [hl] at h; cases h

/-- A `mapM` one of whose elements fails, fails. -/
theorem mapM_fails {α β : Type} (f : α → Except fault β) :
    ∀ l : List α, (∃ a ∈ l, ∃ e, f a = .error e) → ∃ e, l.mapM f = .error e := by
  intro l
  induction l with
  | nil => intro ⟨a, ha, _⟩; cases ha
  | cons a l ih =>
    intro ⟨a', ha', e, he⟩
    rw [List.mapM_cons]
    cases hfa : f a with
    | error e' => exact ⟨e', rfl⟩
    | ok b =>
      have hmem : a' ∈ l := by
        rcases List.mem_cons.mp ha' with h | h
        · rw [h, hfa] at he; cases he
        · exact h
      obtain ⟨e', he'⟩ := ih ⟨a', hmem, e, he⟩
      exact ⟨e', by rw [he']; rfl⟩

/-- Element `i * N + c` of a concatenation of blocks of `N` elements is element
`c` of block `i`. -/
theorem flatten_get {β : Type} (N : Nat) :
    ∀ (L : List (List β)) (i c : Nat), (∀ l ∈ L, l.length = N) → c < N →
      L.flatten[i * N + c]? = (L[i]?).bind fun l => l[c]? := by
  intro L
  induction L with
  | nil => intro i c _ _; simp
  | cons l L ih =>
    intro i c hL hc
    have hl : l.length = N := hL l (List.mem_cons_self l L)
    cases i with
    | zero =>
      simp only [List.flatten_cons, Nat.zero_mul, Nat.zero_add, List.getElem?_cons_zero,
        Option.some_bind]
      exact List.getElem?_append_left (by omega)
    | succ i =>
      have e : (i + 1) * N + c = l.length + (i * N + c) := by rw [hl]; ring
      rw [List.flatten_cons, e, List.getElem?_append_right (by omega),
        Nat.add_sub_cancel_left, ih i c (fun l' hl' => hL l' (List.mem_cons_of_mem l hl')) hc]
      simp

/-- The length of a concatenation of blocks of `N` elements. -/
theorem flatten_length {β : Type} (N : Nat) :
    ∀ (L : List (List β)), (∀ l ∈ L, l.length = N) → L.flatten.length = L.length * N := by
  intro L
  induction L with
  | nil => intro _; simp
  | cons l L ih =>
    intro hL
    rw [List.flatten_cons, List.length_append, hL l (List.mem_cons_self l L),
      ih (fun l' hl' => hL l' (List.mem_cons_of_mem l hl')), List.length_cons]
    ring

/-- A read inside the plane yields the sample. -/
theorem read_sample_ok (source : List ℚ) (i : Nat) (h : i < source.length) :
    read_sample source i = .ok (source.getD i 0) := by
  rw [read_sample, List.getElem?_eq_getElem h, List.getD_eq_getElem _ _ h]
  rfl

/-- The packing loop on planes that hold `count` samples, with a `texel`
that is defined on the samples of every round. -/
theorem pack_pixels_ok {β : Type} (count : Nat) (sources : List (List ℚ))
    (texel : List ℚ → Except fault (List β)) (g : List ℚ → List β)
    (hlen : ∀ s ∈ sources, count ≤ s.length)
    (ht : ∀ i, i < count →
      texel (sources.map fun s => s.getD i 0) = .ok (g (sources.map fun s => s.getD i 0))) :
    pack_pixels count sources texel =
      .ok ((List.range count).map fun i => g (sources.map fun s => s.getD i 0)).flatten := by
  rw [pack_pixels, mapM_ok _ (fun i => g (sources.map fun s => s.getD i 0))]
  · rfl
  · intro i hi
    have hi' : i < count := List.mem_range.mp hi
    rw [mapM_ok (fun source => read_sample source i) (fun s => s.getD i 0) sources
      (fun s hs => read_sample_ok s i (lt_of_lt_of_le hi' (hlen s hs)))]
    exact ht i hi'

/-- The planes `channels[0 .. k-1]` of a buffer with `k` planes are its
list of planes. -/
theorem source_planes (b : image.buffer_t ℚ) :
    (b.channels.length = 1 → [source_plane b 0] = b.channels) ∧
    (b.channels.length = 2 → [source_plane b 0, source_plane b 1] = b.channels) ∧
    (b.channels.length = 3 →
      [source_plane b 0, source_plane b 1, source_plane b 2] = b.channels) ∧
    (b.channels.length = 4 →
      [source_plane b 0, source_plane b 1, source_plane b 2, source_plane b 3] = b.channels) := by
  simp only [source_plane]
  refine ⟨?_, ?_, ?_, ?_⟩ <;> intro h
  · match hc : b.channels, h with
    | [p0], _ => rfl
  · match hc : b.channels, h with
    | [p0, p1], _ => rfl
  · match hc : b.channels, h with
    | [p0, p1, p2], _ => rfl
  · match hc : b.channels, h with
    | [p0, p1, p2, p3], _ => rfl

/-- A packer whose allocation succeeds and whose size computation does not
wrap returns what its loop builds. -/
theorem pack_buffer_ok {β : Type} (heap : heap_t ℚ) (n : Nat) (buffer : image.buffer_t ℚ)
    (bpp : Nat) (sources : List (List ℚ)) (texel : List ℚ → Except fault (List β))
    (pixels : List β) (ha : heap.succeeds n = true)
    (hsz : buffer.channel_width * buffer.channel_height * bpp < SIZE_T_MOD) (hb : 1 ≤ bpp)
    (hp : pack_pixels (buffer.channel_width * buffer.channel_height) sources texel =
      .ok pixels) :
    pack_buffer heap n buffer bpp sources texel = .ok (some pixels) := by
  have h1 : buffer.channel_width * buffer.channel_height < SIZE_T_MOD :=
    lt_of_le_of_lt (Nat.le_mul_of_pos_right _ hb) hsz
  have h2 : size_t_wrap (buffer.channel_width * buffer.channel_height) =
      buffer.channel_width * buffer.channel_height := Nat.mod_eq_of_lt h1
  have h3 : size_t_wrap (buffer.channel_width * buffer.channel_height * bpp) =
      buffer.channel_width * buffer.channel_height * bpp := Nat.mod_eq_of_lt hsz
  simp only [pack_buffer, ha, if_true, h2, h3, le_refl, hp]
  rfl

/-- A sample of a plane of a valid buffer, by plane and index. -/
theorem valid_sample (b : image.buffer_t ℚ) (hv : b.valid) (p : List ℚ) (hp : p ∈ b.channels)
    (i : Nat) (hi : i < b.channel_width * b.channel_height) :
    ∃ c, c < b.channel_count ∧ b.sample c i = some (p.getD i 0) := by
  obtain ⟨_, _, hlen, hplanes, _⟩ := hv
  obtain ⟨c, hc, e⟩ := List.getElem_of_mem hp
  have hpl : i < p.length := by rw [hplanes p hp]; exact hi
  refine ⟨c, by omega, ?_⟩
  rw [image.buffer_t.sample, List.getElem?_eq_getElem hc, e, Option.some_bind,
    List.getElem?_eq_getElem hpl, List.getD_eq_getElem _ _ hpl]

/-- The array the 8-bit packers build from a valid buffer whose every sample
`v` is converted to the byte `byte v`: one byte per sample, pixel by pixel. -/
theorem buffer_to_pixels_32i_ok (fr : float_rounding) (heap : heap_t ℚ) (n : Nat)
    (b : image.buffer_t ℚ) (byte : ℚ → Nat) (hv : b.valid) (ha : heap.succeeds n = true)
    (hq : ∀ c i v, b.sample c i = some v →
      float_to_uint8_t (packed_product fr b.channel_count v) = .ok (byte v)) :
    buffer_to_pixels_32i fr heap n b = .ok (some
      ((List.range (b.channel_width * b.channel_height)).map fun i =>
        (b.channels.map fun p => p.getD i 0).map byte).flatten) := by
  have hv' := hv
  obtain ⟨h1, h4, hlen, hplanes, hsz⟩ := hv'
  obtain ⟨s1, s2, s3, s4⟩ := source_planes b
  have hsz' : b.channel_width * b.channel_height * b.channel_count < SIZE_T_MOD := by
    have : b.channel_width * b.channel_height * b.channel_count ≤
        b.channel_width * b.channel_height * 4 * b.channel_count :=
      Nat.mul_le_mul_right _ (Nat.le_mul_of_pos_right _ (by norm_num))
    omega
  have key : ∀ (q : float_rounding → ℚ → Except fault Nat),
      (∀ v, q fr v = float_to_uint8_t (packed_product fr b.channel_count v)) →
      pack_buffer heap n b b.channel_count b.channels (fun samples => samples.mapM (q fr)) =
        .ok (some ((List.range (b.channel_width * b.channel_height)).map fun i =>
          (b.channels.map fun p => p.getD i 0).map byte).flatten) := by
    intro q hq'
    apply pack_buffer_ok heap n b _ _ _ _ ha hsz' h1
    apply pack_pixels_ok _ _ _ (fun samples => samples.map byte)
    · intro s hs; rw [hplanes s hs]
    · intro i hi
      apply mapM_ok
      intro v hv2
      obtain ⟨p, hp, rfl⟩ := List.mem_map.mp hv2
      obtain ⟨c, _, hs⟩ := valid_sample b hv p hp i hi
      rw [hq' _, hq c i _ hs]
  have hcases : b.channel_count = 1 ∨ b.channel_count = 2 ∨ b.channel_count = 3 ∨
      b.channel_count = 4 := by omega
  rcases hcases with hc | hc | hc | hc
  · have e := key quantize_double (fun v => by simp [quantize_double, packed_product, hc])
    rw [hc] at e hlen
    simp only [buffer_to_pixels_32i, hc, buffer_to_pixels_1_32, s1 hlen]
    exact e
  · have e := key quantize_float (fun v => by simp [quantize_float, packed_product, hc])
    rw [hc] at e hlen
    simp only [buffer_to_pixels_32i, hc, buffer_to_pixels_2_32, s2 hlen]
    exact e
  · have e := key quantize_float (fun v => by simp [quantize_float, packed_product, hc])
    rw [hc] at e hlen
    simp only [buffer_to_pixels_32i, hc, buffer_to_pixels_3_32, s3 hlen]
    exact e
  · have e := key quantize_float (fun v => by simp [quantize_float, packed_product, hc])
    rw [hc] at e hlen
    simp only [buffer_to_pixels_32i, hc, buffer_to_pixels_4_32, s4 hlen]
    exact e

/-- The byte of the sample `channels[c][i]` in the array the 8-bit packers
build: element `i * channel_count + c`. -/
theorem packed_bytes_get (b : image.buffer_t ℚ) (byte : ℚ → Nat) (hv : b.valid)
    (c i : Nat) (v : ℚ) (hs : b.sample c i = some v) :
    ((List.range (b.channel_width * b.channel_height)).map fun i =>
        (b.channels.map fun p => p.getD i 0).map byte).flatten[i * b.channel_count + c]? =
      some (byte v) := by
  obtain ⟨h1, h4, hlen, hplanes, hsz⟩ := hv
  have hblocks : ∀ l ∈ (List.range (b.channel_width * b.channel_height)).map (fun i =>
      (b.channels.map fun p => p.getD i 0).map byte), l.length = b.channel_count := by
    intro l hl
    obtain ⟨j, _, rfl⟩ := List.mem_map.mp hl
    simp [hlen]
  rw [image.buffer_t.sample] at hs
  cases hp : b.channels[c]? with
  | none => rw [hp] at hs; cases hs
  | some p =>
    rw [hp, Option.some_bind] at hs
    obtain ⟨hc, ep⟩ := List.getElem?_eq_some_iff.mp hp
    obtain ⟨hi, ev⟩ := List.getElem?_eq_some_iff.mp hs
    have hi' : i < b.channel_width * b.channel_height := by
      rw [← hplanes p (by rw [← ep]; exact List.getElem_mem _)]; exact hi
    rw [flatten_get b.channel_count _ i c hblocks (by omega)]
    rw [List.getElem?_map, List.getElem?_range hi']
    simp only [Option.map_some', Option.some_bind, List.getElem?_map, hp]
    rw [List.getD_eq_getElem _ _ hi, ev]

/-- The length of the array the 8-bit packers build. -/
theorem packed_bytes_length (b : image.buffer_t ℚ) (byte : ℚ → Nat) (hv : b.valid) :
    ((List.range (b.channel_width * b.channel_height)).map fun i =>
        (b.channels.map fun p => p.getD i 0).map byte).flatten.length =
      b.channel_width * b.channel_height * b.channel_count := by
  have hblocks : ∀ l ∈ (List.range (b.channel_width * b.channel_height)).map (fun i =>
      (b.channels.map fun p => p.getD i 0).map byte), l.length = b.channel_count := by
    intro l hl
    obtain ⟨j, _, rfl⟩ := List.mem_map.mp hl
    simp [hv.2.2.1]
  rw [flatten_length b.channel_count _ hblocks, List.length_map, List.length_range]

/-- The conversion to `uint8_t` is defined strictly between -1 and 256. -/
theorem float_to_uint8_t_ok (x : ℚ) (h0 : -1 < x) (h1 : x < 256) :
    float_to_uint8_t x = .ok (float_trunc x).toNat := by
  have h : 0 ≤ float_trunc x ∧ float_trunc x ≤ 255 := by
    rw [float_trunc]
    by_cases hx : 0 ≤ x
    · rw [if_pos hx]
      refine ⟨Int.floor_nonneg.mpr hx, ?_⟩
      have : ⌊x⌋ < 256 := Int.floor_lt.mpr (by exact_mod_cast h1)
      omega
    · rw [if_neg hx]
      have : ⌈x⌉ = 0 := Int.ceil_eq_iff.mpr ⟨by simpa using h0, by simpa using le_of_lt (not_le.mp hx)⟩
      omega
  rw [float_to_uint8_t, if_pos h]
  rfl

/-- The conversion to `uint8_t` is undefined from 256 on. -/
theorem float_to_uint8_t_undefined (x : ℚ) (h : 256 ≤ x) :
    float_to_uint8_t x = .error .undefined_behaviour := by
  have h' : ¬ (0 ≤ float_trunc x ∧ float_trunc x ≤ 255) := by
    rw [float_trunc, if_pos (by linarith)]
    have : (256 : Int) ≤ ⌊x⌋ := Int.le_floor.mpr (by exact_mod_cast h)
    omega
  rw [float_to_uint8_t, if_neg h']

/-- The only fault of the conversion to `uint8_t` is undefined behaviour. -/
theorem float_to_uint8_t_fault (x : ℚ) (e : fault) (h : float_to_uint8_t x = .error e) :
    e = .undefined_behaviour := by
  rw [float_to_uint8_t] at h
  split_ifs at h
  · cases h
  · cases h; rfl

/-- The product `3/8 * 255 = 95.625` is truncated to 95. -/
theorem float_trunc_three_eighths : float_trunc ((3 / 8 : ℚ) * 255) = 95 := by
  rw [float_trunc, if_pos (by norm_num), Int.floor_eq_iff]
  norm_num

/-- The 1-channel packer on a 1 x 1 image, in exact arithmetic: one conversion. -/
theorem gray_eval (v : ℚ) :
    buffer_to_pixels_32i exact_rounding packing_heap 0 (sample_gray v) =
      (float_to_uint8_t (v * 255)).map fun byte => some [byte] := by
  simp only [buffer_to_pixels_32i, sample_gray, buffer_to_pixels_1_32, pack_buffer, packing_heap,
    pack_pixels, source_plane, quantize_double, exact_rounding]
  have h1 : size_t_wrap (1 * 1) = 1 := by decide
  have h2 : List.range 1 = [0] := by decide
  simp only [h1, h2, if_true, Nat.mul_one, le_refl, List.mapM_cons, List.mapM_nil, read_sample,
    List.getD_cons_zero, List.getElem?_cons_zero, id, pure_bind, quantize_double]
  cases float_to_uint8_t (v * 255) <;> rfl

/-- A sample of a buffer is an element of one of its planes. -/
theorem sample_mem (b : image.buffer_t ℚ) (c i : Nat) (v : ℚ) (h : b.sample c i = some v) :
    ∃ p ∈ b.channels, v ∈ p := by
  rw [image.buffer_t.sample] at h
  cases hp : b.channels[c]? with
  | none => rw [hp] at h; cases h
  | some p =>
    rw [hp, Option.some_bind] at h
    obtain ⟨hc, ep⟩ := List.getElem?_eq_some_iff.mp hp
    obtain ⟨hi, ev⟩ := List.getElem?_eq_some_iff.mp h
    exact ⟨p, by rw [← ep]; exact List.getElem_mem _, by rw [← ev]; exact List.getElem_mem _⟩

/-- The bytes of a sample in `[0, 1]`: the conversion is defined and the byte
is within 1 of the exact product `v * 255`, for any monotone rounding that
keeps the integers 0 .. 255. -/
theorem quantize_bound (r : ℚ → ℚ) (hm : Monotone r) (hk : ∀ k : Nat, k ≤ 255 → r k = k)
    (v : ℚ) (h0 : 0 ≤ v) (h1 : v ≤ 1) :
    float_to_uint8_t (r (v * 255)) = .ok (float_trunc (r (v * 255))).toNat ∧
    |v - ((float_trunc (r (v * 255))).toNat : ℚ) / 255| ≤ 1 / 255 := by
  have hx0 : (0 : ℚ) ≤ v * 255 := by positivity
  have hx1 : v * 255 ≤ 255 := by linarith
  have hp0 : 0 ≤ r (v * 255) := by
    have := hm hx0
    rw [show (0 : ℚ) = ((0 : Nat) : ℚ) by norm_num, hk 0 (by norm_num)] at this
    simpa using this
  have hp1 : r (v * 255) ≤ 255 := by
    have := hm hx1
    rw [show (255 : ℚ) = ((255 : Nat) : ℚ) by norm_num, hk 255 (by norm_num)] at this
    simpa using this
  have htr : float_trunc (r (v * 255)) = ⌊r (v * 255)⌋ := by rw [float_trunc, if_pos hp0]
  have hb0 : 0 ≤ ⌊r (v * 255)⌋ := Int.floor_nonneg.mpr hp0
  have hb1 : ⌊r (v * 255)⌋ ≤ 255 := Int.floor_le_iff.mpr (by push_cast; linarith)
  refine ⟨float_to_uint8_t_ok _ (by linarith) (by linarith), ?_⟩
  rw [htr]
  obtain ⟨k, hk'⟩ : ∃ k : Nat, ⌊r (v * 255)⌋ = (k : Int) := ⟨_, (Int.toNat_of_nonneg hb0).symm⟩
  have hk255 : k ≤ 255 := by omega
  rw [hk', Int.toNat_natCast]
  have hfl : (k : ℚ) ≤ r (v * 255) := by
    have := Int.floor_le (r (v * 255))
    rw [hk'] at this
    exact_mod_cast this
  have hfu : r (v * 255) < (k : ℚ) + 1 := by
    have := Int.lt_floor_add_one (r (v * 255))
    rw [hk'] at this
    exact_mod_cast this
  have up : v * 255 < (k : ℚ) + 1 := by
    by_contra hcon
    have hle : ((k + 1 : Nat) : ℚ) ≤ v * 255 := by push_cast; linarith [not_lt.mp hcon]
    have hk1 : k + 1 ≤ 255 := by
      have : ((k + 1 : Nat) : ℚ) ≤ ((255 : Nat) : ℚ) := by push_cast; push_cast at hle; linarith
      exact_mod_cast this
    have := hm hle
    rw [hk (k + 1) hk1] at this
    push_cast at this
    linarith
  have lo : (k : ℚ) - 1 ≤ v * 255 := by
    by_contra hcon
    have hlt : v * 255 < (k : ℚ) - 1 := not_le.mp hcon
    have hk1 : 1 ≤ k := by
      rcases Nat.eq_zero_or_pos k with h | h
      · rw [h] at hlt; push_cast at hlt; linarith
      · exact h
    have hle : v * 255 ≤ ((k - 1 : Nat) : ℚ) := by
      rw [Nat.cast_sub hk1]; push_cast; linarith
    have := hm hle
    rw [hk (k - 1) (by omega), Nat.cast_sub hk1] at this
    push_cast at this
    linarith
  rw [abs_le]
  constructor
  · have : v - (k : ℚ) / 255 = (v * 255 - k) / 255 := by ring
    rw [this, le_div_iff₀ (by norm_num)]; linarith
  · have : v - (k : ℚ) / 255 = (v * 255 - k) / 255 := by ring
    rw [this, div_le_div_iff_of_pos_right (by norm_num)]; linarith

/-- The arithmetic of each of the four 8-bit packers is monotone and keeps the
integers 0 .. 255, when the rounding is faithful. -/
theorem packed_product_faithful (fr : float_rounding) (hf : fr.faithful) (k : Nat) :
    Monotone (fun x => if k = 1 then fr.to_double x else fr.to_float x) ∧
    ∀ j : Nat, j ≤ 255 → (fun x => if k = 1 then fr.to_double x else fr.to_float x) j = j := by
  obtain ⟨m1, m2, k1, k2⟩ := hf
  by_cases h : k = 1
  · simp only [if_pos h]; exact ⟨m2, k2⟩
  · simp only [if_neg h]; exact ⟨m1, k1⟩

/-- The sample image with 1 to 4 planes is a valid buffer. -/
theorem sample_planes_valid (k : Nat) (h1 : 1 ≤ k) (h4 : k ≤ 4) : (sample_planes k).valid := by
  refine ⟨h1, h4, ?_, ?_, ?_⟩
  · simp only [sample_planes, List.length_take, List.length_cons, List.length_nil]; omega
  · intro p hp
    have hp' := List.mem_of_mem_take hp
    simp only [List.mem_cons, List.mem_singleton, List.not_mem_nil, or_false] at hp'
    rcases hp' with h | h | h | h <;> subst h <;> rfl
  · show 2 * 1 * 4 * k < SIZE_T_MOD
    simp only [SIZE_T_MOD]; omega

/-- The samples of the sample image lie in `[0, 1]`. -/
theorem sample_planes_range (k c i : Nat) (v : ℚ)
    (h : (sample_planes k).sample c i = some v) : 0 ≤ v ∧ v ≤ 1 := by
  obtain ⟨p, hp, hv⟩ := sample_mem _ c i v h
  have hp' := List.mem_of_mem_take hp
  simp only [List.mem_cons, List.mem_singleton, List.not_mem_nil, or_false] at hp'
  rcases hp' with h | h | h | h <;> subst h <;>
    simp only [List.mem_cons, List.mem_singleton, List.not_mem_nil, or_false] at hv <;>
    rcases hv with h | h <;> subst h <;> norm_num

/-- The dispatch of `buffer_to_pixels_32i` on a valid buffer: the four
packers are one loop over the planes of the buffer. -/
theorem buffer_to_pixels_32i_eq (fr : float_rounding) (heap : heap_t ℚ) (n : Nat)
    (b : image.buffer_t ℚ) (hv : b.valid) :
    buffer_to_pixels_32i fr heap n b =
      pack_buffer heap n b b.channel_count b.channels
        (fun samples => samples.mapM
          fun v => float_to_uint8_t (packed_product fr b.channel_count v)) := by
  obtain ⟨h1, h4, hlen, _, _⟩ := hv
  obtain ⟨s1, s2, s3, s4⟩ := source_planes b
  have hcases : b.channel_count = 1 ∨ b.channel_count = 2 ∨ b.channel_count = 3 ∨
      b.channel_count = 4 := by omega
  rcases hcases with hc | hc | hc | hc <;> rw [hc] at hlen
  · have e : quantize_double fr = fun v => float_to_uint8_t (packed_product fr 1 v) := by
      funext v; simp [quantize_double, packed_product]
    simp only [buffer_to_pixels_32i, hc, buffer_to_pixels_1_32, s1 hlen, e]
  · have e : quantize_float fr = fun v => float_to_uint8_t (packed_product fr 2 v) := by
      funext v; simp [quantize_float, packed_product]
    simp only [buffer_to_pixels_32i, hc, buffer_to_pixels_2_32, s2 hlen, e]
  · have e : quantize_float fr = fun v => float_to_uint8_t (packed_product fr 3 v) := by
      funext v; simp [quantize_float, packed_product]
    simp only [buffer_to_pixels_32i, hc, buffer_to_pixels_3_32, s3 hlen, e]
  · have e : quantize_float fr = fun v => float_to_uint8_t (packed_product fr 4 v) := by
      funext v; simp [quantize_float, packed_product]
    simp only [buffer_to_pixels_32i, hc, buffer_to_pixels_4_32, s4 hlen, e]

/-- The packing loop stops in undefined behaviour when the conversion of one
of the samples it reads is undefined. -/
theorem pack_pixels_undefined (count : Nat) (sources : List (List ℚ))
    (q : ℚ → Except fault Nat) (hq : ∀ v e, q v = .error e → e = .undefined_behaviour)
    (hlen : ∀ s ∈ sources, count ≤ s.length)
    (i : Nat) (hi : i < count) (s : List ℚ) (hs : s ∈ sources)
    (hbad : ∃ e, q (s.getD i 0) = .error e) :
    pack_pixels count sources (fun samples => samples.mapM q) =
      .error .undefined_behaviour := by
  have round : ∀ j, j < count →
      (do
        let samples ← sources.mapM fun source => read_sample source j
        samples.mapM q) = (sources.map fun s => s.getD j 0).mapM q := by
    intro j hj
    rw [mapM_ok (fun source => read_sample source j) (fun s => s.getD j 0) sources
      (fun s hs => read_sample_ok s j (lt_of_lt_of_le hj (hlen s hs)))]
    rfl
  obtain ⟨e, he⟩ := mapM_fails (fun j => do
      let samples ← sources.mapM fun source => read_sample source j
      samples.mapM q) (List.range count) ⟨i, List.mem_range.mpr hi, by
        obtain ⟨e, he⟩ := mapM_fails q (sources.map fun s => s.getD i 0)
          ⟨s.getD i 0, List.mem_map.mpr ⟨s, hs, rfl⟩, hbad⟩
        exact ⟨e, (round i hi).trans he⟩⟩
  obtain ⟨j, hj, hfj⟩ := mapM_error_mem _ e _ he
  have hfj' := (round j (List.mem_range.mp hj)).symm.trans hfj
  obtain ⟨v, _, hv⟩ := mapM_error_mem _ e _ hfj'
  have he' : e = .undefined_behaviour := hq v e hv
  rw [pack_pixels, he, he']
  rfl

/-- The 8-bit packers stop in undefined behaviour when the buffer holds a
sample whose product is 256 or more, or -1 or less. -/
theorem buffer_to_pixels_32i_undefined (fr : float_rounding) (heap : heap_t ℚ) (n : Nat)
    (b : image.buffer_t ℚ) (hv : b.valid) (ha : heap.succeeds n = true)
    (c i : Nat) (v : ℚ) (hs : b.sample c i = some v)
    (hbad : 256 ≤ packed_product fr b.channel_count v ∨
      packed_product fr b.channel_count v ≤ -1) :
    buffer_to_pixels_32i fr heap n b = .error .undefined_behaviour := by
  have hv' := hv
  obtain ⟨h1, h4, hlen, hplanes, hsz⟩ := hv'
  have hx : float_trunc (packed_product fr b.channel_count v) < 0 ∨
      255 < float_trunc (packed_product fr b.channel_count v) := by
    rw [float_trunc]
    rcases hbad with h | h
    · right
      rw [if_pos (by linarith)]
      have : (256 : Int) ≤ ⌊packed_product fr b.channel_count v⌋ :=
        Int.le_floor.mpr (by exact_mod_cast h)
      omega
    · left
      rw [if_neg (by linarith)]
      have : ⌈packed_product fr b.channel_count v⌉ ≤ -1 :=
        Int.ceil_le.mpr (by exact_mod_cast h)
      omega
  have hbad' : float_to_uint8_t (packed_product fr b.channel_count v) =
      .error .undefined_behaviour := by
    rw [float_to_uint8_t, if_neg (by omega)]
  rw [image.buffer_t.sample] at hs
  cases hp : b.channels[c]? with
  | none => rw [hp] at hs; cases hs
  | some p =>
    rw [hp, Option.some_bind] at hs
    obtain ⟨hc, ep⟩ := List.getElem?_eq_some_iff.mp hp
    obtain ⟨hi, ev⟩ := List.getElem?_eq_some_iff.mp hs
    have hpm : p ∈ b.channels := by rw [← ep]; exact List.getElem_mem _
    have hi' : i < b.channel_width * b.channel_height := by rw [← hplanes p hpm]; exact hi
    have hsz' : b.channel_width * b.channel_height * b.channel_count < SIZE_T_MOD := by
      have : b.channel_width * b.channel_height * b.channel_count ≤
          b.channel_width * b.channel_height * 4 * b.channel_count :=
        Nat.mul_le_mul_right _ (Nat.le_mul_of_pos_right _ (by norm_num))
      omega
    have h2 : size_t_wrap (b.channel_width * b.channel_height) =
        b.channel_width * b.channel_height :=
      Nat.mod_eq_of_lt (lt_of_le_of_lt (Nat.le_mul_of_pos_right _ h1) hsz')
    have h3 : size_t_wrap (b.channel_width * b.channel_height * b.channel_count) =
        b.channel_width * b.channel_height * b.channel_count := Nat.mod_eq_of_lt hsz'
    have hpp := pack_pixels_undefined (b.channel_width * b.channel_height) b.channels
      (fun v => float_to_uint8_t (packed_product fr b.channel_count v))
      (fun v e h => float_to_uint8_t_fault _ e h)
      (fun s hs => by rw [hplanes s hs]) i hi' p hpm
      ⟨_, by rw [List.getD_eq_getElem _ _ hi, ev]; exact hbad'⟩
    rw [buffer_to_pixels_32i_eq fr heap n b hv]
    simp only [pack_buffer, ha, if_true, h2, h3, le_refl, hpp]
    rfl

/-- C11 (amended): for a valid buffer and a successful allocation, when every
sample `v` has a product `v * 255` (as the packer computes it) strictly
between -1 and 256, `buffer_to_pixels_32i` returns an array of
`width * height * channel_count` bytes in which the byte of the sample
`channels[c][i]` is element `i * channel_count + c` and is the product
truncated toward zero, not rounded; when some sample has a product of 256 or
more, or of -1 or less, the behaviour is undefined: nothing is clamped. -/
theorem buffer_to_pixels_32i_truncates (fr : float_rounding) (heap : heap_t ℚ) (n : Nat)
    (b : image.buffer_t ℚ) (hv : b.valid) (ha : heap.succeeds n = true) :
    ((∀ c i v, b.sample c i = some v →
        -1 < packed_product fr b.channel_count v ∧ packed_product fr b.channel_count v < 256) →
      ∃ pixels, buffer_to_pixels_32i fr heap n b = .ok (some pixels) ∧
        pixels.length = b.channel_width * b.channel_height * b.channel_count ∧
        ∀ c i v, b.sample c i = some v →
          pixels[i * b.channel_count + c]? =
            some (float_trunc (packed_product fr b.channel_count v)).toNat) ∧
    (∀ c i v, b.sample c i = some v →
      (256 ≤ packed_product fr b.channel_count v ∨ packed_product fr b.channel_count v ≤ -1) →
      buffer_to_pixels_32i fr heap n b = .error .undefined_behaviour) := by
  refine ⟨fun hr => ⟨_, buffer_to_pixels_32i_ok fr heap n b
    (fun v => (float_trunc (packed_product fr b.channel_count v)).toNat) hv ha
    (fun c i v hs => float_to_uint8_t_ok _ (hr c i v hs).1 (hr c i v hs).2), ?_, ?_⟩,
    fun c i v hs hbad => buffer_to_pixels_32i_undefined fr heap n b hv ha c i v hs hbad⟩
  · exact packed_bytes_length b _ hv
  · intro c i v hs
    exact packed_bytes_get b _ hv c i v hs

/-- C11 (witness): the 2 x 1 image with four planes, in exact arithmetic. -/
theorem buffer_to_pixels_32i_truncates_witness :
    ∃ pixels, buffer_to_pixels_32i exact_rounding packing_heap 0 (sample_planes 4) =
        .ok (some pixels) ∧
      pixels.length = (sample_planes 4).channel_width * (sample_planes 4).channel_height *
        (sample_planes 4).channel_count ∧
      ∀ c i v, (sample_planes 4).sample c i = some v →
        pixels[i * (sample_planes 4).channel_count + c]? =
          some (float_trunc (packed_product exact_rounding (sample_planes 4).channel_count
            v)).toNat :=
  (buffer_to_pixels_32i_truncates exact_rounding packing_heap 0 (sample_planes 4)
    (sample_planes_valid 4 (by decide) (by decide)) rfl).1 (fun c i v hs => by
      obtain ⟨h0, h1⟩ := sample_planes_range 4 c i v hs
      have e : packed_product exact_rounding (sample_planes 4).channel_count v = v * 255 := rfl
      rw [e]
      constructor <;> linarith)

/-- C11 (counterexample): a sample of 3/8 has the product 95.625 and is
packed to the byte 95 where `round (3/8 * 255)` is 96, and for a sample of 2
the conversion of the product 510 is undefined where the clamped value is
255. -/
theorem buffer_to_pixels_32i_counterexample :
    buffer_to_pixels_32i exact_rounding packing_heap 0 (sample_gray (3 / 8)) = .ok (some [95]) ∧
    min (max (round ((3 / 8 : ℚ) * 255)) 0) 255 = 96 ∧
    buffer_to_pixels_32i exact_rounding packing_heap 0 (sample_gray 2) =
      .error .undefined_behaviour ∧
    min (max (round ((2 : ℚ) * 255)) 0) 255 = 255 := by
  have r1 : round ((3 / 8 : ℚ) * 255) = 96 := by
    rw [round_eq, Int.floor_eq_iff]; norm_num
  have r2 : round ((2 : ℚ) * 255) = 510 := by
    rw [round_eq, Int.floor_eq_iff]; norm_num
  refine ⟨?_, by rw [r1]; decide, ?_, by rw [r2]; decide⟩
  · rw [gray_eval, float_to_uint8_t_ok _ (by norm_num) (by norm_num),
      float_trunc_three_eighths]
    rfl
  · rw [gray_eval, float_to_uint8_t_undefined _ (by norm_num)]
    rfl

/-- C12: for a valid buffer whose samples lie in `[0, 1]`, and arithmetic
whose rounding is monotone and keeps the integers 0 .. 255,
`buffer_to_pixels_32i` returns an array in which the byte `byte` of every
sample `v` satisfies `|v - byte / 255| ≤ 1 / 255`. -/
theorem buffer_to_pixels_32i_round_trip (fr : float_rounding) (heap : heap_t ℚ) (n : Nat)
    (b : image.buffer_t ℚ) (hf : fr.faithful) (hv : b.valid) (ha : heap.succeeds n = true)
    (hr : ∀ c i v, b.sample c i = some v → 0 ≤ v ∧ v ≤ 1) :
    ∃ pixels, buffer_to_pixels_32i fr heap n b = .ok (some pixels) ∧
      ∀ c i v, b.sample c i = some v →
        ∃ byte : Nat, pixels[i * b.channel_count + c]? = some byte ∧
          |v - (byte : ℚ) / 255| ≤ 1 / 255 := by
  obtain ⟨hm, hk⟩ := packed_product_faithful fr hf b.channel_count
  have hq : ∀ v : ℚ, 0 ≤ v → v ≤ 1 →
      float_to_uint8_t (packed_product fr b.channel_count v) =
        .ok (float_trunc (packed_product fr b.channel_count v)).toNat ∧
      |v - ((float_trunc (packed_product fr b.channel_count v)).toNat : ℚ) / 255| ≤ 1 / 255 :=
    fun v h0 h1 => quantize_bound _ hm hk v h0 h1
  refine ⟨_, buffer_to_pixels_32i_ok fr heap n b
    (fun v => (float_trunc (packed_product fr b.channel_count v)).toNat) hv ha
    (fun c i v hs => (hq v (hr c i v hs).1 (hr c i v hs).2).1), ?_⟩
  intro c i v hs
  exact ⟨_, packed_bytes_get b _ hv c i v hs, (hq v (hr c i v hs).1 (hr c i v hs).2).2⟩

/-- Exact arithmetic is a faithful rounding. -/
theorem exact_rounding_faithful : exact_rounding.faithful :=
  ⟨fun _ _ h => h, fun _ _ h => h, fun _ _ => rfl, fun _ _ => rfl⟩

/-- C12 (witness): the 2 x 1 image with four planes, in exact arithmetic. -/
theorem buffer_to_pixels_32i_round_trip_witness :
    ∃ pixels, buffer_to_pixels_32i exact_rounding packing_heap 0 (sample_planes 4) =
        .ok (some pixels) ∧
      ∀ c i v, (sample_planes 4).sample c i = some v →
        ∃ byte : Nat, pixels[i * (sample_planes 4).channel_count + c]? = some byte ∧
          |v - (byte : ℚ) / 255| ≤ 1 / 255 :=
  buffer_to_pixels_32i_round_trip exact_rounding packing_heap 0 (sample_planes 4)
    exact_rounding_faithful (sample_planes_valid 4 (by decide) (by decide)) rfl
    (sample_planes_range 4)

/-- A plane pointer below the plane count points at a plane of the buffer. -/
theorem source_plane_mem (b : image.buffer_t ℚ) (k : Nat) (h : k < b.channels.length) :
    source_plane b k ∈ b.channels := by
  rw [source_plane, List.getD_eq_getElem _ _ h]
  exact List.getElem_mem _

/-- The 16-bit packers past their channel test: on planes of a valid buffer
with samples in `[0, 1]` the loop runs to its end and an array is returned. -/
theorem pack_buffer_16_ok (fr : float_rounding) (heap : heap_t ℚ) (n : Nat)
    (b : image.buffer_t ℚ) (sources : List (List ℚ)) (word : List Nat → Nat)
    (hf : fr.faithful) (hv : b.valid) (ha : heap.succeeds n = true)
    (hr : ∀ c i v, b.sample c i = some v → 0 ≤ v ∧ v ≤ 1)
    (hsrc : ∀ s ∈ sources, s ∈ b.channels) :
    ∃ pixels, pack_buffer heap n b 2 sources (fun samples => do
        let values ← samples.mapM (quantize_float fr)
        pure [word values]) = .ok (some pixels) ∧
      pixels.length = b.channel_width * b.channel_height := by
  have hv' := hv
  obtain ⟨h1, h4, hlen, hplanes, hsz⟩ := hv'
  let byte : ℚ → Nat := fun v => (float_trunc (fr.to_float (v * 255))).toNat
  refine ⟨((List.range (b.channel_width * b.channel_height)).map fun i =>
    (fun samples => [word (samples.map byte)]) (sources.map fun s => s.getD i 0)).flatten, ?_, ?_⟩
  · apply pack_buffer_ok heap n b 2 _ _ _ ha _ (by norm_num)
    · apply pack_pixels_ok _ _ _ (fun samples => [word (samples.map byte)])
      · intro s hs; rw [hplanes s (hsrc s hs)]
      · intro i hi
        rw [mapM_ok (quantize_float fr) byte]
        · rfl
        · intro v hv2
          obtain ⟨p, hp, rfl⟩ := List.mem_map.mp hv2
          obtain ⟨c, _, hs⟩ := valid_sample b hv p (hsrc p hp) i hi
          exact (quantize_bound fr.to_float hf.1 hf.2.2.1 _ (hr c i _ hs).1 (hr c i _ hs).2).1
    · have : b.channel_width * b.channel_height * 2 ≤
          b.channel_width * b.channel_height * 4 * b.channel_count := by
        rw [Nat.mul_assoc (b.channel_width * b.channel_height)]
        exact Nat.mul_le_mul_left _ (by omega)
      omega
  · rw [flatten_length 1 _ (by
      intro l hl
      obtain ⟨j, _, rfl⟩ := List.mem_map.mp hl
      rfl), List.length_map, List.length_range, Nat.mul_one]

/-- With a successful allocation a packer that returns, returns an array. -/
theorem pack_buffer_some {β : Type} (heap : heap_t ℚ) (n : Nat) (buffer : image.buffer_t ℚ)
    (bpp : Nat) (sources : List (List ℚ)) (texel : List ℚ → Except fault (List β))
    (r : Option (List β)) (ha : heap.succeeds n = true)
    (h : pack_buffer heap n buffer bpp sources texel = .ok r) : ∃ pixels, r = some pixels := by
  simp only [pack_buffer, ha, if_true] at h
  split_ifs at h
  cases hp : pack_pixels (size_t_wrap (buffer.channel_width * buffer.channel_height))
    sources texel with
  | error e => rw [hp] at h; cases h
  | ok pixels => rw [hp] at h; cases h; exact ⟨pixels, rfl⟩

/-- C13: with a successful allocation, whenever
`buffer_to_pixels_16i_565` returns, its result is `NULL` exactly when the
buffer has fewer than 3 channels, and likewise for
`buffer_to_pixels_16i_4444` and `buffer_to_pixels_16i_5551` with 4 channels;
with too few channels each returns `NULL`, and with enough channels, on a
valid buffer with samples in `[0, 1]` and faithful arithmetic, each returns an
array of `width * height` words. -/
theorem buffer_to_pixels_16i_failure (fr : float_rounding) (heap : heap_t ℚ) (n : Nat)
    (b : image.buffer_t ℚ) (ha : heap.succeeds n = true) :
    ((∀ r, buffer_to_pixels_16i_565 fr heap n b = .ok r → (r = none ↔ b.channel_count < 3)) ∧
      (b.channel_count < 3 → buffer_to_pixels_16i_565 fr heap n b = .ok none) ∧
      (fr.faithful → b.valid → (∀ c i v, b.sample c i = some v → 0 ≤ v ∧ v ≤ 1) →
        3 ≤ b.channel_count →
        ∃ pixels, buffer_to_pixels_16i_565 fr heap n b = .ok (some pixels) ∧
          pixels.length = b.channel_width * b.channel_height)) ∧
    ((∀ r, buffer_to_pixels_16i_4444 fr heap n b = .ok r → (r = none ↔ b.channel_count < 4)) ∧
      (b.channel_count < 4 → buffer_to_pixels_16i_4444 fr heap n b = .ok none) ∧
      (fr.faithful → b.valid → (∀ c i v, b.sample c i = some v → 0 ≤ v ∧ v ≤ 1) →
        4 ≤ b.channel_count →
        ∃ pixels, buffer_to_pixels_16i_4444 fr heap n b = .ok (some pixels) ∧
          pixels.length = b.channel_width * b.channel_height)) ∧
    ((∀ r, buffer_to_pixels_16i_5551 fr heap n b = .ok r → (r = none ↔ b.channel_count < 4)) ∧
      (b.channel_count < 4 → buffer_to_pixels_16i_5551 fr heap n b = .ok none) ∧
      (fr.faithful → b.valid → (∀ c i v, b.sample c i = some v → 0 ≤ v ∧ v ≤ 1) →
        4 ≤ b.channel_count →
        ∃ pixels, buffer_to_pixels_16i_5551 fr heap n b = .ok (some pixels) ∧
          pixels.length = b.channel_width * b.channel_height)) := by
  refine ⟨⟨?_, ?_, ?_⟩, ⟨?_, ?_, ?_⟩, ⟨?_, ?_, ?_⟩⟩
  · intro r h
    rw [buffer_to_pixels_16i_565] at h
    by_cases hc : b.channel_count < 3
    · rw [if_pos hc] at h; cases h; exact ⟨fun _ => hc, fun _ => rfl⟩
    · rw [if_neg hc] at h
      obtain ⟨pixels, rfl⟩ := pack_buffer_some heap n b _ _ _ r ha h
      exact ⟨fun h => Option.noConfusion h, fun h => absurd h hc⟩
  · intro h; rw [buffer_to_pixels_16i_565, if_pos h]; rfl
  · intro hf hv hr h3
    rw [buffer_to_pixels_16i_565, if_neg (by omega)]
    exact pack_buffer_16_ok fr heap n b _
      (fun values => MAKE_RGB565 (values.getD 0 0) (values.getD 1 0) (values.getD 2 0))
      hf hv ha hr (by
        intro s hs
        simp only [List.mem_cons, List.mem_singleton, List.not_mem_nil, or_false] at hs
        rcases hs with h | h | h <;> subst h <;>
          exact source_plane_mem b _ (by rw [hv.2.2.1]; omega))
  · intro r h
    rw [buffer_to_pixels_16i_4444] at h
    by_cases hc : b.channel_count < 4
    · rw [if_pos hc] at h; cases h; exact ⟨fun _ => hc, fun _ => rfl⟩
    · rw [if_neg hc] at h
      obtain ⟨pixels, rfl⟩ := pack_buffer_some heap n b _ _ _ r ha h
      exact ⟨fun h => Option.noConfusion h, fun h => absurd h hc⟩
  · intro h; rw [buffer_to_pixels_16i_4444, if_pos h]; rfl
  · intro hf hv hr h3
    rw [buffer_to_pixels_16i_4444, if_neg (by omega)]
    exact pack_buffer_16_ok fr heap n b _
      (fun values => MAKE_RGB4444 (values.getD 0 0) (values.getD 1 0) (values.getD 2 0)
        (values.getD 3 0))
      hf hv ha hr (by
        intro s hs
        simp only [List.mem_cons, List.mem_singleton, List.not_mem_nil, or_false] at hs
        rcases hs with h | h | h | h <;> subst h <;>
          exact source_plane_mem b _ (by rw [hv.2.2.1]; omega))
  · intro r h
    rw [buffer_to_pixels_16i_5551] at h
    by_cases hc : b.channel_count < 4
    · rw [if_pos hc] at h; cases h; exact ⟨fun _ => hc, fun _ => rfl⟩
    · rw [if_neg hc] at h
      obtain ⟨pixels, rfl⟩ := pack_buffer_some heap n b _ _ _ r ha h
      exact ⟨fun h => Option.noConfusion h, fun h => absurd h hc⟩
  · intro h; rw [buffer_to_pixels_16i_5551, if_pos h]; rfl
  · intro hf hv hr h3
    rw [buffer_to_pixels_16i_5551, if_neg (by omega)]
    exact pack_buffer_16_ok fr heap n b _
      (fun values => MAKE_RGB5551 (values.getD 0 0) (values.getD 1 0) (values.getD 2 0)
        (values.getD 3 0))
      hf hv ha hr (by
        intro s hs
        simp only [List.mem_cons, List.mem_singleton, List.not_mem_nil, or_false] at hs
        rcases hs with h | h | h | h <;> subst h <;>
          exact source_plane_mem b _ (by rw [hv.2.2.1]; omega))

/-- C13 (witness): a 2-channel buffer is refused by the RGB565 packer and a
4-channel buffer is packed to `width * height` words. -/
theorem buffer_to_pixels_16i_failure_witness :
    buffer_to_pixels_16i_565 exact_rounding packing_heap 0 (sample_planes 2) = .ok none ∧
    ∃ pixels, buffer_to_pixels_16i_565 exact_rounding packing_heap 0 (sample_planes 4) =
        .ok (some pixels) ∧
      pixels.length = (sample_planes 4).channel_width * (sample_planes 4).channel_height :=
  ⟨(buffer_to_pixels_16i_failure exact_rounding packing_heap 0 (sample_planes 2) rfl).1.2.1
      (by decide),
    (buffer_to_pixels_16i_failure exact_rounding packing_heap 0 (sample_planes 4) rfl).1.2.2
      exact_rounding_faithful (sample_planes_valid 4 (by decide) (by decide))
      (sample_planes_range 4) (by decide)⟩

/-! ## Packed 16-bit words -/

/-- Or-ing a field below a shifted value is adding it. -/
theorem shl_or_eq_add (x a i : Nat) (h : a < 2 ^ i) : x <<< i ||| a = x * 2 ^ i + a := by
  rw [Nat.shiftLeft_eq, Nat.mul_comm, ← Nat.mul_add_lt_is_or h]

/-- Three fields packed by shifts and ors, as a sum. -/
theorem pack3_eq (x y z i j k : Nat) (hk : k + j = i) (hy : y < 2 ^ k) (hz : z < 2 ^ j) :
    x <<< i ||| y <<< j ||| z = (x * 2 ^ k + y) * 2 ^ j + z := by
  have h1 : y <<< j < 2 ^ i := by
    rw [Nat.shiftLeft_eq, ← hk, pow_add]
    exact Nat.mul_lt_mul_of_pos_right hy (by positivity)
  have e : x * 2 ^ i + y <<< j = (x * 2 ^ k + y) <<< j := by
    rw [Nat.shiftLeft_eq, Nat.shiftLeft_eq, ← hk, pow_add]; ring
  rw [shl_or_eq_add x _ i h1, e, shl_or_eq_add _ z j hz]


/-- Four fields packed by shifts and ors, as a sum. -/
theorem pack4_eq (x y z w a b c : Nat) (hy : y < 2 ^ a) (hz : z < 2 ^ b) (hw : w < 2 ^ c) :
    x <<< (a + b + c) ||| y <<< (b + c) ||| z <<< c ||| w =
      ((x * 2 ^ a + y) * 2 ^ b + z) * 2 ^ c + w := by
  have h1 : y <<< (b + c) < 2 ^ (a + b + c) := by
    have h2 : 2 ^ (a + b + c) = 2 ^ a * 2 ^ (b + c) := by rw [Nat.add_assoc, pow_add]
    rw [Nat.shiftLeft_eq, h2]
    exact Nat.mul_lt_mul_of_pos_right hy (Nat.two_pow_pos _)
  have e : x * 2 ^ (a + b + c) + y <<< (b + c) = (x * 2 ^ a + y) <<< (b + c) := by
    rw [Nat.shiftLeft_eq, Nat.shiftLeft_eq, Nat.add_assoc, pow_add]; ring
  rw [shl_or_eq_add x _ _ h1, e, pack3_eq _ z w (b + c) c b rfl hz hw]

/-- Masking with `2 ^ k - 1` is the remainder modulo `2 ^ k`. -/
theorem and_mask (x k m : Nat) (hm : m = 2 ^ k - 1) : x &&& m = x % 2 ^ k := by
  rw [hm, Nat.and_pow_two_sub_one_eq_mod]

/-- The RGBA4444 expression as a sum. -/
theorem MAKE_RGB4444_eq (r g b a : Nat) (hg : g ≤ 255) (hb : b ≤ 255) (ha : a ≤ 255) :
    (r >>> 4) <<< 12 ||| (g >>> 4) <<< 8 ||| (b >>> 4) <<< 4 ||| (a >>> 4) =
      ((r / 16 * 16 + g / 16) * 16 + b / 16) * 16 + a / 16 := by
  have h1 : g >>> 4 < 2 ^ 4 := by rw [Nat.shiftRight_eq_div_pow]; omega
  have h2 : b >>> 4 < 2 ^ 4 := by rw [Nat.shiftRight_eq_div_pow]; omega
  have h3 : a >>> 4 < 2 ^ 4 := by rw [Nat.shiftRight_eq_div_pow]; omega
  rw [pack4_eq _ _ _ _ 4 4 4 h1 h2 h3]
  simp only [Nat.shiftRight_eq_div_pow]
  norm_num

/-- The RGBA5551 expression as a sum. -/
theorem MAKE_RGB5551_eq (r g b a : Nat) (hg : g ≤ 255) (hb : b ≤ 255) (ha : a ≤ 255) :
    (r >>> 3) <<< 11 ||| (g >>> 3) <<< 6 ||| (b >>> 3) <<< 1 ||| (a >>> 7) =
      ((r / 8 * 32 + g / 8) * 32 + b / 8) * 2 + a / 128 := by
  have h1 : g >>> 3 < 2 ^ 5 := by rw [Nat.shiftRight_eq_div_pow]; omega
  have h2 : b >>> 3 < 2 ^ 5 := by rw [Nat.shiftRight_eq_div_pow]; omega
  have h3 : a >>> 7 < 2 ^ 1 := by rw [Nat.shiftRight_eq_div_pow]; omega
  rw [pack4_eq _ _ _ _ 5 5 1 h1 h2 h3]
  simp only [Nat.shiftRight_eq_div_pow]
  norm_num

/-- The RGB565 expression as a sum. -/
theorem MAKE_RGB565_or_eq (r g b : Nat) (hg : g ≤ 255) (hb : b ≤ 255) :
    (r >>> 3) <<< 11 ||| (g >>> 2) <<< 5 ||| (b >>> 3) = (r / 8 * 64 + g / 4) * 32 + b / 8 := by
  have h1 : g >>> 2 < 2 ^ 6 := by rw [Nat.shiftRight_eq_div_pow]; omega
  have h2 : b >>> 3 < 2 ^ 5 := by rw [Nat.shiftRight_eq_div_pow]; omega
  rw [pack3_eq _ _ _ 11 5 6 rfl h1 h2]
  simp only [Nat.shiftRight_eq_div_pow]
  norm_num

/-- The cast to `uint16_t` keeps a shifted value below `2 ^ 16`. -/
theorem to_uint16_t_shl (x k : Nat) (h : x * 2 ^ k < 2 ^ 16) :
    to_uint16_t (x <<< k) = x <<< k := by
  rw [to_uint16_t, Nat.shiftLeft_eq]; exact Nat.mod_eq_of_lt h

/-- C14: for byte values `r`, `g`, `b`, `a`, the words built by `MAKE_RGB565`,
`MAKE_RGB4444` and `MAKE_RGB5551` are the shift-and-or expressions of the three
formats; each word is below `2 ^ 16`, and every field is read back from the
word by a shift and a mask. -/
theorem packed_words_fields (r g b a : Nat) (hr : r ≤ 255) (hg : g ≤ 255) (hb : b ≤ 255)
    (ha : a ≤ 255) :
    (MAKE_RGB565 r g b = (r >>> 3) <<< 11 ||| (g >>> 2) <<< 5 ||| (b >>> 3) ∧
      MAKE_RGB565 r g b < 2 ^ 16 ∧
      MAKE_RGB565 r g b >>> 11 = r >>> 3 ∧
      (MAKE_RGB565 r g b >>> 5) &&& 63 = g >>> 2 ∧
      MAKE_RGB565 r g b &&& 31 = b >>> 3) ∧
    (MAKE_RGB4444 r g b a =
        (r >>> 4) <<< 12 ||| (g >>> 4) <<< 8 ||| (b >>> 4) <<< 4 ||| (a >>> 4) ∧
      MAKE_RGB4444 r g b a < 2 ^ 16 ∧
      MAKE_RGB4444 r g b a >>> 12 = r >>> 4 ∧
      (MAKE_RGB4444 r g b a >>> 8) &&& 15 = g >>> 4 ∧
      (MAKE_RGB4444 r g b a >>> 4) &&& 15 = b >>> 4 ∧
      MAKE_RGB4444 r g b a &&& 15 = a >>> 4) ∧
    (MAKE_RGB5551 r g b a =
        (r >>> 3) <<< 11 ||| (g >>> 3) <<< 6 ||| (b >>> 3) <<< 1 ||| (a >>> 7) ∧
      MAKE_RGB5551 r g b a < 2 ^ 16 ∧
      MAKE_RGB5551 r g b a >>> 11 = r >>> 3 ∧
      (MAKE_RGB5551 r g b a >>> 6) &&& 31 = g >>> 3 ∧
      (MAKE_RGB5551 r g b a >>> 1) &&& 31 = b >>> 3 ∧
      MAKE_RGB5551 r g b a &&& 1 = a >>> 7) := by
  have e565 : MAKE_RGB565 r g b = (r / 8 * 64 + g / 4) * 32 + b / 8 := by
    rw [MAKE_RGB565, to_uint16_t_shl _ _ (by rw [Nat.shiftRight_eq_div_pow]; omega),
      MAKE_RGB565_or_eq r g b hg hb, to_uint16_t]
    omega
  have e4444 : MAKE_RGB4444 r g b a = ((r / 16 * 16 + g / 16) * 16 + b / 16) * 16 + a / 16 := by
    rw [MAKE_RGB4444, to_uint16_t_shl _ _ (by rw [Nat.shiftRight_eq_div_pow]; omega),
      MAKE_RGB4444_eq r g b a hg hb ha, to_uint16_t]
    omega
  have e5551 : MAKE_RGB5551 r g b a = ((r / 8 * 32 + g / 8) * 32 + b / 8) * 2 + a / 128 := by
    rw [MAKE_RGB5551, to_uint16_t_shl _ _ (by rw [Nat.shiftRight_eq_div_pow]; omega),
      MAKE_RGB5551_eq r g b a hg hb ha, to_uint16_t]
    omega
  refine ⟨⟨?_, ?_, ?_, ?_, ?_⟩, ⟨?_, ?_, ?_, ?_, ?_, ?_⟩, ⟨?_, ?_, ?_, ?_, ?_, ?_⟩⟩
  · rw [e565, MAKE_RGB565_or_eq r g b hg hb]
  · rw [e565]; omega
  · rw [e565]; simp only [Nat.shiftRight_eq_div_pow]; omega
  · rw [e565, and_mask _ 6 63 rfl]; simp only [Nat.shiftRight_eq_div_pow]; omega
  · rw [e565, and_mask _ 5 31 rfl]; simp only [Nat.shiftRight_eq_div_pow]; omega
  · rw [e4444, MAKE_RGB4444_eq r g b a hg hb ha]
  · rw [e4444]; omega
  · rw [e4444]; simp only [Nat.shiftRight_eq_div_pow]; omega
  · rw [e4444, and_mask _ 4 15 rfl]; simp only [Nat.shiftRight_eq_div_pow]; omega
  · rw [e4444, and_mask _ 4 15 rfl]; simp only [Nat.shiftRight_eq_div_pow]; omega
  · rw [e4444, and_mask _ 4 15 rfl]; simp only [Nat.shiftRight_eq_div_pow]; omega
  · rw [e5551, MAKE_RGB5551_eq r g b a hg hb ha]
  · rw [e5551]; omega
  · rw [e5551]; simp only [Nat.shiftRight_eq_div_pow]; omega
  · rw [e5551, and_mask _ 5 31 rfl]; simp only [Nat.shiftRight_eq_div_pow]; omega
  · rw [e5551, and_mask _ 5 31 rfl]; simp only [Nat.shiftRight_eq_div_pow]; omega
  · rw [e5551, and_mask _ 1 1 rfl]; simp only [Nat.shiftRight_eq_div_pow]; omega

/-- C14 (witness): the bytes 255, 128, 7 and 200. -/
theorem packed_words_fields_witness :
    (MAKE_RGB565 255 128 7 = (255 >>> 3) <<< 11 ||| (128 >>> 2) <<< 5 ||| (7 >>> 3) ∧
      MAKE_RGB565 255 128 7 < 2 ^ 16 ∧
      MAKE_RGB565 255 128 7 >>> 11 = 255 >>> 3 ∧
      (MAKE_RGB565 255 128 7 >>> 5) &&& 63 = 128 >>> 2 ∧
      MAKE_RGB565 255 128 7 &&& 31 = 7 >>> 3) ∧
    (MAKE_RGB4444 255 128 7 200 =
        (255 >>> 4) <<< 12 ||| (128 >>> 4) <<< 8 ||| (7 >>> 4) <<< 4 ||| (200 >>> 4) ∧
      MAKE_RGB4444 255 128 7 200 < 2 ^ 16 ∧
      MAKE_RGB4444 255 128 7 200 >>> 12 = 255 >>> 4 ∧
      (MAKE_RGB4444 255 128 7 200 >>> 8) &&& 15 = 128 >>> 4 ∧
      (MAKE_RGB4444 255 128 7 200 >>> 4) &&& 15 = 7 >>> 4 ∧
      MAKE_RGB4444 255 128 7 200 &&& 15 = 200 >>> 4) ∧
    (MAKE_RGB5551 255 128 7 200 =
        (255 >>> 3) <<< 11 ||| (128 >>> 3) <<< 6 ||| (7 >>> 3) <<< 1 ||| (200 >>> 7) ∧
      MAKE_RGB5551 255 128 7 200 < 2 ^ 16 ∧
      MAKE_RGB5551 255 128 7 200 >>> 11 = 255 >>> 3 ∧
      (MAKE_RGB5551 255 128 7 200 >>> 6) &&& 31 = 128 >>> 3 ∧
      (MAKE_RGB5551 255 128 7 200 >>> 1) &&& 31 = 7 >>> 3 ∧
      MAKE_RGB5551 255 128 7 200 &&& 1 = 200 >>> 7) :=
  packed_words_fields 255 128 7 200 (by decide) (by decide) (by decide) (by decide)

/-! ## Half-precision conversion -/

/-- Masking a bit field: the bits of `2 ^ i * hi + lo` selected by a mask
`2 ^ i * mask` are those of `hi` selected by `mask`. -/
theorem and_field (i hi lo mask : Nat) (h : lo < 2 ^ i) :
    (2 ^ i * hi + lo) &&& (2 ^ i * mask) = 2 ^ i * (hi &&& mask) := by
  apply Nat.eq_of_testBit_eq
  intro j
  have h0 : 0 < 2 ^ i := Nat.two_pow_pos i
  have e1 := Nat.testBit_mul_pow_two_add hi h j
  have e2 := Nat.testBit_mul_pow_two_add mask h0 j
  have e3 := Nat.testBit_mul_pow_two_add (hi &&& mask) h0 j
  rw [Nat.add_zero] at e2 e3
  rw [Nat.testBit_and, e1, e2, e3]
  by_cases hj : j < i <;> simp [hj]

/-- The fields of the 32 bits of a `float` with sign `s`, biased exponent `e`
and mantissa `m`, as `float_to_half` extracts them. -/
theorem float_fields (s e m : Nat) (hs : s ≤ 1) (he : e ≤ 255) (hm : m < 2 ^ 23) :
    to_uint32_t (s * 2 ^ 31 + e * 2 ^ 23 + m) = s * 2 ^ 31 + e * 2 ^ 23 + m ∧
    to_uint16_t ((s * 2 ^ 31 + e * 2 ^ 23 + m) >>> 31) = s ∧
    (s * 2 ^ 31 + e * 2 ^ 23 + m) &&& ((1 <<< 23) - 1) = m ∧
    (s * 2 ^ 31 + e * 2 ^ 23 + m) &&& SINGLE_MAX_BIASED_EXP = e * 2 ^ 23 := by
  refine ⟨?_, ?_, ?_, ?_⟩
  · rw [to_uint32_t]; omega
  · rw [to_uint16_t, Nat.shiftRight_eq_div_pow]; omega
  · have : (1 <<< 23) - 1 = 2 ^ 23 - 1 := by decide
    rw [this, Nat.and_pow_two_sub_one_eq_mod]; omega
  · have e1 : s * 2 ^ 31 + e * 2 ^ 23 + m = 2 ^ 23 * (s * 256 + e) + m := by ring
    have e2 : SINGLE_MAX_BIASED_EXP = 2 ^ 23 * 255 := by decide
    have e3 : (s * 256 + e) &&& 255 = e := by
      have : (255 : Nat) = 2 ^ 8 - 1 := by decide
      rw [this, Nat.and_pow_two_sub_one_eq_mod]; omega
    rw [e1, e2, and_field 23 _ m 255 hm, e3, Nat.mul_comm]

/-- When the exponent field is at least `HALF_MAX_BIASED_EXP_AS_SINGLE_EXP`
the result is the sign bit over `0x7C00`, whatever the mantissa: the term
`(uint16_t) mantissa >> 16` is always zero. -/
theorem float_to_half_saturated (s e m : Nat) (hs : s ≤ 1) (he : 143 ≤ e) (he' : e ≤ 255)
    (hm : m < 2 ^ 23) :
    float_to_half (s * 2 ^ 31 + e * 2 ^ 23 + m) = some (s * 2 ^ 15 + 0x7C00) := by
  obtain ⟨f1, f2, f3, f4⟩ := float_fields s e m hs he' hm
  have h1 : e * 2 ^ 23 ≥ HALF_MAX_BIASED_EXP_AS_SINGLE_EXP := by
    show 0x47800000 ≤ e * 2 ^ 23
    omega
  have h2 : ∀ k : Nat, to_uint16_t k >>> 16 = 0 := by
    intro k
    rw [to_uint16_t, Nat.shiftRight_eq_div_pow]
    exact Nat.div_eq_of_lt (Nat.mod_lt _ (by norm_num))
  have h3 : to_uint16_t s = s := by rw [to_uint16_t]; omega
  have h4 : to_uint16_t HALF_MAX_BIASED_EXP = 0x7C00 := by decide
  have h5 : s <<< 15 ||| 0x7C00 = s * 2 ^ 15 + 0x7C00 := shl_or_eq_add s _ 15 (by norm_num)
  simp only [float_to_half, f1, f2, f3, f4, if_pos h1, h2, h3, h4, Nat.or_zero, h5]
  rw [to_uint16_t, Nat.mod_eq_of_lt (by omega)]

/-- C16: for sign bit `s`, biased exponent `113 ≤ e ≤ 142` and 23-bit
mantissa `m`, `float_to_half` returns
`(s << 15) | ((e - 112) << 10) | (m >> 13)`. -/
theorem float_to_half_normal (s e m : Nat) (hs : s ≤ 1) (he : 113 ≤ e) (he' : e ≤ 142)
    (hm : m < 2 ^ 23) :
    float_to_half (s * 2 ^ 31 + e * 2 ^ 23 + m) =
      some (s <<< 15 ||| (e - 112) <<< 10 ||| m >>> 13) := by
  obtain ⟨f1, f2, f3, f4⟩ := float_fields s e m hs (by omega) hm
  have h1 : ¬ e * 2 ^ 23 ≥ HALF_MAX_BIASED_EXP_AS_SINGLE_EXP := by
    show ¬ 0x47800000 ≤ e * 2 ^ 23
    omega
  have h2 : ¬ e * 2 ^ 23 ≤ HALF_MIN_BIASED_EXP_AS_SINGLE_EXP := by
    show ¬ e * 2 ^ 23 ≤ 0x38000000
    omega
  have h3 : to_uint16_t s = s := by rw [to_uint16_t]; omega
  have h4 : (e * 2 ^ 23 - HALF_MIN_BIASED_EXP_AS_SINGLE_EXP) >>> 13 = (e - 112) <<< 10 := by
    rw [Nat.shiftRight_eq_div_pow, Nat.shiftLeft_eq]
    show (e * 2 ^ 23 - 0x38000000) / 2 ^ 13 = (e - 112) * 2 ^ 10
    omega
  have h5 : to_uint16_t ((e - 112) <<< 10) = (e - 112) <<< 10 := by
    rw [to_uint16_t, Nat.shiftLeft_eq]; omega
  have h6 : m >>> 13 < 2 ^ 10 := by rw [Nat.shiftRight_eq_div_pow]; omega
  have h7 : to_uint16_t (m >>> 13) = m >>> 13 := by rw [to_uint16_t]; omega
  have h8 : s <<< 15 ||| (e - 112) <<< 10 ||| m >>> 13 =
      (s * 2 ^ 5 + (e - 112)) * 2 ^ 10 + m >>> 13 :=
    pack3_eq s (e - 112) (m >>> 13) 15 10 5 rfl (by omega) h6
  simp only [float_to_half, f1, f2, f3, f4, if_neg h1, if_neg h2, h3, h4, h5, h7]
  rw [to_uint16_t, Nat.mod_eq_of_lt (by rw [h8]; omega)]

/-- C16 (witness): the value 1.5, sign 0, exponent 127, mantissa `0x400000`. -/
theorem float_to_half_normal_witness :
    float_to_half (0 * 2 ^ 31 + 127 * 2 ^ 23 + 0x400000) =
      some (0 <<< 15 ||| (127 - 112) <<< 10 ||| 0x400000 >>> 13) :=
  float_to_half_normal 0 127 0x400000 (by decide) (by decide) (by decide) (by decide)

/-- C17: for sign bit `s`, a biased exponent `143 ≤ e ≤ 255` and any mantissa
(every finite value of magnitude 65536 or more, and the two infinities,
`e = 255` with `m = 0`), `float_to_half` returns `0x7C00` with `s` in bit
15. -/
theorem float_to_half_infinity (s e m : Nat) (hs : s ≤ 1) (he : 143 ≤ e) (he' : e ≤ 255)
    (hm : m < 2 ^ 23) :
    float_to_half (s * 2 ^ 31 + e * 2 ^ 23 + m) = some (s <<< 15 ||| 0x7C00) ∧
    (s <<< 15 ||| 0x7C00) >>> 15 = s ∧ (s <<< 15 ||| 0x7C00) &&& 0x7FFF = 0x7C00 := by
  have h5 : s <<< 15 ||| 0x7C00 = s * 2 ^ 15 + 0x7C00 := shl_or_eq_add s _ 15 (by norm_num)
  have h6 : (0x7FFF : Nat) = 2 ^ 15 - 1 := by decide
  refine ⟨?_, ?_, ?_⟩
  · rw [h5]; exact float_to_half_saturated s e m hs he he' hm
  · rw [h5, Nat.shiftRight_eq_div_pow]; omega
  · rw [h5, h6, Nat.and_pow_two_sub_one_eq_mod]; omega

/-- C17 (witness): negative infinity and 65536. -/
theorem float_to_half_infinity_witness :
    (float_to_half (1 * 2 ^ 31 + 255 * 2 ^ 23 + 0) = some (1 <<< 15 ||| 0x7C00) ∧
      (1 <<< 15 ||| 0x7C00) >>> 15 = 1 ∧ (1 <<< 15 ||| 0x7C00) &&& 0x7FFF = 0x7C00) ∧
    (float_to_half (0 * 2 ^ 31 + 143 * 2 ^ 23 + 0) = some (0 <<< 15 ||| 0x7C00) ∧
      (0 <<< 15 ||| 0x7C00) >>> 15 = 0 ∧ (0 <<< 15 ||| 0x7C00) &&& 0x7FFF = 0x7C00) :=
  ⟨float_to_half_infinity 1 255 0 (by decide) (by decide) (by decide) (by decide),
   float_to_half_infinity 0 143 0 (by decide) (by decide) (by decide) (by decide)⟩

/-- C15 (failing input): the quiet NaN `0x7FC00000` and the negative NaN `0xFFC00001` are
converted to `0x7C00` and `0xFC00`, whose 10 mantissa bits are all zero (the
half-precision infinities), not to a half-precision NaN. -/
theorem float_to_half_nan_is_infinity :
    float_to_half 0x7FC00000 = some 0x7C00 ∧ 0x7C00 &&& 0x3FF = 0 ∧
    float_to_half 0xFFC00001 = some 0xFC00 ∧ 0xFC00 &&& 0x3FF = 0 ∧
    float_to_half 0x7F800000 = some 0x7C00 := by
  decide

/-! ## Border-mode index functions -/

namespace image

/-- A non-negative `ptrdiff_t` converts to the same `size_t`. -/
theorem int_to_size_t_of_nonneg (x : Int) (h0 : 0 ≤ x) (h1 : x < 2 ^ 64) :
    int_to_size_t x = x.toNat := by
  rw [int_to_size_t, Int.emod_eq_of_lt h0 h1]

/-- The `size_t` expression `w - 1` for `w` at least 1. -/
theorem size_t_pred (w : Nat) (h0 : 1 ≤ w) (h1 : w < 2 ^ 64) :
    size_t_wrap (w + (SIZE_T_MOD - 1)) = w - 1 := by
  simp only [size_t_wrap, SIZE_T_MOD]; omega

/-- A `ptrdiff_t` value survives the round trip through `size_t`. -/
theorem to_ptrdiff_t_of_range (x : Int) (h0 : -(2 ^ 63) ≤ x) (h1 : x < 2 ^ 63) :
    to_ptrdiff_t ((int_to_size_t x : Nat) : Int) = x := by
  simp only [to_ptrdiff_t, int_to_size_t]; omega

/-- A `size_t` value stored in a signed variable converts back to itself. -/
theorem int_to_size_t_natCast (c : Nat) (h : c < 2 ^ 64) : int_to_size_t (c : Int) = c := by
  simp only [int_to_size_t]; omega

/-- The index `cy * w + cx` of an element of a `w` x `h` array is not changed
by the `size_t` arithmetic when `w * h` is below `2 ^ 64`. -/
theorem index_no_wrap (w h cx cy : Nat) (hx : cx < w) (hy : cy < h) (hsz : w * h < 2 ^ 64) :
    size_t_wrap (size_t_wrap (cy * w) + cx) = cy * w + cx ∧ cy * w + cx < w * h := by
  have h1 : cy * w + cx < w * h := by
    have : (cy + 1) * w ≤ h * w := Nat.mul_le_mul_right w hy
    rw [Nat.mul_comm w h]
    rw [Nat.add_mul, Nat.one_mul] at this
    omega
  have h2 : cy * w < 2 ^ 64 := by omega
  refine ⟨?_, h1⟩
  simp only [size_t_wrap, SIZE_T_MOD]
  rw [Nat.mod_eq_of_lt h2, Nat.mod_eq_of_lt (by omega)]

/-- The helper `repeat_remainder` on a non-negative `int32_t`. -/
theorem repeat_remainder_nonneg (a : Int) (b : Nat) (hb : 1 ≤ b) (h0 : 0 ≤ a)
    (h1 : a < 2 ^ 31) :
    repeat_remainder (to_int32_t a) b = .ok ((a.toNat % b : Nat) : Int) := by
  have e1 : to_int32_t a = a := by simp only [to_int32_t]; omega
  have e2 : int_to_size_t a = a.toNat := by simp only [int_to_size_t]; omega
  have e3 : a.toNat % b ≤ a.toNat := Nat.mod_le _ _
  have e4 : to_int32_t ((a.toNat % b : Nat) : Int) = ((a.toNat % b : Nat) : Int) := by
    simp only [to_int32_t]; omega
  rw [e1, repeat_remainder, if_neg (by omega), if_pos h0, e2, e4]
  rfl

/-- Non-negative `int32_t` coordinates are wrapped by `index_wrap` to
`(y mod height) * width + (x mod width)`. -/
theorem index_wrap_nonneg (width height : Nat) (x y : Int) (hw : 1 ≤ width) (hh : 1 ≤ height)
    (hsz : width * height < 2 ^ 64) (hx : 0 ≤ x ∧ x < 2 ^ 31) (hy : 0 ≤ y ∧ y < 2 ^ 31) :
    index_wrap width height x y = .ok (y.toNat % height * width + x.toNat % width) := by
  have hx' : x.toNat % width < width := Nat.mod_lt _ hw
  have hy' : y.toNat % height < height := Nat.mod_lt _ hh
  have hx2 : x.toNat % width ≤ x.toNat := Nat.mod_le _ _
  have hy2 : y.toNat % height ≤ y.toNat := Nat.mod_le _ _
  have e1 : int_to_size_t ((y.toNat % height : Nat) : Int) = y.toNat % height :=
    int_to_size_t_natCast _ (by omega)
  have e2 : int_to_size_t ((x.toNat % width : Nat) : Int) = x.toNat % width :=
    int_to_size_t_natCast _ (by omega)
  rw [index_wrap, repeat_remainder_nonneg y height hh hy.1 hy.2,
    repeat_remainder_nonneg x width hw hx.1 hx.2]
  show Except.ok _ = _
  rw [e1, e2, (index_no_wrap width height _ _ hx' hy' hsz).1]

/-- C18 (failing input): with a width of 4 the coordinate `-2` is wrapped to column
6, outside the row, where the remainder `-2 mod 4` is 2; with a width of 3
it is wrapped to column 2 where `-2 mod 3` is 1. -/
theorem index_wrap_negative_coordinate :
    index_wrap 4 1 (-2) 0 = .ok 6 ∧ ((0 : Int) % 1) * 4 + (-2) % 4 = 2 ∧ ¬ (6 < 4 * 1) ∧
    index_wrap 3 3 (-2) 0 = .ok 2 ∧ ((0 : Int) % 3) * 3 + (-2) % 3 = 1 := by
  refine ⟨by rfl, by decide, by decide, by rfl, by decide⟩

/-- C19 (counterexample): in a `2 ^ 32` x `(2 ^ 32 + 1)` array the index of
row `2 ^ 32`, column 0 is `2 ^ 64`, which `size_t` cannot hold: `index_clamp`
returns 0. -/
theorem index_clamp_counterexample :
    index_clamp (2 ^ 32) (2 ^ 32 + 1) 0 (2 ^ 32) = 0 ∧
    min (max (2 ^ 32 : Int) 0) ((2 ^ 32 + 1 : Nat) - 1 : Nat) * (2 ^ 32 : Nat) +
      min (max (0 : Int) 0) ((2 ^ 32 : Nat) - 1 : Nat) = 2 ^ 64 := by
  refine ⟨by decide, by decide⟩

/-- One coordinate of `index_clamp`, as a natural number. -/
theorem clamp_coordinate (w : Nat) (x : Int) (hw : 1 ≤ w) (hw' : w < 2 ^ 64)
    (hx : -(2 ^ 63) ≤ x) (hx' : x < 2 ^ 63) :
    ∃ c : Nat, c < w ∧ (c : Int) = min (max x 0) ((w : Int) - 1) ∧
      int_to_size_t
        (if int_to_size_t (if x < 0 then 0 else x) ≥ w
          then to_ptrdiff_t ((size_t_wrap (w + (SIZE_T_MOD - 1)) : Nat) : Int)
          else (if x < 0 then 0 else x)) = c := by
  rw [size_t_pred w hw hw']
  refine ⟨(min (max x 0) ((w : Int) - 1)).toNat, by omega, by omega, ?_⟩
  by_cases h : x < 0
  · simp only [if_pos h]
    have e : int_to_size_t 0 = 0 := rfl
    rw [e, if_neg (by omega)]
    omega
  · simp only [if_neg h]
    rw [int_to_size_t_of_nonneg x (by omega) (by omega)]
    by_cases h2 : x.toNat ≥ w
    · rw [if_pos h2]
      simp only [to_ptrdiff_t, int_to_size_t]
      omega
    · rw [if_neg h2, int_to_size_t_of_nonneg x (by omega) (by omega)]
      omega

/-- C19 (amended): for a `width` x `height` array of fewer than `2 ^ 64`
elements and all `ptrdiff_t` coordinates, `index_clamp` returns
`min(max(y,0), height-1) * width + min(max(x,0), width-1)`, which is
`y * width + x` for coordinates in range. -/
theorem index_clamp_eq (width height : Nat) (x y : Int) (hw : 1 ≤ width) (hh : 1 ≤ height)
    (hsz : width * height < 2 ^ 64)
    (hx : -(2 ^ 63) ≤ x ∧ x < 2 ^ 63) (hy : -(2 ^ 63) ≤ y ∧ y < 2 ^ 63) :
    ((index_clamp width height x y : Nat) : Int) =
      min (max y 0) ((height : Int) - 1) * width + min (max x 0) ((width : Int) - 1) ∧
    index_clamp width height x y < width * height ∧
    (0 ≤ x → x < width → 0 ≤ y → y < height →
      ((index_clamp width height x y : Nat) : Int) = y * width + x) := by
  have hw' : width < 2 ^ 64 := lt_of_le_of_lt (Nat.le_mul_of_pos_right width hh) hsz
  have hh' : height < 2 ^ 64 := lt_of_le_of_lt (Nat.le_mul_of_pos_left height hw) hsz
  obtain ⟨cx, hcx, ex, rx⟩ := clamp_coordinate width x hw hw' hx.1 hx.2
  obtain ⟨cy, hcy, ey, ry⟩ := clamp_coordinate height y hh hh' hy.1 hy.2
  have e : index_clamp width height x y = cy * width + cx := by
    simp only [index_clamp]
    rw [rx, ry]
    exact (index_no_wrap width height cx cy hcx hcy hsz).1
  have hlt := (index_no_wrap width height cx cy hcx hcy hsz).2
  refine ⟨?_, by rw [e]; exact hlt, ?_⟩
  · rw [e, ← ex, ← ey]; push_cast; ring
  · intro a1 a2 a3 a4
    rw [e]
    have e1 : (cx : Int) = x := by omega
    have e2 : (cy : Int) = y := by omega
    push_cast
    rw [e1, e2]

/-- C19 (witness): a 4 x 3 array, column -2 and row 7. -/
theorem index_clamp_eq_witness :
    ((index_clamp 4 3 (-2) 7 : Nat) : Int) =
      min (max 7 0) (((3 : Nat) : Int) - 1) * (4 : Nat) + min (max (-2) 0) (((4 : Nat) : Int) - 1) ∧
    index_clamp 4 3 (-2) 7 < 4 * 3 ∧
    (0 ≤ (-2 : Int) → (-2 : Int) < (4 : Nat) → 0 ≤ (7 : Int) → (7 : Int) < (3 : Nat) →
      ((index_clamp 4 3 (-2) 7 : Nat) : Int) = 7 * (4 : Nat) + (-2)) :=
  index_clamp_eq 4 3 (-2) 7 (by decide) (by decide) (by decide) (by decide) (by decide)

/-- A coordinate in range leaves the loop of `index_mirror` at once. -/
theorem index_mirror_loop_in_range (fuel w : Nat) (x : Int) (hw : 1 ≤ w) (hw' : w < 2 ^ 64)
    (h0 : 0 ≤ x) (h1 : x < w) : index_mirror_loop (fuel + 1) w x = .ok x := by
  rw [index_mirror_loop, size_t_pred w hw hw', if_neg]
  · rfl
  · simp only [int_to_size_t]; omega

/-- One round of the loop of `index_mirror` on a coordinate out of range. -/
theorem index_mirror_loop_step (fuel w : Nat) (x : Int) (hw : 1 ≤ w) (hw' : w < 2 ^ 64)
    (hx : -(2 ^ 63) < x) (hx' : x < 2 ^ 63) (hout : x < 0 ∨ (w : Int) ≤ x) :
    index_mirror_loop (fuel + 1) w x =
      index_mirror_loop fuel w (if (w : Int) ≤ |x| then 2 * w - 1 - |x| else |x|) := by
  rw [index_mirror_loop, size_t_pred w hw hw', if_pos, if_neg]
  · by_cases hneg : x < 0
    · simp only [if_pos hneg]
      have ha : |x| = -x := abs_of_neg hneg
      rw [ha]
      by_cases hge : (w : Int) ≤ -x
      · rw [if_pos hge, if_pos (by simp only [int_to_size_t]; omega)]
        rw [to_ptrdiff_t_of_range _ (by omega) (by omega)]
        have e : (w : Int) + w - -x - 1 = 2 * w - 1 - -x := by ring
        rw [e]
      · rw [if_neg hge, if_neg (by simp only [int_to_size_t]; omega)]
    · simp only [if_neg hneg]
      have ha : |x| = x := abs_of_nonneg (by omega)
      rw [ha]
      have hge : (w : Int) ≤ x := by omega
      rw [if_pos hge, if_pos (by simp only [int_to_size_t]; omega)]
      rw [to_ptrdiff_t_of_range _ (by omega) (by omega)]
      have e : (w : Int) + w - x - 1 = 2 * w - 1 - x := by ring
      rw [e]
  · show ¬ x = -(2 ^ 63)
    omega
  · simp only [int_to_size_t]; omega

/-- The loop of `index_mirror` ends, with a coordinate in range, within
`|x| + 2` rounds. -/
theorem index_mirror_loop_terminates (w : Nat) (hw : 1 ≤ w) (hw' : w < 2 ^ 64) :
    ∀ (fuel : Nat) (x : Int), -(2 ^ 63) < x → x < 2 ^ 63 → x.natAbs + 2 ≤ fuel →
      ∃ c : Nat, c < w ∧ index_mirror_loop fuel w x = .ok (c : Int) := by
  intro fuel
  induction fuel with
  | zero => intro x _ _ h; omega
  | succ fuel ih =>
    intro x hx hx' hf
    by_cases hin : 0 ≤ x ∧ x < w
    · exact ⟨x.toNat, by omega, by
        rw [index_mirror_loop_in_range fuel w x hw hw' hin.1 hin.2]; congr 1; omega⟩
    · have hout : x < 0 ∨ (w : Int) ≤ x := by omega
      rw [index_mirror_loop_step fuel w x hw hw' hx hx' hout]
      have habs : |x| = (x.natAbs : Int) := Int.abs_eq_natAbs x
      rw [habs]
      by_cases hge : (w : Int) ≤ (x.natAbs : Int)
      · rw [if_pos hge]
        by_cases hin2 : 0 ≤ 2 * (w : Int) - 1 - (x.natAbs : Int)
        · obtain ⟨f, rfl⟩ : ∃ f, fuel = f + 1 := ⟨fuel - 1, by omega⟩
          exact ⟨(2 * (w : Int) - 1 - (x.natAbs : Int)).toNat, by omega, by
            rw [index_mirror_loop_in_range f w _ hw hw' hin2 (by omega)]; congr 1; omega⟩
        · exact ih _ (by omega) (by omega) (by omega)
      · rw [if_neg hge]
        obtain ⟨f, rfl⟩ : ∃ f, fuel = f + 1 := ⟨fuel - 1, by omega⟩
        exact ⟨x.natAbs, by omega, by
          rw [index_mirror_loop_in_range f w _ hw hw' (by omega) (by omega)]⟩

/-- More fuel does not change the result of the loop of `index_mirror`. -/
theorem index_mirror_loop_mono (w : Nat) (c : Int) :
    ∀ (fuel : Nat) (x : Int), index_mirror_loop fuel w x = .ok c →
      index_mirror_loop (fuel + 1) w x = .ok c := by
  intro fuel
  induction fuel with
  | zero => intro x h; rw [index_mirror_loop] at h; cases h
  | succ fuel ih =>
    intro x h
    rw [index_mirror_loop] at h ⊢
    by_cases h1 : x < 0 ∨ int_to_size_t x > size_t_wrap (w + (SIZE_T_MOD - 1))
    · rw [if_pos h1] at h ⊢
      by_cases h2 : x = PTRDIFF_MIN
      · rw [if_pos h2] at h; cases h
      · rw [if_neg h2] at h ⊢
        exact ih _ h
    · rw [if_neg h1] at h ⊢
      exact h

/-- Any larger amount of fuel gives the same result. -/
theorem index_mirror_loop_mono_le (w : Nat) (c : Int) (fuel fuel' : Nat) (x : Int)
    (hle : fuel ≤ fuel') (h : index_mirror_loop fuel w x = .ok c) :
    index_mirror_loop fuel' w x = .ok c := by
  induction hle with
  | refl => exact h
  | step _ ih => exact index_mirror_loop_mono w c _ x ih

/-- What the loop of `index_mirror` makes of one coordinate `x` of an extent
`w`: a coordinate `c` in range, reached with any fuel from `|x| + 2` on;
`x` itself when `x` is in range, `2 * w - 1 - x` for `w ≤ x ≤ 2 * w - 1`,
and `-x` for `-(w - 1) ≤ x < 0`. -/
theorem index_mirror_loop_spec (w : Nat) (x : Int) (hw : 1 ≤ w) (hw' : w < 2 ^ 64)
    (hx : -(2 ^ 63) < x) (hx' : x < 2 ^ 63) :
    ∃ c : Nat, c < w ∧
      (∀ fuel, x.natAbs + 2 ≤ fuel → index_mirror_loop fuel w x = .ok (c : Int)) ∧
      (0 ≤ x → x < w → (c : Int) = x) ∧
      ((w : Int) ≤ x → x ≤ 2 * w - 1 → (c : Int) = 2 * w - 1 - x) ∧
      (-((w : Int) - 1) ≤ x → x < 0 → (c : Int) = -x) := by
  obtain ⟨c, hc, hrun⟩ := index_mirror_loop_terminates w hw hw' (x.natAbs + 2) x hx hx' le_rfl
  have inj : ∀ a b : Int, (Except.ok a : Except fault Int) = .ok b → a = b := by
    intro a b h; cases h; rfl
  refine ⟨c, hc, fun fuel hf => index_mirror_loop_mono_le w c _ fuel x hf hrun, ?_, ?_, ?_⟩
  · intro h0 h1
    rw [index_mirror_loop_in_range _ w x hw hw' h0 h1] at hrun
    exact (inj _ _ hrun).symm
  · intro h0 h1
    have ha : |x| = x := abs_of_nonneg (by omega)
    rw [index_mirror_loop_step _ w x hw hw' hx hx' (Or.inr h0), ha, if_pos h0] at hrun
    obtain ⟨f, hf⟩ : ∃ f, x.natAbs + 1 = f + 1 := ⟨x.natAbs, rfl⟩
    rw [hf, index_mirror_loop_in_range f w _ hw hw' (by omega) (by omega)] at hrun
    exact (inj _ _ hrun).symm
  · intro h0 h1
    have ha : |x| = -x := abs_of_neg h1
    rw [index_mirror_loop_step _ w x hw hw' hx hx' (Or.inl h1), ha, if_neg (by omega)] at hrun
    obtain ⟨f, hf⟩ : ∃ f, x.natAbs + 1 = f + 1 := ⟨x.natAbs, rfl⟩
    rw [hf, index_mirror_loop_in_range f w _ hw hw' (by omega) (by omega)] at hrun
    exact (inj _ _ hrun).symm

/-- C20 (amended): for a `width` x `height` array of fewer than `2 ^ 64`
elements and `ptrdiff_t` coordinates other than the least one, both loops of
`index_mirror` end (any fuel from `max |x| |y| + 2` on is enough) and the
result is `cy * width + cx` with `cx < width` and `cy < height`; a coordinate
in range is kept, `c` with `dim ≤ c ≤ 2 * dim - 1` becomes `2 * dim - 1 - c`,
and `c` with `-(dim - 1) ≤ c < 0` becomes `-c`. -/
theorem index_mirror_eq (width height : Nat) (x y : Int) (hw : 1 ≤ width) (hh : 1 ≤ height)
    (hsz : width * height < 2 ^ 64)
    (hx : -(2 ^ 63) < x ∧ x < 2 ^ 63) (hy : -(2 ^ 63) < y ∧ y < 2 ^ 63) :
    ∃ cx cy : Nat, cx < width ∧ cy < height ∧
      (∀ fuel, max x.natAbs y.natAbs + 2 ≤ fuel →
        index_mirror fuel width height x y = .ok (cy * width + cx)) ∧
      ((0 ≤ x → x < width → (cx : Int) = x) ∧
        ((width : Int) ≤ x → x ≤ 2 * width - 1 → (cx : Int) = 2 * width - 1 - x) ∧
        (-((width : Int) - 1) ≤ x → x < 0 → (cx : Int) = -x)) ∧
      ((0 ≤ y → y < height → (cy : Int) = y) ∧
        ((height : Int) ≤ y → y ≤ 2 * height - 1 → (cy : Int) = 2 * height - 1 - y) ∧
        (-((height : Int) - 1) ≤ y → y < 0 → (cy : Int) = -y)) := by
  have hw' : width < 2 ^ 64 := lt_of_le_of_lt (Nat.le_mul_of_pos_right width hh) hsz
  have hh' : height < 2 ^ 64 := lt_of_le_of_lt (Nat.le_mul_of_pos_left height hw) hsz
  obtain ⟨cx, hcx, rx, fx⟩ := index_mirror_loop_spec width x hw hw' hx.1 hx.2
  obtain ⟨cy, hcy, ry, fy⟩ := index_mirror_loop_spec height y hh hh' hy.1 hy.2
  refine ⟨cx, cy, hcx, hcy, ?_, fx, fy⟩
  intro fuel hf
  have h1 : x.natAbs + 2 ≤ fuel := by omega
  have h2 : y.natAbs + 2 ≤ fuel := by omega
  simp only [index_mirror, rx fuel h1, ry fuel h2, bind, Except.bind, pure, Except.pure]
  rw [int_to_size_t_natCast cx (by omega), int_to_size_t_natCast cy (by omega),
    (index_no_wrap width height cx cy hcx hcy hsz).1]

/-- C20 (witness): a 4 x 3 array, column -2 and row 5. -/
theorem index_mirror_eq_witness :
    ∃ cx cy : Nat, cx < 4 ∧ cy < 3 ∧
      (∀ fuel, max (-2 : Int).natAbs (5 : Int).natAbs + 2 ≤ fuel →
        index_mirror fuel 4 3 (-2) 5 = .ok (cy * 4 + cx)) ∧
      ((0 ≤ (-2 : Int) → (-2 : Int) < (4 : Nat) → (cx : Int) = -2) ∧
        (((4 : Nat) : Int) ≤ -2 → (-2 : Int) ≤ 2 * (4 : Nat) - 1 →
          (cx : Int) = 2 * (4 : Nat) - 1 - -2) ∧
        (-(((4 : Nat) : Int) - 1) ≤ -2 → (-2 : Int) < 0 → (cx : Int) = - -2)) ∧
      ((0 ≤ (5 : Int) → (5 : Int) < (3 : Nat) → (cy : Int) = 5) ∧
        (((3 : Nat) : Int) ≤ 5 → (5 : Int) ≤ 2 * (3 : Nat) - 1 →
          (cy : Int) = 2 * (3 : Nat) - 1 - 5) ∧
        (-(((3 : Nat) : Int) - 1) ≤ 5 → (5 : Int) < 0 → (cy : Int) = -5)) :=
  index_mirror_eq 4 3 (-2) 5 (by decide) (by decide) (by decide) (by decide) (by decide)

/-- C20 (counterexample): the least `ptrdiff_t` coordinate cannot be
negated, and the index of the last row of a `2 ^ 32` x `(2 ^ 32 + 1)` array wraps to 0. -/
theorem index_mirror_counterexample :
    (∀ fuel, index_mirror (fuel + 1) 4 4 PTRDIFF_MIN 0 = .error .undefined_behaviour) ∧
    index_mirror 1 (2 ^ 32) (2 ^ 32 + 1) 0 (2 ^ 32) = .ok 0 ∧
    (2 ^ 32 : Int) < ((2 ^ 32 + 1 : Nat) : Int) ∧ (2 ^ 32 : Nat) * 2 ^ 32 + 0 = 2 ^ 64 := by
  refine ⟨fun fuel => by rfl, by rfl, by decide, by decide⟩

end image

/-! ## Allocation failure in the compiler -/

/-- Whatever the allocator does, a call of `compile_texture` that returns,
returns `true` and leaves the empty message `NO_ERROR`. -/
theorem compile_texture_always_true {α : Type} (ops : sample_ops α) (heap : heap_t α)
    (n fuel : Nat) (inputs : texture_compiler_inputs_t α)
    (outputs : texture_compiler_outputs_t α) (flag : Bool)
    (inputs' : texture_compiler_inputs_t α) (outputs' : texture_compiler_outputs_t α)
    (n' : Nat)
    (h : compile_texture ops heap n fuel inputs outputs = .ok (flag, inputs', outputs', n')) :
    flag = true ∧ outputs'.error_message = "" := by
  unfold compile_texture at h
  simp only [] at h
  split at h
  · cases h
  · rename_i sanitized _
    cases h0 : build_level0 ops heap n sanitized.input_image sanitized.target_width
        sanitized.target_height sanitized.border_mode with
    | error e => simp [h0, bind, Except.bind] at h
    | ok r0 =>
      obtain ⟨f0, level_0, n0⟩ := r0
      simp only [h0, bind, Except.bind] at h
      cases level_0 with
      | none => simp at h
      | some level_0 =>
        simp only [] at h
        split at h
        · cases h
        · split at h
          · cases h
          · split at h
            · cases h
            · simp only [pure, Except.pure, Except.ok.injEq, Prod.mk.injEq] at h
              obtain ⟨h1, _, h3, _⟩ := h
              exact ⟨h1.symm, by rw [← h3]⟩

/-- C23 (failing input): a 1 x 1 image is compiled to 2 x 2 by an allocator
whose second call, the target buffer of `resize_buffer`, fails:
`compile_texture` returns `true` with the empty message, and hands out as
level 0 the block of the first call, which nothing was written to. -/
theorem compile_texture_ignores_failure :
    ∃ inputs' outputs' n',
      compile_texture sample_ops_nat (failing_heap 1) 0 64
        { sample_inputs (sample_image 1 1 1) false false with
          target_width := 2, target_height := 2 }
        sample_outputs = .ok (true, inputs', outputs', n') ∧
      outputs'.error_message = "" ∧ outputs'.level_count = 1 ∧
      (failing_heap 1).succeeds 1 = false ∧
      outputs'.level_data 0 = some
        { channels := [[0, 0, 0, 0]], channel_count := 1, channel_width := 2,
          channel_height := 2 } :=
  ⟨_, _, _, rfl, rfl, rfl, rfl, rfl⟩

/-! ## Premultiplication and the other planes -/

/-- C28 (failing input): in the call of the compiler (base 0, count 3, alpha
plane 3) on the 2 x 2 sample image with alpha samples 2, 3, 4, 5, the loop
runs over all four planes: the alpha plane is multiplied by itself and comes
back as 4, 9, 16, 25. -/
theorem premultiply_alpha_squares_alpha :
    image.premultiply_alpha sample_ops_nat sample_rgba 0 3 (.plane 3) =
      .ok { sample_rgba with
        channels := [[2, 6, 12, 20], [10, 18, 28, 40], [18, 30, 44, 60], [4, 9, 16, 25]] } ∧
    sample_rgba.channels[3]? = some [2, 3, 4, 5] :=
  ⟨rfl, rfl⟩

/-! ## Atlas and header records -/

namespace image

/-- The size computed by `atlas_size` below the wrap: 12 bytes per entry and
4 bytes for the count. -/
theorem atlas_size_eq (n : Nat) (h : 12 * n + 4 < 2 ^ 64) : atlas_size n = 12 * n + 4 := by
  simp only [atlas_size, size_t_wrap, SIZE_T_MOD, sizeof_atlas_entry_t]
  omega

/-- C29 (failing input): `sizeof(atlas_entry_t)` is 8, so one entry takes
`4 + 8 + 4 = 16` bytes where the claim counts `4 + 16 + 4 = 24`. -/
theorem atlas_size_entry_is_8_bytes :
    atlas_size 1 = 16 ∧ 1 * 4 + 1 * 16 + 4 = 24 ∧ sizeof_atlas_entry_t = 8 ∧
    atlas_size 100 = 1204 := by
  decide

/-- C30: for a container whose counts and dimensions fit 32 bits (and whose
fields are values of their types), `container_from_header` applied to the
header written by `get_header` gives the container back with its three
pointers null, whatever the header and the container held before. -/
theorem container_header_round_trip (c : container_t) (h0 : header_t) (c0 : container_t)
    (hformat : -(2 ^ 31) ≤ c.format ∧ c.format < 2 ^ 31)
    (hflags : -(2 ^ 31) ≤ c.flags ∧ c.flags < 2 ^ 31)
    (hitems : c.items < 2 ^ 32) (hlevels : c.levels < 2 ^ 32) (hwidth : c.width < 2 ^ 32)
    (hheight : c.height < 2 ^ 32) (hslices : c.slices < 2 ^ 32)
    (himage : c.image_size < 2 ^ 64) (hatlas : c.atlas_size < 2 ^ 64) :
    ∃ h, get_header c (some h0) = some h ∧
      h.reserved = [73, 77, 71, 67, 70] ∧
      container_from_header h (some c0) =
        some { c with alloc_base := none, image_data := none, atlas_data := none } := by
  have e1 : to_int32_t c.format = c.format := by simp only [to_int32_t]; omega
  have e2 : to_int32_t c.flags = c.flags := by simp only [to_int32_t]; omega
  refine ⟨_, rfl, rfl, ?_⟩
  simp only [container_from_header, e1, e2, to_uint32_t, size_t_wrap, SIZE_T_MOD,
    Nat.mod_eq_of_lt hitems, Nat.mod_eq_of_lt hlevels, Nat.mod_eq_of_lt hwidth,
    Nat.mod_eq_of_lt hheight, Nat.mod_eq_of_lt hslices, Nat.mod_eq_of_lt himage,
    Nat.mod_eq_of_lt hatlas, Nat.mod_mod]

/-- C30 (witness): a 256 x 128 container of 9 levels. -/
theorem container_header_round_trip_witness :
    ∃ h, get_header ⟨4, 0, 1, 9, 256, 128, 1, 174760, 0, some 64, some 64, none⟩
        (some ⟨0, 0, 0, 0, 0, 0, 0, 0, 0, []⟩) = some h ∧
      h.reserved = [73, 77, 71, 67, 70] ∧
      container_from_header h (some ⟨0, 0, 0, 0, 0, 0, 0, 0, 0, none, none, none⟩) =
        some { (⟨4, 0, 1, 9, 256, 128, 1, 174760, 0, some 64, some 64, none⟩ : container_t) with
          alloc_base := none, image_data := none, atlas_data := none } :=
  container_header_round_trip ⟨4, 0, 1, 9, 256, 128, 1, 174760, 0, some 64, some 64, none⟩
    ⟨0, 0, 0, 0, 0, 0, 0, 0, 0, []⟩ ⟨0, 0, 0, 0, 0, 0, 0, 0, 0, none, none, none⟩
    (by decide) (by decide) (by decide) (by decide) (by decide) (by decide) (by decide)
    (by decide) (by decide)

end image

/-! ## Region copy -/

/-- C27 (failing input): a 1 x 1 source is copied into a 2 x 2 target at
column 3, past the right edge. The clipping `num_cols -= (3 + 1) - 2` wraps to
`2 ^ 64 - 1` columns and the `memcpy` of `2 ^ 64 - 4` bytes runs outside both
planes; at column 2, on the edge, nothing is copied. -/
theorem copy_buffer_to_region_past_edge :
    copy_buffer_to_region (sample_image 2 2 1) ⟨[[7]], 1, 1, 1⟩ 3 0 =
      .error .undefined_behaviour ∧
    size_t_wrap (1 + (SIZE_T_MOD - size_t_wrap (size_t_wrap (3 + 1) + (SIZE_T_MOD - 2)))) =
      2 ^ 64 - 1 ∧
    copy_buffer_to_region (sample_image 2 2 1) ⟨[[7]], 1, 1, 1⟩ 2 0 =
      .ok (sample_image 2 2 1) ∧
    copy_buffer_to_region (sample_image 2 2 1) ⟨[[7]], 1, 1, 1⟩ 1 1 =
      .ok ⟨[[0, 0, 0, 7]], 1, 2, 2⟩ :=
  ⟨rfl, by decide, rfl, rfl⟩

/-! ## Argument validation -/

/-- The names `texture_format` knows. -/
theorem texture_format_known (s : String) (n : Nat) (hs : s ≠ "") :
    texture_format (some s) n ≠ TEXTURE_FORMAT_UNKNOWN ↔
      s ∈ ["RGB565", "RGBA4444", "RGBA5551", "R8", "RG8", "RGB", "RGB8", "RGBA", "RGBA8",
        "R16F", "RG16F", "RGB16F", "RGBA16F", "R32F", "RG32F", "RGB32F", "RGBA32F"] := by
  have he : is_null_or_empty (some s) = false := by
    simp [is_null_or_empty, hs]
  simp only [texture_format, he, str_is, beq_iff_eq, List.mem_cons, List.mem_singleton,
    List.not_mem_nil, or_false, Bool.false_eq_true, if_false]
  constructor
  · intro h
    by_contra hcon
    simp only [not_or] at hcon
    obtain ⟨h1, h2, h3, h4, h5, h6, h7, h8, h9, h10, h11, h12, h13, h14, h15, h16, h17⟩ := hcon
    simp only [h1, h2, h3, h4, h5, h6, h7, h8, h9, h10, h11, h12, h13, h14, h15, h16, h17,
      if_false] at h
    exact h rfl
  · intro h
    rcases h with h | h | h | h | h | h | h | h | h | h | h | h | h | h | h | h | h <;>
      subst h <;> decide

/-- A named format is the same for every channel count. -/
theorem texture_format_named (s : String) (n m : Nat) (hs : s ≠ "") :
    texture_format (some s) n = texture_format (some s) m := by
  have he : is_null_or_empty (some s) = false := by
    simp [is_null_or_empty, hs]
  simp only [texture_format, he, Bool.false_eq_true, if_false]

/-- The default format of a null or empty string exists for 1 to 4 channels. -/
theorem texture_format_default (str : Option String) (n : Nat)
    (he : is_null_or_empty str = true) :
    texture_format str n ≠ TEXTURE_FORMAT_UNKNOWN ↔ 1 ≤ n ∧ n ≤ 4 := by
  simp only [texture_format, he, if_true]
  constructor
  · intro h
    by_contra hcon
    have : n = 0 ∨ 5 ≤ n := by omega
    rcases this with h0 | h5
    · subst h0; exact h rfl
    · obtain ⟨k, rfl⟩ : ∃ k, n = k + 5 := ⟨n - 5, by omega⟩
      exact h rfl
  · intro ⟨h1, h4⟩
    have : n = 1 ∨ n = 2 ∨ n = 3 ∨ n = 4 := by omega
    rcases this with h | h | h | h <;> subst h <;> decide

/-- C24 (amended): `validate_arguments` reports the format field exactly when
the type field is valid and `texture_format` yields `TEXTURE_FORMAT_UNKNOWN`;
that is the case for a null or empty string with a channel count outside
1 .. 4 and for a non-empty string that is not one of the 17 format names. A
format name is looked up without the channel count. -/
theorem validate_arguments_format {α : Type} (args : texture_compiler_args_t)
    (source : image.buffer_t α) :
    (texture_type args.texture_type source.channel_count ≠ TEXTURE_TYPE_UNKNOWN →
      (validate_arguments args source = some "The format field has an invalid value." ↔
        texture_format args.target_format source.channel_count = TEXTURE_FORMAT_UNKNOWN)) ∧
    (validate_arguments args source = some "The format field has an invalid value." →
      texture_format args.target_format source.channel_count = TEXTURE_FORMAT_UNKNOWN) ∧
    (is_null_or_empty args.target_format = true →
      (texture_format args.target_format source.channel_count ≠ TEXTURE_FORMAT_UNKNOWN ↔
        1 ≤ source.channel_count ∧ source.channel_count ≤ 4)) ∧
    (∀ s, args.target_format = some s → s ≠ "" →
      (texture_format args.target_format source.channel_count ≠ TEXTURE_FORMAT_UNKNOWN ↔
        s ∈ ["RGB565", "RGBA4444", "RGBA5551", "R8", "RG8", "RGB", "RGB8", "RGBA", "RGBA8",
          "R16F", "RG16F", "RGB16F", "RGBA16F", "R32F", "RG32F", "RGB32F", "RGBA32F"]) ∧
      ∀ n, texture_format args.target_format n =
        texture_format args.target_format source.channel_count) := by
  have key : validate_arguments args source = some "The format field has an invalid value." →
      texture_format args.target_format source.channel_count = TEXTURE_FORMAT_UNKNOWN := by
    intro h
    by_contra hcon
    have hcon' : ¬ TEXTURE_FORMAT_UNKNOWN =
        texture_format args.target_format source.channel_count := fun e => hcon e.symm
    simp only [validate_arguments, if_neg hcon'] at h
    split_ifs at h <;> revert h <;> decide
  refine ⟨fun ht => ⟨key, fun hf => ?_⟩, key, fun he => texture_format_default _ _ he,
    fun s hs hne => ?_⟩
  · have ht' : ¬ TEXTURE_TYPE_UNKNOWN = texture_type args.texture_type source.channel_count :=
      fun e => ht e.symm
    simp only [validate_arguments, if_neg ht', hf, if_true]
  · rw [hs]
    exact ⟨texture_format_known s _ hne, fun n => texture_format_named s _ _ hne⟩

/-- C24 (counterexample): `RGB565` is accepted for a 2-channel image; the
packer for that format then returns `NULL`. -/
theorem validate_arguments_counterexample :
    validate_arguments { sample_args with target_format := some "RGB565" } (sample_planes 2) =
      none ∧
    (sample_planes 2).channel_count = 2 ∧
    texture_format (some "RGB565") 2 = TEXTURE_FORMAT_565_I ∧
    buffer_to_pixels_16i_565 exact_rounding packing_heap 0 (sample_planes 2) = .ok none := by
  refine ⟨by decide, rfl, by decide, rfl⟩

/-! ## The identity compile -/

/-- C25: for a valid source image and a successful allocation, `build_level0`
with the dimensions of the source returns a buffer equal to the source (same
width, height, channel count and samples); and `compile_texture` with target
0 x 0 and `build_mipmaps`, `force_pow2`, `premultiply_a`, `flip_y` all false
returns `true` with exactly one level, equal to the input image, the channel
count of the input and the input image left as it was. -/
theorem compile_texture_identity {α : Type} (ops : sample_ops α) (heap : heap_t α)
    (n fuel : Nat) (inputs : texture_compiler_inputs_t α)
    (outputs : texture_compiler_outputs_t α)
    (hvalid : inputs.input_image.valid)
    (hmip : inputs.build_mipmaps = false)
    (hpow2 : inputs.force_pow2 = false)
    (hpre : inputs.premultiply_a = false)
    (hflip : inputs.flip_y = false)
    (htw : inputs.target_width = 0)
    (hth : inputs.target_height = 0)
    (hheap : heap.succeeds n = true) :
    build_level0 ops heap n inputs.input_image inputs.input_image.channel_width
        inputs.input_image.channel_height inputs.border_mode =
      .ok (true, some inputs.input_image, n + 1) ∧
    ∃ inputs' outputs',
      compile_texture ops heap n fuel inputs outputs = .ok (true, inputs', outputs', n + 1) ∧
      inputs'.input_image = inputs.input_image ∧
      outputs'.error_message = "" ∧ outputs'.level_count = 1 ∧
      outputs'.channel_count = inputs.input_image.channel_count ∧
      outputs'.level_data 0 = some inputs.input_image := by
  have hl0 := build_level0_copy ops heap n inputs.input_image inputs.border_mode hvalid hheap
  refine ⟨hl0, ?_⟩
  have hflag : (if inputs.build_mipmaps then true else inputs.force_pow2) = false := by
    rw [hmip, hpow2]; rfl
  have hkw := sanitize_dim_keep fuel false inputs.target_width
    inputs.input_image.channel_width (Or.inl htw) (fun hf => by cases hf)
  have hkh := sanitize_dim_keep fuel false inputs.target_height
    inputs.input_image.channel_height (Or.inl hth) (fun hf => by cases hf)
  have hsan := (sanitize_unfold fuel inputs _).2
    ⟨_, _, by rw [hflag]; exact hkw, by rw [hflag]; exact hkh, rfl⟩
  simp only [hmip, hpow2, if_false, Bool.false_eq_true] at hsan
  have hrun : compile_texture ops heap n fuel inputs outputs =
      .ok (true,
        { inputs with
          force_pow2 := false
          target_width := inputs.input_image.channel_width
          target_height := inputs.input_image.channel_height
          maximum_levels := 1 },
        { error_message := ""
          channel_count := inputs.input_image.channel_count
          level_count := 1
          level_data := Function.update (texture_compiler_outputs_init outputs).level_data 0
            (some inputs.input_image) },
        n + 1) := by
    unfold compile_texture
    simp only [hsan]
    simp only [hl0, bind, Except.bind, hflip, hpre, build_mipmaps, pure, Except.pure,
      if_false, Bool.false_eq_true, gt_iff_lt, lt_self_iff_false, Bool.false_and]
    simp only [hmip]
  exact ⟨_, _, hrun, rfl, rfl, rfl, rfl, by simp only [Function.update_same]⟩

/-- C25 (witness): the 2 x 2 sample image with four planes. -/
theorem compile_texture_identity_witness :
    build_level0 sample_ops_nat sample_heap 0 sample_rgba sample_rgba.channel_width
        sample_rgba.channel_height 2 = .ok (true, some sample_rgba, 0 + 1) ∧
    ∃ inputs' outputs',
      compile_texture sample_ops_nat sample_heap 0 64 (sample_inputs sample_rgba false false)
        sample_outputs = .ok (true, inputs', outputs', 0 + 1) ∧
      inputs'.input_image = sample_rgba ∧
      outputs'.error_message = "" ∧ outputs'.level_count = 1 ∧
      outputs'.channel_count = sample_rgba.channel_count ∧
      outputs'.level_data 0 = some sample_rgba :=
  compile_texture_identity sample_ops_nat sample_heap 0 64
    (sample_inputs sample_rgba false false) sample_outputs
    (by
      refine ⟨by decide, by decide, by decide, ?_, by decide⟩
      intro p hp
      simp only [sample_inputs, sample_rgba, List.mem_cons, List.mem_singleton,
        List.not_mem_nil, or_false] at hp
      rcases hp with h | h | h | h <;> subst h <;> rfl)
    rfl rfl rfl rfl rfl rfl rfl

namespace image

/-! ## Vertical flip -/

/-- Cells of different rows have different indices. -/
theorem row_lt (w r s c c' : Nat) (hrs : r < s) (hc : c < w) : r * w + c < s * w + c' := by
  have h1 : (r + 1) * w ≤ s * w := Nat.mul_le_mul_right w hrs
  rw [Nat.add_mul, Nat.one_mul] at h1
  omega

/-- The exchange of two samples inside a plane. -/
theorem swap_samples_spec {α : Type} (values : List α) (i j : Nat)
    (hi : i < values.length) (hj : j < values.length) :
    ∃ out, swap_samples values i j = .ok out ∧ out.length = values.length ∧
      ∀ k, out[k]? = if k = j then values[i]? else if k = i then values[j]? else values[k]? := by
  refine ⟨(values.set i values[j]).set j values[i], ?_, by simp, ?_⟩
  · simp only [swap_samples, List.getElem?_eq_getElem hi, List.getElem?_eq_getElem hj]
  · intro k
    rw [List.getElem?_set, List.getElem?_set]
    by_cases hkj : k = j
    · subst hkj
      simp [hi, hj]
    · by_cases hki : k = i
      · subst hki
        simp [hkj, Ne.symm hkj, hi, hj]
      · simp [hkj, hki, Ne.symm hkj, Ne.symm hki]

/-- The inner loop of `flip_channel` on the rows starting at `base1` and
`base2`: after `X` rounds the first `X` samples of the two rows are exchanged
and nothing else has changed. -/
theorem flip_row {α : Type} (w base1 base2 : Nat) (plane0 : List α)
    (hsep : base1 + w ≤ base2) (hlen : base2 + w ≤ plane0.length) :
    ∀ X, X ≤ w → ∃ out,
      (List.range X).foldlM (fun values x => swap_samples values (base1 + x) (base2 + x))
        plane0 = .ok out ∧
      out.length = plane0.length ∧
      (∀ c, c < X → out[base1 + c]? = plane0[base2 + c]? ∧
        out[base2 + c]? = plane0[base1 + c]?) ∧
      (∀ k, (∀ c, c < X → k ≠ base1 + c ∧ k ≠ base2 + c) → out[k]? = plane0[k]?) := by
  intro X
  induction X with
  | zero =>
    intro _
    exact ⟨plane0, rfl, rfl, fun c hc => absurd hc (Nat.not_lt_zero c), fun k _ => rfl⟩
  | succ X ih =>
    intro hX
    obtain ⟨out, hrun, hl, hsw, hrest⟩ := ih (by omega)
    obtain ⟨out', hrun', hl', hget⟩ := swap_samples_spec out (base1 + X) (base2 + X)
      (by omega) (by omega)
    refine ⟨out', ?_, by omega, ?_, ?_⟩
    · rw [List.range_succ, List.foldlM_append, hrun]
      simp only [bind, Except.bind, List.foldlM_cons, List.foldlM_nil, hrun']
      rfl
    · intro c hc
      rw [hget, hget]
      by_cases hcX : c = X
      · subst hcX
        have e1 : ¬ base1 + c = base2 + c := by omega
        simp only [e1, if_false, if_true]
        exact ⟨hrest _ (fun c' hc' => ⟨by omega, by omega⟩),
          hrest _ (fun c' hc' => ⟨by omega, by omega⟩)⟩
      · have e1 : ¬ base1 + c = base2 + X := by omega
        have e2 : ¬ base1 + c = base1 + X := by omega
        have e3 : ¬ base2 + c = base2 + X := by omega
        have e4 : ¬ base2 + c = base1 + X := by omega
        simp only [e1, e2, e3, e4, if_false]
        exact hsw c (by omega)
    · intro k hk
      rw [hget]
      have e1 : ¬ k = base2 + X := (hk X (by omega)).2
      have e2 : ¬ k = base1 + X := (hk X (by omega)).1
      simp only [e1, e2, if_false]
      exact hrest k (fun c hc => hk c (by omega))

/-- The outer loop of `flip_channel`: after `Y` rounds the first and the last
`Y` rows are exchanged, row `r` with row `h - 1 - r`. -/
theorem flip_rows {α : Type} (w h : Nat) (plane : List α) (hlen : w * h ≤ plane.length) :
    ∀ Y, Y ≤ h / 2 → ∃ out,
      (List.range Y).foldlM (fun values y =>
        (List.range w).foldlM (fun values x =>
          swap_samples values (y * w + x) ((h - 1 - y) * w + x)) values) plane = .ok out ∧
      out.length = plane.length ∧
      (∀ r c, r < h → c < w → out[r * w + c]? =
        if r < Y ∨ h - 1 - r < Y then plane[(h - 1 - r) * w + c]? else plane[r * w + c]?) ∧
      (∀ k, w * h ≤ k → out[k]? = plane[k]?) := by
  intro Y
  induction Y with
  | zero =>
    intro _
    refine ⟨plane, rfl, rfl, fun r c _ _ => ?_, fun k _ => rfl⟩
    simp
  | succ Y ih =>
    intro hY
    obtain ⟨out, hrun, hl, hcells, hrest⟩ := ih (by omega)
    have hYh : Y < h - 1 - Y := by omega
    have hsep : Y * w + w ≤ (h - 1 - Y) * w := by
      have := Nat.mul_le_mul_right w (show Y + 1 ≤ h - 1 - Y by omega)
      rw [Nat.add_mul, Nat.one_mul] at this
      exact this
    have hend : (h - 1 - Y) * w + w ≤ w * h := by
      have := Nat.mul_le_mul_right w (show (h - 1 - Y) + 1 ≤ h by omega)
      rw [Nat.add_mul, Nat.one_mul, Nat.mul_comm h w] at this
      exact this
    obtain ⟨out', hrun', hl', hsw, hkeep⟩ := flip_row w (Y * w) ((h - 1 - Y) * w) out hsep
      (by omega) w le_rfl
    refine ⟨out', ?_, by omega, ?_, ?_⟩
    · rw [List.range_succ, List.foldlM_append, hrun]
      simp only [bind, Except.bind, List.foldlM_cons, List.foldlM_nil, hrun']
      rfl
    · intro r c hr hc
      by_cases hrY : r = Y
      · subst hrY
        rw [(hsw c hc).1, hcells (h - 1 - r) c (by omega) hc]
        have e1 : ¬ (h - 1 - r < r ∨ h - 1 - (h - 1 - r) < r) := by omega
        have e2 : r < r + 1 ∨ h - 1 - r < r + 1 := by omega
        rw [if_neg e1, if_pos e2]
      · by_cases hrY' : r = h - 1 - Y
        · subst hrY'
          rw [(hsw c hc).2, hcells Y c (by omega) hc]
          have e1 : ¬ (Y < Y ∨ h - 1 - Y < Y) := by omega
          have e2 : h - 1 - Y < Y + 1 ∨ h - 1 - (h - 1 - Y) < Y + 1 := by omega
          have e3 : h - 1 - (h - 1 - Y) = Y := by omega
          rw [if_neg e1, if_pos e2, e3]
        · have hne : ∀ c', c' < w → r * w + c ≠ Y * w + c' ∧ r * w + c ≠ (h - 1 - Y) * w + c' := by
            intro c' hc'
            constructor
            · rcases Nat.lt_or_gt_of_ne hrY with hlt | hgt
              · have := row_lt w r Y c c' hlt hc; omega
              · have := row_lt w Y r c' c hgt hc'; omega
            · rcases Nat.lt_or_gt_of_ne hrY' with hlt | hgt
              · have := row_lt w r (h - 1 - Y) c c' hlt hc; omega
              · have := row_lt w (h - 1 - Y) r c' c hgt hc'; omega
          rw [hkeep _ hne, hcells r c hr hc]
          by_cases hcond : r < Y ∨ h - 1 - r < Y
          · rw [if_pos hcond, if_pos (by omega)]
          · rw [if_neg hcond, if_neg (by omega)]
    · intro k hk
      rw [hkeep k (fun c' hc' => ⟨by omega, by omega⟩), hrest k hk]

/-- The function `flip_channel` on a plane of at least `w * h` samples: the
sample of row `r`, column `c` becomes that of row `h - 1 - r`, column `c`;
anything after the `w * h` samples is left alone. -/
theorem flip_channel_spec {α : Type} (w h : Nat) (plane : List α)
    (hlen : w * h ≤ plane.length) :
    ∃ out, flip_channel plane w h = .ok out ∧ out.length = plane.length ∧
      (∀ r c, r < h → c < w → out[r * w + c]? = plane[(h - 1 - r) * w + c]?) ∧
      (∀ k, w * h ≤ k → out[k]? = plane[k]?) := by
  obtain ⟨out, hrun, hl, hcells, hrest⟩ := flip_rows w h plane hlen (h / 2) le_rfl
  refine ⟨out, ?_, hl, ?_, hrest⟩
  · simp only [flip_channel, Nat.shiftRight_eq_div_pow, pow_one]
    exact hrun
  · intro r c hr hc
    rw [hcells r c hr hc]
    by_cases hcond : r < h / 2 ∨ h - 1 - r < h / 2
    · rw [if_pos hcond]
    · rw [if_neg hcond]
      have : h - 1 - r = r := by omega
      rw [this]

/-- Flipping a plane of `w * h` samples twice gives the plane back. -/
theorem flip_channel_twice {α : Type} (w h : Nat) (plane out : List α)
    (hlen : w * h ≤ plane.length) (hrun : flip_channel plane w h = .ok out) :
    flip_channel out w h = .ok plane := by
  obtain ⟨out1, hrun1, hl1, hcells1, hrest1⟩ := flip_channel_spec w h plane hlen
  have e : out = out1 := by
    rw [hrun] at hrun1
    exact Except.ok.inj hrun1
  subst e
  obtain ⟨out2, hrun2, hl2, hcells2, hrest2⟩ := flip_channel_spec w h out (by omega)
  rw [hrun2]
  congr 1
  apply List.ext_getElem?
  intro k
  by_cases hk : w * h ≤ k
  · rw [hrest2 k hk, hrest1 k hk]
  · have hk' : k < w * h := by omega
    have hw : 0 < w := by
      rcases Nat.eq_zero_or_pos w with h0 | h0
      · rw [h0, Nat.zero_mul] at hk'; omega
      · exact h0
    obtain ⟨r, c, hr, hc, hkrc⟩ : ∃ r c, r < h ∧ c < w ∧ k = r * w + c :=
      ⟨k / w, k % w, Nat.div_lt_of_lt_mul hk', Nat.mod_lt _ hw, by
        rw [Nat.mul_comm]; exact (Nat.div_add_mod k w).symm⟩
    subst hkrc
    rw [hcells2 _ _ hr hc, hcells1 _ _ (by omega) hc]
    have : h - 1 - (h - 1 - r) = r := by omega
    rw [this]

/-- The loop of `image::flip` over the planes: after `k` rounds the first `k`
planes are flipped. -/
theorem flip_steps {α : Type} (b : buffer_t α) (G : List α → List α)
    (hG : ∀ p ∈ b.channels, flip_channel p b.channel_width b.channel_height = .ok (G p)) :
    ∀ k, k ≤ b.channels.length →
      (List.range k).foldlM (fun buffer i =>
        buffer.modify_plane i fun plane =>
          flip_channel plane buffer.channel_width buffer.channel_height) b =
      .ok { b with channels := (b.channels.take k).map G ++ b.channels.drop k } := by
  intro k
  induction k with
  | zero => intro _; simp [pure, Except.pure]
  | succ k ih =>
    intro hk
    have hk' : k < b.channels.length := hk
    rw [List.range_succ, List.foldlM_append, ih (by omega)]
    have hget : ((b.channels.take k).map G ++ b.channels.drop k)[k]? = some b.channels[k] := by
      rw [List.getElem?_append_right (by simp)]
      simp [List.length_take, Nat.min_eq_left (le_of_lt hk'), List.getElem?_eq_getElem hk']
    simp only [List.foldlM_cons, List.foldlM_nil, bind, Except.bind, pure, Except.pure,
      buffer_t.modify_plane, hget, hG _ (List.getElem_mem hk')]
    simp only [Except.ok.injEq, buffer_t.mk.injEq, and_true]
    apply List.ext_getElem?
    intro j
    rcases Nat.lt_trichotomy j k with hj | hj | hj
    · rw [List.getElem?_set_ne (by omega), List.getElem?_append_left (by simp; omega),
        List.getElem?_append_left (by simp; omega)]
      simp [List.getElem?_take, hj, Nat.lt_succ_of_lt hj]
    · subst hj
      rw [List.getElem?_set_self (by simp; omega), List.getElem?_append_left (by simp; omega)]
      simp [List.getElem?_take, List.getElem?_eq_getElem hk']
    · rw [List.getElem?_set_ne (by omega), List.getElem?_append_right (by simp; omega),
        List.getElem?_append_right (by simp; omega)]
      simp [List.length_take, Nat.min_eq_left (le_of_lt hk'), Nat.min_eq_left hk]
      congr 1
      omega

/-- On planes holding at least `w * h` samples `flip_channel` is a function
that is its own inverse. -/
theorem flip_channel_total {α : Type} (w h : Nat) :
    ∃ G : List α → List α, ∀ p : List α, w * h ≤ p.length →
      flip_channel p w h = .ok (G p) ∧ flip_channel (G p) w h = .ok p ∧
      (∀ r c, r < h → c < w → (G p)[r * w + c]? = p[(h - 1 - r) * w + c]?) := by
  refine ⟨fun p => match flip_channel p w h with
    | .ok out => out
    | .error _ => p, ?_⟩
  intro p hp
  obtain ⟨out, hrun, _, hcells, _⟩ := flip_channel_spec w h p hp
  have h2 := flip_channel_twice w h p out hp hrun
  simp only [hrun]
  exact ⟨trivial, h2, hcells⟩

/-- C26: for a valid buffer of width `w` and height `h`, `image::flip` returns
a buffer of the same dimensions and channel count in which every channel has
`new[y * w + x] = old[(h - 1 - y) * w + x]` for all `y < h`, `x < w`, and
flipping that buffer gives the original buffer back. -/
theorem flip_spec {α : Type} (b : buffer_t α) (hv : b.valid) :
    ∃ b', flip b = .ok b' ∧
      b'.channel_count = b.channel_count ∧ b'.channel_width = b.channel_width ∧
      b'.channel_height = b.channel_height ∧
      (∀ c y x, c < b.channel_count → y < b.channel_height → x < b.channel_width →
        b'.sample c (y * b.channel_width + x) =
          b.sample c ((b.channel_height - 1 - y) * b.channel_width + x)) ∧
      flip b' = .ok b := by
  obtain ⟨_, _, hcount, hplanes, _⟩ := hv
  obtain ⟨G, hG⟩ := flip_channel_total (α := α) b.channel_width b.channel_height
  have hG1 : ∀ p ∈ b.channels, flip_channel p b.channel_width b.channel_height = .ok (G p) :=
    fun p hp => (hG p (by rw [hplanes p hp])).1
  have hG2 : ∀ p ∈ b.channels.map G,
      flip_channel p b.channel_width b.channel_height = .ok (G p) := by
    intro p hp
    obtain ⟨q, hq, rfl⟩ := List.mem_map.mp hp
    have h1 := (hG q (by rw [hplanes q hq])).2.1
    have h2 := hG1 q hq
    obtain ⟨out, hrun, hl, _⟩ := flip_channel_spec b.channel_width b.channel_height q
      (by rw [hplanes q hq])
    have e : G q = out := by
      rw [hrun] at h2
      exact (Except.ok.inj h2).symm
    exact (hG (G q) (by rw [e, hl, hplanes q hq])).1
  have hback : ∀ p ∈ b.channels, G (G p) = p := by
    intro p hp
    have h1 := (hG p (by rw [hplanes p hp])).2.1
    have h2 := hG2 (G p) (List.mem_map.mpr ⟨p, hp, rfl⟩)
    rw [h1] at h2
    exact (Except.ok.inj h2).symm
  have hrun : flip b = .ok { b with channels := b.channels.map G } := by
    have h0 := flip_steps b G hG1 b.channels.length le_rfl
    have e : flip b = (List.range b.channels.length).foldlM (fun buffer i =>
        buffer.modify_plane i fun plane =>
          flip_channel plane buffer.channel_width buffer.channel_height) b := by
      unfold flip
      rw [hcount]
    rw [e, h0]
    simp
  refine ⟨_, hrun, rfl, rfl, rfl, ?_, ?_⟩
  · intro c y x hc hy hx
    have hc' : c < b.channels.length := by omega
    simp only [buffer_t.sample, List.getElem?_map, List.getElem?_eq_getElem hc',
      Option.map_some', Option.some_bind]
    exact (hG b.channels[c] (by rw [hplanes _ (List.getElem_mem hc')])).2.2 y x hy hx
  · have h2 := flip_steps { b with channels := b.channels.map G } G hG2
      (b.channels.map G).length le_rfl
    have hlen : (b.channels.map G).length = b.channel_count := by simp [hcount]
    have e : flip { b with channels := b.channels.map G } =
        (List.range (b.channels.map G).length).foldlM (fun buffer i =>
          buffer.modify_plane i fun plane =>
            flip_channel plane buffer.channel_width buffer.channel_height)
          { b with channels := b.channels.map G } := by
      unfold flip
      rw [hlen]
    rw [e, h2]
    simp only [List.take_length, List.drop_length, List.append_nil, List.map_map]
    have : b.channels.map (G ∘ G) = b.channels.map id := by
      apply List.map_congr_left
      intro p hp
      exact hback p hp
    rw [this, List.map_id]

/-- The statement of `flip_spec` on the 2 x 2 image `sample_rgba`. -/
theorem flip_spec_witness :
    ∃ b', flip sample_rgba = .ok b' ∧
      b'.channel_count = 4 ∧ b'.channel_width = 2 ∧ b'.channel_height = 2 ∧
      (∀ c y x, c < 4 → y < 2 → x < 2 →
        b'.sample c (y * 2 + x) = sample_rgba.sample c ((2 - 1 - y) * 2 + x)) ∧
      flip b' = .ok sample_rgba :=
  flip_spec sample_rgba (by
    refine ⟨by decide, by decide, by decide, by decide, by decide⟩)

end image

namespace image

/-! ## Polyphase kernel set-up -/

/-- The conversion `(size_t)` of an integral value in range is that value. -/
theorem float_to_size_t_int (out_of_range : Int → Nat) (z : Int) (h0 : 0 ≤ z)
    (h1 : z < 2 ^ 64) : float_to_size_t out_of_range (z : ℚ) = z.toNat := by
  have e : float_trunc (z : ℚ) = z := by
    simp only [float_trunc]
    split_ifs <;> simp
  simp only [float_to_size_t, e]
  rw [if_pos ⟨h0, h1⟩]

/-- What `polyphase_1d_init` computes in exact arithmetic. -/
theorem polyphase_1d_init_exact (out_of_range : Int → Nat) (source target samples : Nat)
    (fw : ℚ) (hs : 1 ≤ source) (ht : 1 ≤ target) (hn : 0 < samples) :
    polyphase_1d_init exact_rounding out_of_range source target samples fw =
      .ok (size_t_wrap (size_t_wrap (target * size_t_wrap (float_to_size_t out_of_range
            ((⌈2 * (fw * ((source : ℚ) / target))⌉ : Int) : ℚ) + 1)) * 4),
        { window_size := size_t_wrap (float_to_size_t out_of_range
            ((⌈2 * (fw * ((source : ℚ) / target))⌉ : Int) : ℚ) + 1)
          column_count := target
          sample_count := if source < target then 1 else samples
          scale_value := if source < target then 1 else (target : ℚ) / source
          scale_inverse := (source : ℚ) / target
          filter_width := fw * ((source : ℚ) / target)
          filter_weights := none }) := by
  have hs' : (source : ℚ) ≠ 0 := by
    have : (0 : ℚ) < source := by exact_mod_cast hs
    exact ne_of_gt this
  have ht' : (target : ℚ) ≠ 0 := by
    have : (0 : ℚ) < target := by exact_mod_cast ht
    exact ne_of_gt this
  have hq : (target : ℚ) / source ≠ 0 := div_ne_zero ht' hs'
  have hinv : (1 : ℚ) / ((target : ℚ) / source) = (source : ℚ) / target := by
    field_simp
  have hup : ((target : ℚ) / source > 1) ↔ source < target := by
    have hpos : (0 : ℚ) < source := by exact_mod_cast hs
    rw [gt_iff_lt, lt_div_iff₀ hpos, one_mul]
    exact_mod_cast Iff.rfl
  unfold polyphase_1d_init
  rw [if_pos ⟨hs, ht, hn⟩]
  simp only [float_div, exact_rounding, id, hs', hq, if_false, bind, Except.bind, pure,
    Except.pure, hinv, hup]
  by_cases h : source < target <;> simp [h]

/-- C22 (amended): for source and target dimensions of at least 1 and a sample
count above 0, `polyphase_1d_init` in exact arithmetic sets `column_count` to
the target dimension, the scale to 1 and the sample count to 1 when
`target > source` and to `target / source` and the given count otherwise; the
inverse scale is `source / target` in both cases, the filter width is
`fw * source / target`, and whenever `ceil(2 * fw * source / target)` is a
`size_t` value below `2 ^ 64 - 1` the window is that value plus 1, which is
`ceil(2 * fw / scale) + 1` for the stored scale when `target <= source`; the
byte count is `column_count * window_size * 4` whenever that is below
`2 ^ 64`. -/
theorem polyphase_1d_init_spec (out_of_range : Int → Nat) (source target samples : Nat)
    (fw : ℚ) (hs : 1 ≤ source) (ht : 1 ≤ target) (hn : 0 < samples) :
    ∃ bytes kernel,
      polyphase_1d_init exact_rounding out_of_range source target samples fw =
        .ok (bytes, kernel) ∧
      kernel.column_count = target ∧ kernel.filter_weights = none ∧
      kernel.scale_inverse = (source : ℚ) / target ∧
      kernel.filter_width = fw * source / target ∧
      (source < target → kernel.scale_value = 1 ∧ kernel.sample_count = 1) ∧
      (target ≤ source →
        kernel.scale_value = (target : ℚ) / source ∧ kernel.sample_count = samples) ∧
      (0 ≤ ⌈2 * fw * source / target⌉ → ⌈2 * fw * source / target⌉ + 1 < 2 ^ 64 →
        (kernel.window_size : Int) = ⌈2 * fw * source / target⌉ + 1 ∧
        (target ≤ source → (kernel.window_size : Int) = ⌈2 * fw / kernel.scale_value⌉ + 1)) ∧
      (target * kernel.window_size * 4 < 2 ^ 64 → bytes = target * kernel.window_size * 4) := by
  have e : 2 * (fw * ((source : ℚ) / target)) = 2 * fw * source / target := by ring
  refine ⟨_, _, polyphase_1d_init_exact out_of_range source target samples fw hs ht hn,
    rfl, rfl, rfl, by simp only []; ring, ?_, ?_, ?_, ?_⟩
  · intro h
    simp only [if_pos h, and_self]
  · intro h
    have h' : ¬ source < target := by omega
    simp only [if_neg h', and_self]
  · intro h0 h1
    simp only [e]
    have hw : (size_t_wrap (float_to_size_t out_of_range
        ((⌈2 * fw * source / target⌉ : Int) : ℚ) + 1) : Int) =
        ⌈2 * fw * source / target⌉ + 1 := by
      rw [float_to_size_t_int out_of_range _ h0 (by omega)]
      simp only [size_t_wrap, SIZE_T_MOD]
      omega
    refine ⟨hw, fun h => ?_⟩
    have h' : ¬ source < target := by omega
    rw [hw, if_neg h']
    have hs' : (source : ℚ) ≠ 0 := by
      have : (0 : ℚ) < source := by exact_mod_cast hs
      exact ne_of_gt this
    have ht' : (target : ℚ) ≠ 0 := by
      have : (0 : ℚ) < target := by exact_mod_cast ht
      exact ne_of_gt this
    have : 2 * fw / ((target : ℚ) / source) = 2 * fw * source / target := by
      field_simp
    rw [this]
  · intro h
    simp only [] at h ⊢
    have h2 : target * size_t_wrap (float_to_size_t out_of_range
        ((⌈2 * (fw * ((source : ℚ) / target))⌉ : Int) : ℚ) + 1) < 2 ^ 64 := by omega
    simp only [size_t_wrap, SIZE_T_MOD] at h h2 ⊢
    rw [Nat.mod_eq_of_lt h2, Nat.mod_eq_of_lt h]

/-- C22 (witness): halving 4 samples to 2 with filter width 1: scale 1/2,
inverse 2, window `ceil(2 * 1 * 4 / 2) + 1 = 5`. -/
theorem polyphase_1d_init_spec_witness :
    ∃ bytes kernel,
      polyphase_1d_init exact_rounding sample_out_of_range 4 2 32 1 = .ok (bytes, kernel) ∧
      kernel.column_count = 2 ∧ kernel.filter_weights = none ∧
      kernel.scale_inverse = ((4 : Nat) : ℚ) / (2 : Nat) ∧
      kernel.filter_width = 1 * (4 : Nat) / (2 : Nat) ∧
      ((4 : Nat) < 2 → kernel.scale_value = 1 ∧ kernel.sample_count = 1) ∧
      (2 ≤ 4 →
        kernel.scale_value = ((2 : Nat) : ℚ) / (4 : Nat) ∧ kernel.sample_count = 32) ∧
      (0 ≤ ⌈2 * (1 : ℚ) * (4 : Nat) / (2 : Nat)⌉ →
        ⌈2 * (1 : ℚ) * (4 : Nat) / (2 : Nat)⌉ + 1 < 2 ^ 64 →
        (kernel.window_size : Int) = ⌈2 * (1 : ℚ) * (4 : Nat) / (2 : Nat)⌉ + 1 ∧
        (2 ≤ 4 → (kernel.window_size : Int) = ⌈2 * (1 : ℚ) / kernel.scale_value⌉ + 1)) ∧
      (2 * kernel.window_size * 4 < 2 ^ 64 → bytes = 2 * kernel.window_size * 4) :=
  polyphase_1d_init_spec sample_out_of_range 4 2 32 1 (by decide) (by decide) (by decide)

/-- C22 (counterexample): doubling 1 sample to 2 with filter width 1. The
scale is set to 1, but the width was taken from the inverse scale 1/2 computed
before: the window is `ceil(2 * 1 * 1/2) + 1 = 2` and 16 bytes are asked for,
where `ceil(2 * 1 / 1) + 1 = 3` for the effective scale. -/
theorem polyphase_1d_init_counterexample :
    polyphase_1d_init exact_rounding sample_out_of_range 1 2 32 1 =
      .ok (16,
        { window_size := 2, column_count := 2, sample_count := 1, scale_value := 1,
          scale_inverse := 1 / 2, filter_width := 1 / 2, filter_weights := none }) ∧
    ⌈2 * (1 : ℚ) / 1⌉ + 1 = 3 := by
  have hc : ⌈2 * ((1 : ℚ) * (((1 : Nat) : ℚ) / (2 : Nat)))⌉ = 1 := by
    norm_num
  have hw : float_to_size_t sample_out_of_range
      ((⌈2 * ((1 : ℚ) * (((1 : Nat) : ℚ) / (2 : Nat)))⌉ : Int) : ℚ) = 1 := by
    rw [hc, float_to_size_t_int _ 1 (by decide) (by decide)]
    rfl
  refine ⟨?_, by norm_num⟩
  rw [polyphase_1d_init_exact sample_out_of_range 1 2 32 1 (by decide) (by decide) (by decide),
    hw]
  norm_num [size_t_wrap]

end image

/-! ## Polyphase weights -/

/-- Loop invariants: a loop over `0 .. N - 1` whose every step keeps the
invariant `P` and returns, returns with `P N`. -/
theorem foldlM_range_invariant {σ : Type} (f : σ → Nat → Except fault σ) (N : Nat)
    (P : Nat → σ → Prop) (s0 : σ) (h0 : P 0 s0)
    (hstep : ∀ n s, n < N → P n s → ∃ s', f s n = .ok s' ∧ P (n + 1) s') :
    ∃ s', (List.range N).foldlM f s0 = .ok s' ∧ P N s' := by
  induction N with
  | zero => exact ⟨s0, rfl, h0⟩
  | succ N ih =>
    obtain ⟨s1, hrun, hP⟩ := ih fun n s hn hp => hstep n s (by omega) hp
    obtain ⟨s2, hrun2, hP2⟩ := hstep N s1 (by omega) hP
    refine ⟨s2, ?_, hP2⟩
    rw [List.range_succ, List.foldlM_append, hrun]
    simp only [bind, Except.bind, List.foldlM_cons, List.foldlM_nil, hrun2]
    rfl

namespace image

/-- One column of `compute_polyphase_matrix_1d` in exact arithmetic: when the
taps of column `i` are `taps 0 .. taps (window - 1)` and their sum is not
zero, the column is filled with `taps j / sum` and the rest of the array is
left as it was. -/
theorem compute_polyphase_column_exact (out_of_range : Int → Nat) (filter_kernel : ℚ → ℚ)
    (kernel : polyphase_kernel_1d_t) (weights : List ℚ) (i : Nat) (taps : Nat → ℚ)
    (hlen : i * kernel.window_size + kernel.window_size ≤ weights.length)
    (hsz : weights.length < 2 ^ 64)
    (htaps : ∀ j, j < kernel.window_size →
      polyphase_tap exact_rounding out_of_range filter_kernel kernel i j = .ok (taps j))
    (htotal : ∑ j in Finset.range kernel.window_size, taps j ≠ 0) :
    ∃ out, compute_polyphase_column exact_rounding out_of_range filter_kernel kernel weights i =
        .ok out ∧ out.length = weights.length ∧
      (∀ j, j < kernel.window_size → out[i * kernel.window_size + j]? =
        some (taps j / ∑ j in Finset.range kernel.window_size, taps j)) ∧
      (∀ m, m < i * kernel.window_size ∨ i * kernel.window_size + kernel.window_size ≤ m →
        out[m]? = weights[m]?) := by
  have hindex : ∀ j, j < kernel.window_size →
      size_t_wrap (size_t_wrap (i * kernel.window_size) + j) = i * kernel.window_size + j := by
    intro j hj
    simp only [size_t_wrap, SIZE_T_MOD]
    omega
  obtain ⟨⟨ws1, total⟩, hrun1, hl1, ht1, hin1, hout1⟩ := foldlM_range_invariant
    (fun (state : List ℚ × ℚ) j => do
      let (weights, total) := state
      let index := size_t_wrap (size_t_wrap (i * kernel.window_size) + j)
      let weight ← polyphase_tap exact_rounding out_of_range filter_kernel kernel i j
      if index < weights.length then
        pure (weights.set index weight, exact_rounding.to_float (total + weight))
      else .error .undefined_behaviour)
    kernel.window_size
    (fun n state => state.1.length = weights.length ∧
      state.2 = ∑ j in Finset.range n, taps j ∧
      (∀ j, j < n → state.1[i * kernel.window_size + j]? = some (taps j)) ∧
      (∀ m, m < i * kernel.window_size ∨ i * kernel.window_size + n ≤ m →
        state.1[m]? = weights[m]?))
    (weights, 0)
    ⟨rfl, by simp, fun j hj => by omega, fun m _ => rfl⟩
    (by
      rintro n ⟨ws, t⟩ hn ⟨hl, ht, hin, hout⟩
      simp only at hl ht hin hout
      have hlt : i * kernel.window_size + n < ws.length := by omega
      refine ⟨(ws.set (i * kernel.window_size + n) (taps n), t + taps n), ?_, ?_, ?_, ?_, ?_⟩
      · simp only [htaps n hn, hindex n hn, bind, Except.bind, if_pos hlt]
        rfl
      · simp only [List.length_set, hl]
      · simp only [ht, Finset.sum_range_succ]
      · intro j hj
        simp only [List.getElem?_set]
        by_cases e : j = n
        · subst e
          simp [hlt]
        · rw [if_neg (by omega)]
          exact hin j (by omega)
      · intro m hm
        simp only [List.getElem?_set]
        rw [if_neg (by omega)]
        exact hout m (by omega))
  simp only at hl1 ht1 hin1 hout1
  obtain ⟨ws2, hrun2, hl2, hin2, hrest2, hout2⟩ := foldlM_range_invariant
    (fun (weights : List ℚ) j =>
      let index := size_t_wrap (size_t_wrap (i * kernel.window_size) + j)
      match weights[index]? with
      | some weight => do
        let weight ← float_div exact_rounding weight total
        pure (weights.set index weight)
      | none => .error .undefined_behaviour)
    kernel.window_size
    (fun n ws => ws.length = weights.length ∧
      (∀ j, j < n → ws[i * kernel.window_size + j]? = some (taps j / total)) ∧
      (∀ j, n ≤ j → j < kernel.window_size →
        ws[i * kernel.window_size + j]? = some (taps j)) ∧
      (∀ m, m < i * kernel.window_size ∨ i * kernel.window_size + kernel.window_size ≤ m →
        ws[m]? = weights[m]?))
    ws1
    ⟨hl1, fun j hj => by omega, fun j _ hj => hin1 j hj, hout1⟩
    (by
      rintro n ws hn ⟨hl, hin, hrest, hout⟩
      have hlt : i * kernel.window_size + n < ws.length := by omega
      refine ⟨ws.set (i * kernel.window_size + n) (taps n / total), ?_, ?_, ?_, ?_, ?_⟩
      · simp only [hindex n hn, hrest n le_rfl hn, float_div, if_neg (ht1 ▸ htotal), bind,
          Except.bind, pure, Except.pure, exact_rounding, id]
      · simp only [List.length_set, hl]
      · intro j hj
        simp only [List.getElem?_set]
        by_cases e : j = n
        · subst e
          simp [hlt]
        · rw [if_neg (by omega)]
          exact hin j (by omega)
      · intro j hj hjw
        simp only [List.getElem?_set]
        rw [if_neg (by omega)]
        exact hrest j (by omega) hjw
      · intro m hm
        simp only [List.getElem?_set]
        rw [if_neg (by omega)]
        exact hout m hm)
  refine ⟨ws2, ?_, hl2, fun j hj => ?_, hout2⟩
  · unfold compute_polyphase_column
    simp only [bind, Except.bind] at hrun1 ⊢
    rw [hrun1]
    exact hrun2
  · rw [hin2 j hj, ht1]

/-- The whole matrix in exact arithmetic: when the taps of every column are
`taps i 0 .. taps i (window - 1)` and no column sums to zero,
`compute_polyphase_matrix_1d` returns, with `taps i j` divided by the sum of
column `i` at index `i * window + j`. -/
theorem compute_polyphase_matrix_1d_exact (out_of_range : Int → Nat) (filter_kernel : ℚ → ℚ)
    (kernel : polyphase_kernel_1d_t) (weights : List ℚ) (taps : Nat → Nat → ℚ)
    (hw : kernel.filter_weights = some weights)
    (hlen : kernel.column_count * kernel.window_size ≤ weights.length)
    (hsz : weights.length < 2 ^ 64)
    (htaps : ∀ i j, i < kernel.column_count → j < kernel.window_size →
      polyphase_tap exact_rounding out_of_range filter_kernel kernel i j = .ok (taps i j))
    (htotal : ∀ i, i < kernel.column_count →
      ∑ j in Finset.range kernel.window_size, taps i j ≠ 0) :
    ∃ out, compute_polyphase_matrix_1d exact_rounding out_of_range filter_kernel kernel =
        .ok { kernel with filter_weights := some out } ∧ out.length = weights.length ∧
      (∀ i j, i < kernel.column_count → j < kernel.window_size →
        out[i * kernel.window_size + j]? =
          some (taps i j / ∑ j in Finset.range kernel.window_size, taps i j)) ∧
      (∀ m, kernel.column_count * kernel.window_size ≤ m → out[m]? = weights[m]?) := by
  obtain ⟨out, hrun, hl, hin, hout⟩ := foldlM_range_invariant
    (compute_polyphase_column exact_rounding out_of_range filter_kernel kernel)
    kernel.column_count
    (fun c ws => ws.length = weights.length ∧
      (∀ i j, i < c → j < kernel.window_size →
        ws[i * kernel.window_size + j]? =
          some (taps i j / ∑ j in Finset.range kernel.window_size, taps i j)) ∧
      (∀ m, c * kernel.window_size ≤ m → ws[m]? = weights[m]?))
    weights
    ⟨rfl, fun i j hi => by omega, fun m _ => rfl⟩
    (by
      rintro c ws hc ⟨hl, hin, hout⟩
      have hrow : c * kernel.window_size + kernel.window_size ≤
          kernel.column_count * kernel.window_size := by
        have := Nat.mul_le_mul_right kernel.window_size (Nat.succ_le_of_lt hc)
        rw [Nat.succ_mul] at this
        exact this
      obtain ⟨ws', hrun', hl', hin', hout'⟩ := compute_polyphase_column_exact out_of_range
        filter_kernel kernel ws c (taps c) (by omega) (by omega)
        (fun j hj => htaps c j hc hj) (htotal c hc)
      refine ⟨ws', hrun', by omega, ?_, ?_⟩
      · intro i j hi hj
        by_cases e : i = c
        · subst e
          exact hin' j hj
        · have hlt : i < c := by omega
          have := row_lt kernel.window_size i c j 0 hlt hj
          rw [hout' _ (Or.inl (by omega))]
          exact hin i j hlt hj
      · intro m hm
        rw [Nat.succ_mul] at hm
        rw [hout' m (Or.inr hm)]
        exact hout m (by omega))
  refine ⟨out, ?_, hl, hin, hout⟩
  unfold compute_polyphase_matrix_1d
  simp only [hw, bind, Except.bind, hrun, pure, Except.pure]

/-- C21 (amended): in exact arithmetic, for a kernel whose weight array holds
`column_count * window_size` values or more and whose columns have the taps
`taps i j` with a non-zero sum in every column,
`compute_polyphase_matrix_1d` returns and the `window_size` weights stored at
the indices `i * window_size .. (i + 1) * window_size - 1` sum to exactly 1
for every column `i < column_count`. -/
theorem compute_polyphase_matrix_1d_columns_sum (out_of_range : Int → Nat)
    (filter_kernel : ℚ → ℚ) (kernel : polyphase_kernel_1d_t) (weights : List ℚ)
    (taps : Nat → Nat → ℚ)
    (hw : kernel.filter_weights = some weights)
    (hlen : kernel.column_count * kernel.window_size ≤ weights.length)
    (hsz : weights.length < 2 ^ 64)
    (htaps : ∀ i j, i < kernel.column_count → j < kernel.window_size →
      polyphase_tap exact_rounding out_of_range filter_kernel kernel i j = .ok (taps i j))
    (htotal : ∀ i, i < kernel.column_count →
      ∑ j in Finset.range kernel.window_size, taps i j ≠ 0) :
    ∃ out, compute_polyphase_matrix_1d exact_rounding out_of_range filter_kernel kernel =
        .ok { kernel with filter_weights := some out } ∧
      ∀ i, i < kernel.column_count →
        ∑ j in Finset.range kernel.window_size,
          (out[i * kernel.window_size + j]?).getD 0 = 1 := by
  obtain ⟨out, hrun, _, hin, _⟩ := compute_polyphase_matrix_1d_exact out_of_range
    filter_kernel kernel weights taps hw hlen hsz htaps htotal
  refine ⟨out, hrun, fun i hi => ?_⟩
  have e : ∀ j ∈ Finset.range kernel.window_size,
      (out[i * kernel.window_size + j]?).getD 0 =
        taps i j / ∑ j in Finset.range kernel.window_size, taps i j := by
    intro j hj
    rw [hin i j hi (Finset.mem_range.mp hj)]
    rfl
  rw [Finset.sum_congr rfl e, ← Finset.sum_div]
  exact div_self (htotal i hi)

end image

/-- A loop over `0 .. N - 1` whose first round stops the run. -/
theorem foldlM_range_first_error {σ : Type} (f : σ → Nat → Except fault σ) (N : Nat)
    (s0 : σ) (e : fault) (hN : 0 < N) (h0 : f s0 0 = .error e) :
    (List.range N).foldlM f s0 = .error e := by
  obtain ⟨n, rfl⟩ : ∃ n, N = n + 1 := ⟨N - 1, by omega⟩
  rw [List.range_succ_eq_map, List.foldlM_cons, h0]
  rfl

namespace image

/-- One column of `compute_polyphase_matrix_1d` in exact arithmetic, when the
taps of the column sum to zero: the first weight is divided by zero. -/
theorem compute_polyphase_column_zero_total (out_of_range : Int → Nat)
    (filter_kernel : ℚ → ℚ) (kernel : polyphase_kernel_1d_t) (weights : List ℚ) (i : Nat)
    (taps : Nat → ℚ)
    (hlen : i * kernel.window_size + kernel.window_size ≤ weights.length)
    (hsz : weights.length < 2 ^ 64) (hpos : 0 < kernel.window_size)
    (htaps : ∀ j, j < kernel.window_size →
      polyphase_tap exact_rounding out_of_range filter_kernel kernel i j = .ok (taps j))
    (htotal : ∑ j in Finset.range kernel.window_size, taps j = 0) :
    compute_polyphase_column exact_rounding out_of_range filter_kernel kernel weights i =
      .error .undefined_behaviour := by
  have hindex : ∀ j, j < kernel.window_size →
      size_t_wrap (size_t_wrap (i * kernel.window_size) + j) = i * kernel.window_size + j := by
    intro j hj
    simp only [size_t_wrap, SIZE_T_MOD]
    omega
  obtain ⟨⟨ws1, total⟩, hrun1, hl1, ht1, hin1⟩ := foldlM_range_invariant
    (fun (state : List ℚ × ℚ) j => do
      let (weights, total) := state
      let index := size_t_wrap (size_t_wrap (i * kernel.window_size) + j)
      let weight ← polyphase_tap exact_rounding out_of_range filter_kernel kernel i j
      if index < weights.length then
        pure (weights.set index weight, exact_rounding.to_float (total + weight))
      else .error .undefined_behaviour)
    kernel.window_size
    (fun n state => state.1.length = weights.length ∧
      state.2 = ∑ j in Finset.range n, taps j ∧
      (∀ j, j < n → state.1[i * kernel.window_size + j]? = some (taps j)))
    (weights, 0)
    ⟨rfl, by simp, fun j hj => by omega⟩
    (by
      rintro n ⟨ws, t⟩ hn ⟨hl, ht, hin⟩
      simp only at hl ht hin
      have hlt : i * kernel.window_size + n < ws.length := by omega
      refine ⟨(ws.set (i * kernel.window_size + n) (taps n), t + taps n), ?_, ?_, ?_, ?_⟩
      · simp only [htaps n hn, hindex n hn, bind, Except.bind, if_pos hlt]
        rfl
      · simp only [List.length_set, hl]
      · simp only [ht, Finset.sum_range_succ]
      · intro j hj
        simp only [List.getElem?_set]
        by_cases e : j = n
        · subst e
          simp [hlt]
        · rw [if_neg (by omega)]
          exact hin j (by omega))
  simp only at hl1 ht1 hin1
  unfold compute_polyphase_column
  simp only [bind, Except.bind] at hrun1 ⊢
  rw [hrun1]
  apply foldlM_range_first_error _ _ _ _ hpos
  simp only [hindex 0 hpos, hin1 0 hpos, float_div, ht1, htotal, if_true, bind, Except.bind]

/-- One box sample in exact arithmetic: the filter at `(x + 1/2) * scale`. -/
theorem sample_box_one (x scale : ℚ) (filter_kernel : ℚ → ℚ) :
    sample_box exact_rounding x scale 1 filter_kernel =
      .ok (filter_kernel ((x + 1 / 2) * scale)) := by
  have e : List.range 1 = [0] := rfl
  simp [sample_box, float_div, exact_rounding, bind, Except.bind, pure, Except.pure, e,
    List.singleton]

/-- Column 0 of the sample kernel: centre 1, and `left = (size_t) floor(-1)`
is whatever the conversion yields for -1. -/
theorem sample_kernel_left (out_of_range : Int → Nat) :
    polyphase_center exact_rounding sample_kernel 0 = 1 ∧
    polyphase_left exact_rounding out_of_range sample_kernel 0 =
      size_t_wrap (out_of_range (-1)) := by
  have hc : polyphase_center exact_rounding sample_kernel 0 = 1 := by
    simp only [polyphase_center, exact_rounding, id, sample_kernel]
    norm_num
  refine ⟨hc, ?_⟩
  simp only [polyphase_left, hc]
  have e : exact_rounding.to_float (1 - sample_kernel.filter_width) = -1 := by
    simp only [exact_rounding, id, sample_kernel]
    norm_num
  rw [e]
  have e2 : ((⌊(-1 : ℚ)⌋ : Int) : ℚ) = -1 := by norm_num
  rw [e2]
  have e3 : float_trunc (-1 : ℚ) = -1 := by
    unfold float_trunc
    rw [if_neg (by norm_num)]
    exact Int.ceil_eq_iff.mpr ⟨by norm_num, by norm_num⟩
  simp only [float_to_size_t, e3]
  rw [if_neg (by norm_num)]

/-- The tap `j` of column 0 of the sample kernel: the filter at
`(left + j - 1/2) / 2`, where `left + j` is the `size_t` sum. -/
theorem sample_kernel_tap (out_of_range : Int → Nat) (filter_kernel : ℚ → ℚ) (j : Nat) :
    polyphase_tap exact_rounding out_of_range filter_kernel sample_kernel 0 j =
      .ok (filter_kernel
        ((((size_t_wrap (size_t_wrap (out_of_range (-1)) + j) : Nat) : ℚ) - 1 / 2) * (1 / 2))) := by
  obtain ⟨hc, hl⟩ := sample_kernel_left out_of_range
  simp only [polyphase_tap, hc, hl]
  have e : sample_kernel.sample_count = 1 := rfl
  have e2 : sample_kernel.scale_value = 1 / 2 := rfl
  rw [e, e2, sample_box_one]
  simp only [exact_rounding, id]
  congr 2
  ring

/-- The taps of column 0 of the sample kernel under the triangle filter, for
a conversion that yields `2 ^ 64 - 1` for -1. -/
theorem sample_kernel_taps (j : Nat) (hj : j < 5) :
    polyphase_tap exact_rounding sample_out_of_range sample_filter sample_kernel 0 j =
      .ok (([0, 3 / 4, 3 / 4, 1 / 4, 0] : List ℚ).getD j 0) := by
  rw [sample_kernel_tap]
  have h : size_t_wrap (sample_out_of_range (-1)) = 2 ^ 64 - 1 := by decide
  rw [h]
  interval_cases j
  · have : size_t_wrap (2 ^ 64 - 1 + 0) = 2 ^ 64 - 1 := by decide
    rw [this]
    simp only [sample_filter, List.getD_cons_zero]
    norm_num
    rw [abs_of_nonneg (by norm_num)]
    norm_num
  · have : size_t_wrap (2 ^ 64 - 1 + 1) = 0 := by decide
    rw [this]
    simp only [sample_filter]
    norm_num [abs_of_neg, abs_of_nonneg]
  · have : size_t_wrap (2 ^ 64 - 1 + 2) = 1 := by decide
    rw [this]
    simp only [sample_filter]
    norm_num [abs_of_neg, abs_of_nonneg]
  · have : size_t_wrap (2 ^ 64 - 1 + 3) = 2 := by decide
    rw [this]
    simp only [sample_filter]
    norm_num [abs_of_neg, abs_of_nonneg]
  · have : size_t_wrap (2 ^ 64 - 1 + 4) = 3 := by decide
    rw [this]
    simp only [sample_filter]
    norm_num [abs_of_neg, abs_of_nonneg]

/-- C21 (witness): the kernel for halving 2 samples to 1 under the triangle
filter has the taps 0, 3/4, 3/4, 1/4, 0 in its one column. -/
theorem compute_polyphase_matrix_1d_columns_sum_witness :
    ∃ out, compute_polyphase_matrix_1d exact_rounding sample_out_of_range sample_filter
        sample_kernel = .ok { sample_kernel with filter_weights := some out } ∧
      ∀ i, i < sample_kernel.column_count →
        ∑ j in Finset.range sample_kernel.window_size,
          (out[i * sample_kernel.window_size + j]?).getD 0 = 1 :=
  compute_polyphase_matrix_1d_columns_sum sample_out_of_range sample_filter sample_kernel
    [0, 0, 0, 0, 0] (fun _ j => ([0, 3 / 4, 3 / 4, 1 / 4, 0] : List ℚ).getD j 0)
    rfl (by decide) (by decide)
    (fun i j hi hj => by
      have h0 : i = 0 := Nat.lt_one_iff.mp hi
      subst h0
      exact sample_kernel_taps j hj)
    (fun i _ => by
      show ∑ j in Finset.range 5, ([0, 3 / 4, 3 / 4, 1 / 4, 0] : List ℚ).getD j 0 ≠ 0
      simp only [Finset.sum_range_succ, Finset.sum_range_zero]
      norm_num)

/-- C21 (counterexample): the kernel that `polyphase_1d_init` sets up for
halving 2 samples to 1, filled with a filter that is zero everywhere: the
taps of the column add up to 0 and the normalisation divides 0 by 0. -/
theorem compute_polyphase_matrix_1d_counterexample :
    polyphase_1d_init exact_rounding sample_out_of_range 2 1 1 1 =
      .ok (20, { sample_kernel with filter_weights := none }) ∧
    compute_polyphase_matrix_1d exact_rounding sample_out_of_range (fun _ => 0)
      sample_kernel = .error .undefined_behaviour := by
  constructor
  · have hc : ⌈2 * ((1 : ℚ) * (((2 : Nat) : ℚ) / (1 : Nat)))⌉ = 4 := by
      norm_num
    have hw : float_to_size_t sample_out_of_range
        ((⌈2 * ((1 : ℚ) * (((2 : Nat) : ℚ) / (1 : Nat)))⌉ : Int) : ℚ) = 4 := by
      rw [hc, float_to_size_t_int _ 4 (by decide) (by decide)]
      rfl
    rw [polyphase_1d_init_exact sample_out_of_range 2 1 1 1 (by decide) (by decide)
      (by decide), hw]
    norm_num [size_t_wrap, sample_kernel]
  · have hcol := compute_polyphase_column_zero_total sample_out_of_range (fun _ => 0)
      sample_kernel [0, 0, 0, 0, 0] 0 (fun _ => 0) (by decide) (by decide) (by decide)
      (fun j _ => sample_kernel_tap sample_out_of_range (fun _ => 0) j) (by simp)
    have e : List.range 1 = [0] := rfl
    have hk : sample_kernel.filter_weights = some [0, 0, 0, 0, 0] := rfl
    have hn : sample_kernel.column_count = 1 := rfl
    unfold compute_polyphase_matrix_1d
    simp only [hk, hn, e, List.foldlM_cons, List.foldlM_nil, bind, Except.bind, hcol]

/-! ## The source position of a tap -/

/-- C40 (failing input): column 0 of the kernel for halving 2 samples to 1
has centre 1 and `floor(center - width) = -1`. The functions that apply the
kernel hold it in an `int32_t` and sample position -1 for tap 0, whose weight
by the claim is `sample_box(-1 + 0 - 1, ..) = 1/4` divided by the total 2.
`compute_polyphase_matrix_1d` holds it in a `size_t`: for every result of
converting -1 the tap is the filter at a point of at least -1/4, never at
-3/4, and for the conversion that yields `2 ^ 64 - 1` the stored weights are
0, 3/7, 3/7, 1/7, 0 and not 1/8, 3/8, 3/8, 1/8, 0. -/
theorem compute_polyphase_matrix_1d_unsigned_left :
    (∃ out, compute_polyphase_matrix_1d exact_rounding sample_out_of_range sample_filter
        sample_kernel = .ok { sample_kernel with filter_weights := some out } ∧
      out[0]? = some 0 ∧ out[1]? = some (3 / 7) ∧ out[2]? = some (3 / 7) ∧
      out[3]? = some (1 / 7) ∧ out[4]? = some 0) ∧
    apply_polyphase_left exact_rounding sample_kernel 0 = .ok (-1) ∧
    apply_polyphase_position exact_rounding sample_kernel 0 0 = .ok (-1) ∧
    polyphase_center exact_rounding sample_kernel 0 = 1 ∧
    sample_box exact_rounding (-1 + 0 - 1) (1 / 2) 1 sample_filter = .ok (1 / 4) ∧
    (∀ (out_of_range : Int → Nat) (filter_kernel : ℚ → ℚ), ∃ p : ℚ, -1 / 4 ≤ p ∧
      polyphase_tap exact_rounding out_of_range filter_kernel sample_kernel 0 0 =
        .ok (filter_kernel p) ∧
      sample_box exact_rounding (-1 + 0 - 1) (1 / 2) 1 filter_kernel =
        .ok (filter_kernel (-3 / 4))) := by
  have hc := (sample_kernel_left sample_out_of_range).1
  have hfloor : ((⌊exact_rounding.to_float
      (polyphase_center exact_rounding sample_kernel 0 - sample_kernel.filter_width)⌋ : Int) : ℚ) =
      -1 := by
    rw [hc]
    simp only [exact_rounding, id, sample_kernel]
    norm_num
  have htrunc : float_trunc (-1 : ℚ) = -1 := by
    unfold float_trunc
    rw [if_neg (by norm_num)]
    exact Int.ceil_eq_iff.mpr ⟨by norm_num, by norm_num⟩
  have hleft : apply_polyphase_left exact_rounding sample_kernel 0 = .ok (-1) := by
    simp only [apply_polyphase_left, hfloor, float_to_int32_t, htrunc]
    rw [if_pos (by norm_num)]
    rfl
  refine ⟨?_, hleft, ?_, hc, ?_, ?_⟩
  · obtain ⟨out, hrun, _, hin, _⟩ := compute_polyphase_matrix_1d_exact sample_out_of_range
      sample_filter sample_kernel [0, 0, 0, 0, 0]
      (fun _ j => ([0, 3 / 4, 3 / 4, 1 / 4, 0] : List ℚ).getD j 0)
      rfl (by decide) (by decide)
      (fun i j hi hj => by
        have h0 : i = 0 := Nat.lt_one_iff.mp hi
        subst h0
        exact sample_kernel_taps j hj)
      (fun i _ => by
        show ∑ j in Finset.range 5, ([0, 3 / 4, 3 / 4, 1 / 4, 0] : List ℚ).getD j 0 ≠ 0
        simp only [Finset.sum_range_succ, Finset.sum_range_zero]
        norm_num)
    have hsum : ∑ j in Finset.range sample_kernel.window_size,
        ([0, 3 / 4, 3 / 4, 1 / 4, 0] : List ℚ).getD j 0 = 7 / 4 := by
      show ∑ j in Finset.range 5, ([0, 3 / 4, 3 / 4, 1 / 4, 0] : List ℚ).getD j 0 = 7 / 4
      simp only [Finset.sum_range_succ, Finset.sum_range_zero]
      norm_num
    have h0 := hin 0 0 (by decide) (by decide)
    have h1 := hin 0 1 (by decide) (by decide)
    have h2 := hin 0 2 (by decide) (by decide)
    have h3 := hin 0 3 (by decide) (by decide)
    have h4 := hin 0 4 (by decide) (by decide)
    simp only [hsum] at h0 h1 h2 h3 h4
    refine ⟨out, hrun, ?_, ?_, ?_, ?_, ?_⟩
    · rw [show (0 : Nat) = 0 * sample_kernel.window_size + 0 from rfl, h0]
      norm_num
    · rw [show (1 : Nat) = 0 * sample_kernel.window_size + 1 from rfl, h1]
      norm_num
    · rw [show (2 : Nat) = 0 * sample_kernel.window_size + 2 from rfl, h2]
      norm_num
    · rw [show (3 : Nat) = 0 * sample_kernel.window_size + 3 from rfl, h3]
      norm_num
    · rw [show (4 : Nat) = 0 * sample_kernel.window_size + 4 from rfl, h4]
      norm_num
  · simp only [apply_polyphase_position, hleft, bind, Except.bind, pure, Except.pure]
    have e : to_ptrdiff_t (size_t_wrap (int_to_size_t (-1) + 0)) = -1 := by decide
    rw [e]
  · rw [sample_box_one]
    simp only [sample_filter]
    norm_num [abs_of_neg, abs_of_nonneg]
  · intro out_of_range filter_kernel
    refine ⟨(((size_t_wrap (size_t_wrap (out_of_range (-1)) + 0) : Nat) : ℚ) - 1 / 2) * (1 / 2),
      ?_, sample_kernel_tap out_of_range filter_kernel 0, ?_⟩
    · have : (0 : ℚ) ≤ ((size_t_wrap (size_t_wrap (out_of_range (-1)) + 0) : Nat) : ℚ) :=
        Nat.cast_nonneg _
      linarith
    · rw [sample_box_one]
      norm_num

end image

namespace image

/-! ## Pixel counts -/

/-- The loop of `pixel_count` adds up the pixels of `count` consecutive
levels, modulo `2 ^ 64`. -/
theorem pixel_count_loop_eq (w h s : Nat) :
    ∀ count i sum, sum < SIZE_T_MOD →
      pixel_count_loop w h s count i sum =
        (sum + ∑ k in Finset.range count,
          miplevel_width w (i + k) * miplevel_height h (i + k) * miplevel_slices s (i + k)) %
          SIZE_T_MOD := by
  intro count
  induction count with
  | zero =>
    intro i sum hs
    simp [pixel_count_loop, Nat.mod_eq_of_lt hs]
  | succ n ih =>
    intro i sum hs
    rw [pixel_count_loop, ih (i + 1) _ (size_t_wrap_lt _), Finset.sum_range_succ']
    have hre : ∀ k, i + 1 + k = i + (k + 1) := by intro k; omega
    simp only [hre, Nat.add_zero, size_t_wrap, SIZE_T_MOD]
    have e : (miplevel_width w i * miplevel_height h i % 2 ^ 64 * miplevel_slices s i) %
        2 ^ 64 = (miplevel_width w i * miplevel_height h i * miplevel_slices s i) %
        2 ^ 64 := by
      rw [Nat.mul_mod, Nat.mod_mod, ← Nat.mul_mod]
    omega

/-- What `pixel_count` returns: the pixels of the levels `level_index` to
`mipmap_count`, that last index included. -/
theorem pixel_count_eq (w h s i n : Nat) (hn : 1 ≤ n) (hn' : n < 2 ^ 64 - 1) :
    pixel_count w h s i n = some ((∑ k in Finset.range (n + 1 - i),
      miplevel_width w (i + k) * miplevel_height h (i + k) * miplevel_slices s (i + k)) %
        SIZE_T_MOD) := by
  have h0 : ¬ 0 = n := by omega
  have h1 : ¬ n = SIZE_T_MOD - 1 := by simp only [SIZE_T_MOD]; omega
  simp only [pixel_count, if_neg h0, if_neg h1]
  rw [pixel_count_loop_eq w h s _ i 0 (by norm_num)]
  simp

/-- C31 (failing input): with `mipmap_count = 1` the loop
`for (i = level_index; i <= mipmap_count; ++i)` runs for the levels 0 and 1:
a 4 x 4 x 1 image is counted as `16 + 4 = 20` pixels, not as the 16 pixels
of its highest-resolution level; in general the level `mipmap_count` is
counted too. -/
theorem pixel_count_counts_one_level_more :
    pixel_count 4 4 1 0 1 = some 20 ∧
    miplevel_width 4 0 * miplevel_height 4 0 * miplevel_slices 1 0 = 16 ∧
    miplevel_width 4 1 * miplevel_height 4 1 * miplevel_slices 1 1 = 4 ∧
    pixel_count 4 4 1 0 3 = some 22 ∧
    (∀ w h s i n, 1 ≤ n → n < 2 ^ 64 - 1 →
      pixel_count w h s i n = some ((∑ k in Finset.range (n + 1 - i),
        miplevel_width w (i + k) * miplevel_height h (i + k) * miplevel_slices s (i + k)) %
          SIZE_T_MOD)) := by
  refine ⟨by decide, by decide, by decide, by decide, ?_⟩
  intro w h s i n hn hn'
  exact pixel_count_eq w h s i n hn hn'

/-! ## The full chain -/

/-- C32: a mipmap count of 0 stands for the full chain: `subimage_face_size`,
`subimage_size` and `image_size` return for `mipmap_count = 0` what they
return for `mipmap_count = miplevel_count(w, h, s)`. -/
theorem mipmap_count_zero_is_full_chain (f a : Int) (items w h s : Nat) :
    subimage_face_size f w h s 0 = subimage_face_size f w h s (miplevel_count w h s) ∧
    subimage_size f a w h s 0 = subimage_size f a w h s (miplevel_count w h s) ∧
    image_size f a items w h s 0 = image_size f a items w h s (miplevel_count w h s) := by
  have e : subimage_face_size f w h s 0 =
      subimage_face_size f w h s (miplevel_count w h s) := by
    simp only [subimage_face_size, if_true]
    split_ifs <;> rfl
  refine ⟨e, ?_, ?_⟩
  · simp only [subimage_size, e]
  · simp only [image_size, subimage_size, e]

/-! ## The last level of the pyramid -/

/-- A dimension of at most `m` is 1 at level `log2 m`. -/
theorem miplevel_width_last (w m : Nat) (hw : w ≤ m) :
    miplevel_width w (Nat.log 2 m) = 1 := by
  have hlt : w < 2 ^ (Nat.log 2 m + 1) :=
    lt_of_le_of_lt hw (Nat.lt_pow_succ_log_self (by norm_num) m)
  have hdiv : w >>> Nat.log 2 m < 2 := by
    rw [Nat.shiftRight_eq_div_pow, Nat.div_lt_iff_lt_mul (Nat.two_pow_pos _)]
    rw [pow_succ] at hlt
    omega
  rw [miplevel_width_of_lt w _ (by omega)]
  omega

/-- The largest dimension is 2 or 3 at level `log2 m - 1`. -/
theorem miplevel_width_before_last (m : Nat) (hm : 2 ≤ m) (hm' : m < 2 ^ 64) :
    2 ≤ miplevel_width m (Nat.log 2 m - 1) := by
  have hlog : 1 ≤ Nat.log 2 m := Nat.log_pos (by norm_num) hm
  have hle : 2 ^ Nat.log 2 m ≤ m := Nat.pow_log_le_self 2 (by omega)
  have hlt : m < 2 ^ (Nat.log 2 m + 1) := Nat.lt_pow_succ_log_self (by norm_num) m
  obtain ⟨k, hk⟩ : ∃ k, Nat.log 2 m = k + 1 := ⟨Nat.log 2 m - 1, by omega⟩
  rw [hk] at hle hlt ⊢
  simp only [Nat.add_sub_cancel]
  have h2 : 2 ≤ m >>> k := by
    rw [Nat.shiftRight_eq_div_pow, Nat.le_div_iff_mul_le (Nat.two_pow_pos _)]
    rw [pow_succ] at hle
    omega
  have h4 : m >>> k < 4 := by
    rw [Nat.shiftRight_eq_div_pow, Nat.div_lt_iff_lt_mul (Nat.two_pow_pos _)]
    rw [pow_succ, pow_succ] at hlt
    omega
  rw [miplevel_width_of_lt m _ (by omega)]
  omega

/-- C33: for dimensions `w`, `h`, `slices` of at least 1 (values of `size_t`)
and `n = miplevel_count(w, h, slices)`, level `n - 1` is 1 x 1 x 1, and when
`n >= 2` level `n - 2` has a dimension of 2 or more. -/
theorem miplevel_count_last_level (w h s : Nat) (hw : 1 ≤ w) (hh : 1 ≤ h) (hs : 1 ≤ s)
    (hw' : w < 2 ^ 64) (hh' : h < 2 ^ 64) (hs' : s < 2 ^ 64) :
    miplevel_width w (miplevel_count w h s - 1) = 1 ∧
    miplevel_height h (miplevel_count w h s - 1) = 1 ∧
    miplevel_slices s (miplevel_count w h s - 1) = 1 ∧
    (2 ≤ miplevel_count w h s →
      2 ≤ miplevel_width w (miplevel_count w h s - 2) ∨
      2 ≤ miplevel_height h (miplevel_count w h s - 2) ∨
      2 ≤ miplevel_slices s (miplevel_count w h s - 2)) := by
  have hm : 1 ≤ max w (max h s) := by omega
  have hm' : max w (max h s) < 2 ^ 64 := by omega
  rw [miplevel_count_eq w h s hm hm']
  simp only [Nat.add_sub_cancel, miplevel_height_eq_width, miplevel_slices_eq_width]
  refine ⟨miplevel_width_last w _ (by omega), miplevel_width_last h _ (by omega),
    miplevel_width_last s _ (by omega), fun hn => ?_⟩
  have h2 : 2 ≤ max w (max h s) := by
    by_contra hcon
    have : max w (max h s) = 1 := by omega
    rw [this] at hn
    simp at hn
  have key := miplevel_width_before_last _ h2 hm'
  have e : Nat.log 2 (max w (max h s)) + 1 - 2 = Nat.log 2 (max w (max h s)) - 1 := by omega
  rw [e]
  rcases le_total w (max h s) with hwm | hwm
  · rcases le_total h s with hhs | hhs
    · have : max w (max h s) = s := by omega
      rw [this] at key ⊢
      exact Or.inr (Or.inr key)
    · have : max w (max h s) = h := by omega
      rw [this] at key ⊢
      exact Or.inr (Or.inl key)
  · have : max w (max h s) = w := by omega
    rw [this] at key ⊢
    exact Or.inl key

/-- C33 (witness): a 300 x 200 x 1 image has 9 levels; level 8 is 1 x 1 x 1
and level 7 is 2 x 1 x 1. -/
theorem miplevel_count_last_level_witness :
    miplevel_width 300 (miplevel_count 300 200 1 - 1) = 1 ∧
    miplevel_height 200 (miplevel_count 300 200 1 - 1) = 1 ∧
    miplevel_slices 1 (miplevel_count 300 200 1 - 1) = 1 ∧
    (2 ≤ miplevel_count 300 200 1 →
      2 ≤ miplevel_width 300 (miplevel_count 300 200 1 - 2) ∨
      2 ≤ miplevel_height 200 (miplevel_count 300 200 1 - 2) ∨
      2 ≤ miplevel_slices 1 (miplevel_count 300 200 1 - 2)) :=
  miplevel_count_last_level 300 200 1 (by decide) (by decide) (by decide) (by decide)
    (by decide) (by decide)

end image

/-! ## The channel maximum -/

namespace image

/-- The value `channel_maximum` returns is at most `FLT_MIN` and at most
every sample it looked at: it is a lower bound, not an upper bound. -/
theorem channel_maximum_fold_le (values : List ℚ) (init : ℚ) :
    values.foldl (fun channel_max v => if v < channel_max then v else channel_max) init ≤ init ∧
    ∀ v ∈ values,
      values.foldl (fun channel_max v => if v < channel_max then v else channel_max) init ≤ v := by
  induction values generalizing init with
  | nil => exact ⟨le_rfl, fun v hv => absurd hv (List.not_mem_nil v)⟩
  | cons a rest ih =>
    simp only [List.foldl_cons]
    obtain ⟨h1, h2⟩ := ih (if a < init then a else init)
    have hle : (if a < init then a else init) ≤ init := by
      split_ifs with h
      · exact le_of_lt h
      · exact le_rfl
    have hle' : (if a < init then a else init) ≤ a := by
      split_ifs with h
      · exact le_rfl
      · exact not_lt.mp h
    refine ⟨le_trans h1 hle, fun v hv => ?_⟩
    rcases List.mem_cons.mp hv with e | e
    · rw [e]
      exact le_trans h1 hle'
    · exact h2 v e

/-- C34 (failing input): on the channel 1, 2 the function returns
`numeric_limits<float>::min()`, the least positive normal `float`, which is
not a sample of the channel and is less than both; on -3, 5 it returns -3,
the least sample. For every channel the result is at most every sample. -/
theorem channel_maximum_is_not_the_maximum :
    channel_maximum [1, 2] 2 1 = .ok (1 / 2 ^ 126) ∧
    (1 / 2 ^ 126 : ℚ) ∉ ([1, 2] : List ℚ) ∧ (1 / 2 ^ 126 : ℚ) < 1 ∧
    channel_maximum [-3, 5] 2 1 = .ok (-3) ∧
    (∀ (values : List ℚ) (w h : Nat) (r : ℚ), channel_maximum values w h = .ok r →
      r ≤ FLT_MIN ∧ ∀ v ∈ values.take (size_t_wrap (w * h)), r ≤ v) := by
  have e : size_t_wrap (2 * 1) = 2 := by decide
  refine ⟨?_, ?_, by norm_num, ?_, ?_⟩
  · simp only [channel_maximum, e, List.length_cons, List.length_nil, List.take, List.foldl,
      FLT_MIN]
    norm_num
    rfl
  · simp only [List.mem_cons, List.mem_singleton, List.not_mem_nil, or_false]
    norm_num
  · simp only [channel_maximum, e, List.length_cons, List.length_nil, List.take, List.foldl,
      FLT_MIN]
    norm_num
    rfl
  · intro values w h r hr
    simp only [channel_maximum] at hr
    split_ifs at hr
    simp only [pure, Except.pure, Except.ok.injEq] at hr
    rw [← hr]
    exact channel_maximum_fold_le _ _

end image

/-! ## The level limit -/

/-- C35 (failing input): a 65536 x 1 image compiled with `build_mipmaps` and
no level limit leaves `texture_compiler_inputs_sanitize` with 17 levels, one
more than `TEXTURE_COMPILER_MAX_LEVELS`; `build_mipmaps` then writes
`level_data[16]`, outside the array of 16 buffers. -/
theorem sanitize_exceeds_max_levels :
    (∃ out, texture_compiler_inputs_sanitize 64
        (sample_inputs (sample_image 65536 1 1) true false) = some out ∧
      out.target_width = 65536 ∧ out.target_height = 1 ∧ out.maximum_levels = 17) ∧
    TEXTURE_COMPILER_MAX_LEVELS = 16 ∧
    (∀ (ops : sample_ops Nat) (heap : heap_t Nat) (level_0 : image.buffer_t Nat) (mode : Int)
      (color_count : Nat) (state : (Nat → Option (image.buffer_t Nat)) × Nat),
      build_mipmaps_level ops heap level_0 mode color_count state 16 =
        .error .undefined_behaviour) := by
  refine ⟨?_, rfl, ?_⟩
  · have hc : image.miplevel_count 65536 1 1 = 17 := by
      rw [miplevel_count_two_dims 65536 1 (by norm_num) (by norm_num)]
      have : Nat.log 2 (max 65536 1) = 16 := by
        rw [show max 65536 1 = 2 ^ 16 from rfl]
        exact Nat.log_pow (by norm_num) 16
      rw [this]
    refine ⟨_, (sanitize_unfold 64 _ _).2 ⟨65536, 1, ?_, ?_, rfl⟩, rfl, rfl, ?_⟩
    · decide
    · decide
    · simp only [sample_inputs, hc]
      decide
  · intro ops heap level_0 mode color_count state
    obtain ⟨level_data, n⟩ := state
    simp only [build_mipmaps_level]
    rw [if_neg (by decide)]

/-! ## Small values in half precision -/

/-- C38 (failing input): `2 ^ -15` (bits `0x38000000`) is the subnormal half
`0x0200` and `2 ^ -24` (bits `0x33800000`) the subnormal half `0x0001`, but
`float_to_half` returns 0 for both: the denormal branch shifts the 23
mantissa bits without inserting the leading 1. For +0 and -0 the shift count
is `112 + 14 = 126`, undefined for a `uint32_t`. `3 * 2 ^ -16` (bits
`0x38400000`) gives `0x0100 = 2 ^ -16` instead of `0x0300`. -/
theorem float_to_half_small_values :
    float_to_half 0x38000000 = some 0 ∧ float_to_half 0x33800000 = some 0 ∧
    float_to_half 0 = none ∧ float_to_half 0x80000000 = none ∧
    float_to_half 0x38400000 = some 0x0100 := by
  decide

/-! ## Level sizes of the module -/

/-- C37 (failing input): the format `R32F` is accepted for the 2-channel
sample image; `level_descriptor` reports `2 * 1 * 32 / 8 = 8` bytes for the
level, and the packer `buffer_to_pixels_128f` it selects returns the 4 floats
of the two channels, 16 bytes. -/
theorem level_descriptor_size_mismatch :
    validate_arguments { sample_args with target_format := some "R32F" } (sample_planes 2) =
      none ∧
    texture_format (some "R32F") (sample_planes 2).channel_count = TEXTURE_FORMAT_32_F ∧
    level_descriptor exact_rounding (fun _ => 0) packing_heap 0 (sample_planes 2)
        TEXTURE_FORMAT_32_F = (32, 8, .ok (some (.float32 [1, 0, 1 / 2, 1 / 3]))) ∧
    (pixel_array.float32 [1, 0, 1 / 2, 1 / 3]).byte_count = 16 := by
  refine ⟨by decide, by decide, rfl, rfl⟩

namespace image

/-! ## Addresses inside the image data -/

/-- A term of a sum over a range is at most the sum. -/
theorem term_le_sum_range (a : Nat → Nat) (n k : Nat) (hk : k < n) :
    a k ≤ ∑ j in Finset.range n, a j :=
  Finset.single_le_sum (f := a) (fun _ _ => Nat.zero_le _) (Finset.mem_range.mpr hk)

/-- A prefix of a sum over a range, with the next term, is at most the sum. -/
theorem prefix_le_sum_range (a : Nat → Nat) (n k : Nat) (hk : k < n) :
    (∑ j in Finset.range k, a j) + a k ≤ ∑ j in Finset.range n, a j := by
  rw [← Finset.sum_range_succ]
  exact Finset.sum_le_sum_of_subset (Finset.range_mono (Nat.succ_le_of_lt hk))

/-- The sizes and offsets of a container whose byte size, the bytes of all
levels times the faces times the items, is below `2 ^ 64`: no computation
wraps. -/
theorem container_layout (f a : Int) (w h d m items : Nat) (hm : 1 ≤ m) (hitems : 1 ≤ items)
    (hsize : (∑ k in Finset.range m, miplevel_slice_size f w h k * miplevel_slices d k) *
      face_count a * items < 2 ^ 64) :
    (∀ k, k < m →
      miplevel_size f w h d k = miplevel_slice_size f w h k * miplevel_slices d k) ∧
    (∀ k, k ≤ m → miplevel_offset f w h d k =
      ∑ j in Finset.range k, miplevel_slice_size f w h j * miplevel_slices d j) ∧
    subimage_face_size f w h d m =
      ∑ k in Finset.range m, miplevel_slice_size f w h k * miplevel_slices d k ∧
    subimage_size f a w h d m =
      (∑ k in Finset.range m, miplevel_slice_size f w h k * miplevel_slices d k) *
        face_count a ∧
    image_size f a items w h d m =
      (∑ k in Finset.range m, miplevel_slice_size f w h k * miplevel_slices d k) *
        face_count a * items := by
  have hF : 1 ≤ face_count a := by
    unfold face_count
    split_ifs <;> omega
  have hT : ∑ k in Finset.range m, miplevel_slice_size f w h k * miplevel_slices d k <
      2 ^ 64 := by
    have h1 := Nat.le_mul_of_pos_right
      (∑ k in Finset.range m, miplevel_slice_size f w h k * miplevel_slices d k) hF
    have h2 := Nat.le_mul_of_pos_right
      ((∑ k in Finset.range m, miplevel_slice_size f w h k * miplevel_slices d k) *
        face_count a) hitems
    omega
  have hTF : (∑ k in Finset.range m, miplevel_slice_size f w h k * miplevel_slices d k) *
      face_count a < 2 ^ 64 := by
    have h2 := Nat.le_mul_of_pos_right
      ((∑ k in Finset.range m, miplevel_slice_size f w h k * miplevel_slices d k) *
        face_count a) hitems
    omega
  have hlevel : ∀ k, k < m →
      miplevel_size f w h d k = miplevel_slice_size f w h k * miplevel_slices d k := by
    intro k hk
    have := term_le_sum_range
      (fun k => miplevel_slice_size f w h k * miplevel_slices d k) m k hk
    simp only at this
    simp only [miplevel_size, size_t_wrap, SIZE_T_MOD]
    exact Nat.mod_eq_of_lt (by omega)
  have hsum : ∀ k, k ≤ m → ∑ j in Finset.range k, miplevel_size f w h d j =
      ∑ j in Finset.range k, miplevel_slice_size f w h j * miplevel_slices d j := by
    intro k hk
    apply Finset.sum_congr rfl
    intro j hj
    exact hlevel j (by have := Finset.mem_range.mp hj; omega)
  have hoff : ∀ k, k ≤ m → miplevel_offset f w h d k =
      ∑ j in Finset.range k, miplevel_slice_size f w h j * miplevel_slices d j := by
    intro k hk
    rw [miplevel_offset_eq, hsum k hk]
    apply Nat.mod_eq_of_lt
    have hmono : ∑ j in Finset.range k, miplevel_slice_size f w h j * miplevel_slices d j ≤
        ∑ j in Finset.range m, miplevel_slice_size f w h j * miplevel_slices d j :=
      Finset.sum_le_sum_of_subset (Finset.range_mono hk)
    simp only [SIZE_T_MOD]
    omega
  have hface : subimage_face_size f w h d m =
      ∑ k in Finset.range m, miplevel_slice_size f w h k * miplevel_slices d k := by
    have h0 : ¬ 0 = m := by omega
    simp only [subimage_face_size, if_neg h0]
    exact hoff m le_rfl
  have hsub : subimage_size f a w h d m =
      (∑ k in Finset.range m, miplevel_slice_size f w h k * miplevel_slices d k) *
        face_count a := by
    simp only [subimage_size, hface, size_t_wrap, SIZE_T_MOD]
    exact Nat.mod_eq_of_lt hTF
  refine ⟨hlevel, hoff, hface, hsub, ?_⟩
  simp only [image_size, hsub, size_t_wrap, SIZE_T_MOD]
  exact Nat.mod_eq_of_lt hsize

/-- C36: for a container with at least one level whose byte size (the bytes
of all its levels, times its faces, times its items) is below `2 ^ 64`, and
every index tuple in range, the offset `data_at` computes plus the size of
one slice of that level is at most `image_size`: the addressed slice lies
inside the image data. -/
theorem data_at_in_bounds (c : container_t) (ii fi li si : Nat) (hlevels : 1 ≤ c.levels)
    (hsize : (∑ k in Finset.range c.levels,
        miplevel_slice_size c.format c.width c.height k * miplevel_slices c.slices k) *
      face_count c.flags * c.items < 2 ^ 64)
    (hii : ii < c.items) (hfi : fi < face_count c.flags) (hli : li < c.levels)
    (hsi : si < miplevel_slices c.slices li) :
    data_at c ii fi li si + miplevel_slice_size c.format c.width c.height li ≤
      image_size c.format c.flags c.items c.width c.height c.slices c.levels := by
  obtain ⟨hlevel, hoff, hface, hsub, himage⟩ := container_layout c.format c.flags c.width
    c.height c.slices c.levels c.items hlevels (by omega) hsize
  have hpre := prefix_le_sum_range
    (fun k => miplevel_slice_size c.format c.width c.height k * miplevel_slices c.slices k)
    c.levels li hli
  simp only at hpre
  have hslice : miplevel_slice_size c.format c.width c.height li * (si + 1) ≤
      miplevel_slice_size c.format c.width c.height li * miplevel_slices c.slices li :=
    Nat.mul_le_mul_left _ hsi
  have hfaces : (∑ k in Finset.range c.levels,
      miplevel_slice_size c.format c.width c.height k * miplevel_slices c.slices k) * (fi + 1) ≤
      (∑ k in Finset.range c.levels,
        miplevel_slice_size c.format c.width c.height k * miplevel_slices c.slices k) *
        face_count c.flags := Nat.mul_le_mul_left _ hfi
  have hitems : (∑ k in Finset.range c.levels,
      miplevel_slice_size c.format c.width c.height k * miplevel_slices c.slices k) *
      face_count c.flags * (ii + 1) ≤
      (∑ k in Finset.range c.levels,
        miplevel_slice_size c.format c.width c.height k * miplevel_slices c.slices k) *
        face_count c.flags * c.items := Nat.mul_le_mul_left _ hii
  have hso : miplevel_slice_offset c.format c.width c.height li si =
      miplevel_slice_size c.format c.width c.height li * si := by
    simp only [miplevel_slice_offset, size_t_wrap, SIZE_T_MOD]
    apply Nat.mod_eq_of_lt
    have h1 := Nat.mul_le_mul_left (miplevel_slice_size c.format c.width c.height li)
      (Nat.le_of_lt hsi)
    have h2 := Nat.le_mul_of_pos_right
      (∑ k in Finset.range c.levels,
        miplevel_slice_size c.format c.width c.height k * miplevel_slices c.slices k)
      (show 0 < face_count c.flags by omega)
    have h3 := Nat.le_mul_of_pos_right
      ((∑ k in Finset.range c.levels,
        miplevel_slice_size c.format c.width c.height k * miplevel_slices c.slices k) *
        face_count c.flags) (show 0 < c.items by omega)
    omega
  have hfo : subimage_face_offset c.format c.width c.height c.slices c.levels fi =
      (∑ k in Finset.range c.levels,
        miplevel_slice_size c.format c.width c.height k * miplevel_slices c.slices k) * fi := by
    simp only [subimage_face_offset, hface, size_t_wrap, SIZE_T_MOD]
    apply Nat.mod_eq_of_lt
    have h1 := Nat.mul_le_mul_left (∑ k in Finset.range c.levels,
        miplevel_slice_size c.format c.width c.height k * miplevel_slices c.slices k)
      (Nat.le_of_lt hfi)
    have h3 := Nat.le_mul_of_pos_right
      ((∑ k in Finset.range c.levels,
        miplevel_slice_size c.format c.width c.height k * miplevel_slices c.slices k) *
        face_count c.flags) (show 0 < c.items by omega)
    omega
  have hio : subimage_offset c.format c.flags c.width c.height c.slices c.levels ii =
      (∑ k in Finset.range c.levels,
        miplevel_slice_size c.format c.width c.height k * miplevel_slices c.slices k) *
        face_count c.flags * ii := by
    simp only [subimage_offset, hsub, size_t_wrap, SIZE_T_MOD]
    apply Nat.mod_eq_of_lt
    have h1 := Nat.mul_le_mul_left ((∑ k in Finset.range c.levels,
        miplevel_slice_size c.format c.width c.height k * miplevel_slices c.slices k) *
        face_count c.flags) (Nat.le_of_lt hii)
    omega
  simp only [data_at, hio, hfo, hoff li (Nat.le_of_lt hli), hso, himage]
  rw [Nat.mul_succ] at hslice hfaces hitems
  omega

/-- C36 (witness): slice 0 of level 2 of face 5 of item 1 in an array of two
4 x 4 RGBA8 cube maps with 3 levels. -/
theorem data_at_in_bounds_witness :
    data_at ⟨4, 8, 2, 3, 4, 4, 1, 1008, 0, some 64, some 64, none⟩ 1 5 2 0 +
        miplevel_slice_size 4 4 4 2 ≤
      image_size 4 8 2 4 4 1 3 :=
  data_at_in_bounds ⟨4, 8, 2, 3, 4, 4, 1, 1008, 0, some 64, some 64, none⟩ 1 5 2 0
    (by decide) (by decide) (by decide) (by decide) (by decide) (by decide)

end image

/-! ## Mipmap levels of a very wide image -/

/-- C39 (failing input): for a level 0 of 4294967296 x 1 samples, level 1
gets the width `miplevel_width(4294967296, 1)`, where the shifted value
`2 ^ 31` does not fit the `int` it is stored in: the width is
`2 ^ 64 - 2 ^ 31` and not `max(1, 4294967296 >> 1) = 2147483648`. The byte
size of such a buffer wraps, and filling it runs outside the block. -/
theorem build_mipmaps_level_width_truncated :
    image.miplevel_width (sample_image 4294967296 1 1).channel_width 1 =
      18446744071562067968 ∧
    max 1 (4294967296 >>> 1) = 2147483648 ∧
    image.miplevel_height (sample_image 4294967296 1 1).channel_height 1 = 1 ∧
    build_mipmaps_level sample_ops_nat sample_heap (sample_image 4294967296 1 1) 2 1
      (fun _ => none, 0) 1 = .error .undefined_behaviour := by
  refine ⟨by decide, by decide, by decide, ?_⟩
  rfl

/-! ## The levels `build_mipmaps` builds -/

/-- A loop over the planes `0 .. k - 1` of a buffer whose round `i` replaces
plane `i` by `G i` leaves the planes `G 0 .. G (k - 1)` followed by the
planes from `k` on. -/
theorem plane_loop_steps {α : Type} (b : image.buffer_t α)
    (step : image.buffer_t α → Nat → Except fault (image.buffer_t α)) (G : Nat → List α)
    (hstep : ∀ (cs : List (List α)) i, i < b.channels.length →
      cs.length = b.channels.length → cs[i]? = b.channels[i]? →
      step { b with channels := cs } i = .ok { b with channels := cs.set i (G i) }) :
    ∀ k, k ≤ b.channels.length →
      (List.range k).foldlM step b =
        .ok { b with channels := (List.range k).map G ++ b.channels.drop k } := by
  intro k
  induction k with
  | zero => intro _; simp [pure, Except.pure]
  | succ k ih =>
    intro hk
    have hk' : k < b.channels.length := hk
    rw [List.range_succ, List.foldlM_append, ih (by omega)]
    have hget : ((List.range k).map G ++ b.channels.drop k)[k]? = b.channels[k]? := by
      rw [List.getElem?_append_right (by simp)]
      simp
    have hlen : ((List.range k).map G ++ b.channels.drop k).length = b.channels.length := by
      simp
      omega
    simp only [List.foldlM_cons, List.foldlM_nil, bind, Except.bind, pure, Except.pure,
      hstep _ k hk' hlen hget]
    simp only [Except.ok.injEq, image.buffer_t.mk.injEq, and_true]
    rw [← List.range_succ]
    apply List.ext_getElem?
    intro j
    rcases Nat.lt_trichotomy j k with hj | hj | hj
    · rw [List.getElem?_set_ne (by omega), List.getElem?_append_left (by simp; omega),
        List.getElem?_append_left (by simp; omega)]
      rw [List.getElem?_map, List.getElem?_map, List.getElem?_range hj,
        List.getElem?_range (Nat.lt_succ_of_lt hj)]
    · subst hj
      rw [List.getElem?_set_self (by simp; omega), List.getElem?_append_left (by simp)]
      rw [List.getElem?_map, List.getElem?_range (Nat.lt_succ_self j)]
      rfl
    · rw [List.getElem?_set_ne (by omega), List.getElem?_append_right (by simp; omega),
        List.getElem?_append_right (by simp; omega)]
      simp
      congr 1
      omega

/-- On a buffer whose planes hold `width * height` samples,
`image::exponentiate` from plane 0 raises every sample of the first
`channel_count` planes to the power and leaves the other planes. -/
theorem exponentiate_ok {α : Type} (ops : sample_ops α) (b : image.buffer_t α) (cc : Nat)
    (power : α)
    (hplanes : ∀ p ∈ b.channels, p.length = b.channel_width * b.channel_height)
    (hsz : b.channel_width * b.channel_height < 2 ^ 64) (hcc : cc ≤ b.channels.length) :
    image.exponentiate ops b 0 cc power =
      .ok { b with channels :=
        (List.range cc).map (fun i => (b.channels.getD i []).map fun v => ops.powf v power) ++
          b.channels.drop cc } := by
  have h := plane_loop_steps b
    (fun buffer i => buffer.modify_plane i fun plane =>
      image.exponentiate_channel ops plane buffer.channel_width buffer.channel_height power)
    (fun i => (b.channels.getD i []).map fun v => ops.powf v power)
    (by
      intro cs i hi hlen hget
      have hp : b.channels[i]? = some b.channels[i] := List.getElem?_eq_getElem hi
      have hl : (b.channels[i]).length = b.channel_width * b.channel_height :=
        hplanes _ (List.getElem_mem hi)
      have hd : b.channels.getD i [] = b.channels[i] := List.getD_eq_getElem _ _ hi
      have hw : size_t_wrap (b.channel_width * b.channel_height) = (b.channels[i]).length := by
        rw [hl]
        exact Nat.mod_eq_of_lt hsz
      simp only [image.buffer_t.modify_plane, hget, hp, image.exponentiate_channel, hw, le_refl,
        if_true, List.take_length, List.drop_length, List.append_nil, bind, Except.bind, pure,
        Except.pure, hd])
    cc hcc
  unfold image.exponentiate
  simp only [Nat.zero_add]
  exact h

/-- With every allocation successful, `resize_buffer` on a source whose planes
hold `width * height` samples returns `true` and a target whose plane `c` is
the resampling of source plane `c`, after five allocations. -/
theorem resize_buffer_ok {α : Type} (ops : sample_ops α) (heap : heap_t α) (n : Nat)
    (source : image.buffer_t α) (dst_w dst_h : Nat) (mode : Int)
    (target : Option (image.buffer_t α))
    (hc1 : 1 ≤ source.channel_count) (hc4 : source.channel_count ≤ 4)
    (hlen : source.channels.length = source.channel_count)
    (hplanes : ∀ p ∈ source.channels, p.length = source.channel_width * source.channel_height)
    (hsw : 1 ≤ source.channel_width) (hsh : 1 ≤ source.channel_height)
    (hdw : 1 ≤ dst_w) (hdh : 1 ≤ dst_h)
    (hsz1 : dst_w * dst_h * 4 * source.channel_count < 2 ^ 64)
    (hsz2 : dst_w * source.channel_height * 4 * source.channel_count < 2 ^ 64)
    (hheap : ∀ m, heap.succeeds m = true) :
    resize_buffer ops heap n source dst_w dst_h mode target =
      .ok (true, some
        { channels := (List.range source.channel_count).map fun c =>
            (List.range (dst_w * dst_h)).map
              (ops.resample mode source.channel_width source.channel_height dst_w dst_h
                (source.channels.getD c []))
          channel_count := source.channel_count
          channel_width := dst_w
          channel_height := dst_h }, n + 5) := by
  obtain ⟨b, hb, hbc, hbw, hbh, hblen, _⟩ := create_buffer_ok heap n dst_w dst_h
    source.channel_count (hheap n) hc1 hc4 hsz1
  obtain ⟨tb, htb, _⟩ := create_buffer_ok heap (n + 1) dst_w source.channel_height
    source.channel_count (hheap (n + 1)) hc1 hc4 hsz2
  have hloop := plane_loop_steps b
    (fun target c =>
      match source.channels[c]? with
      | some plane =>
        if size_t_wrap (source.channel_width * source.channel_height) ≤ plane.length then
          target.modify_plane c fun _ =>
            .ok ((List.range (dst_w * dst_h)).map
              (ops.resample mode source.channel_width source.channel_height dst_w dst_h plane))
        else .error .undefined_behaviour
      | none => .error .undefined_behaviour)
    (fun c => (List.range (dst_w * dst_h)).map
      (ops.resample mode source.channel_width source.channel_height dst_w dst_h
        (source.channels.getD c [])))
    (by
      intro cs i hi hcs _
      have hi' : i < source.channels.length := by omega
      have hp : source.channels[i]? = some source.channels[i] := List.getElem?_eq_getElem hi'
      have hl : (source.channels[i]).length = source.channel_width * source.channel_height :=
        hplanes _ (List.getElem_mem hi')
      have hd : source.channels.getD i [] = source.channels[i] := List.getD_eq_getElem _ _ hi'
      have hw : size_t_wrap (source.channel_width * source.channel_height) ≤
          (source.channels[i]).length := by
        rw [hl]
        exact Nat.mod_le _ _
      have hci : cs[i]? = some cs[i] := List.getElem?_eq_getElem (by omega)
      simp only [hp, if_pos hw, image.buffer_t.modify_plane, hci, bind, Except.bind, pure,
        Except.pure, hd])
    source.channel_count (by omega)
  unfold resize_buffer
  simp only [if_pos (And.intro hsw (And.intro hdw (And.intro hsh hdh))), hb, htb, bind,
    Except.bind, hheap, Bool.not_true, Bool.false_eq_true, if_false, hloop, pure, Except.pure]
  try erw [hloop]
  simp only [Except.ok.injEq, Prod.mk.injEq, Option.some.injEq, image.buffer_t.mk.injEq, true_and,
    and_true]
  refine ⟨?_, hbc, hbw, hbh⟩
  rw [← hblen, List.drop_length, List.append_nil]

/-- Below `2 ^ 32` a level dimension at an index of 1 or more is the shifted
dimension, at least 1 and at most the level-0 dimension. -/
theorem miplevel_width_level (w i : Nat) (hw : 1 ≤ w) (hw' : w < 2 ^ 32) (hi : 1 ≤ i) :
    image.miplevel_width w i = max 1 (w >>> i) ∧ 1 ≤ image.miplevel_width w i ∧
    image.miplevel_width w i ≤ w := by
  have hle : w >>> i ≤ w / 2 := by
    obtain ⟨k, rfl⟩ : ∃ k, i = k + 1 := ⟨i - 1, by omega⟩
    rw [Nat.shiftRight_succ, Nat.shiftRight_eq_div_pow]
    exact Nat.div_le_div_right (Nat.div_le_self _ _)
  have e := image.miplevel_width_of_lt w i (by omega)
  rw [e]
  omega

/-- One round of the loop of `build_mipmaps` for level dimensions `W`, `H`
that are at least 1 and at most those of level 0. -/
theorem build_mipmaps_level_dims {α : Type} (ops : sample_ops α) (heap : heap_t α)
    (lin : image.buffer_t α) (mode : Int) (cc : Nat)
    (level_data : Nat → Option (image.buffer_t α)) (n i W H : Nat)
    (hW : image.miplevel_width lin.channel_width i = W)
    (hH : image.miplevel_height lin.channel_height i = H)
    (hW1 : 1 ≤ W) (hWw : W ≤ lin.channel_width) (hH1 : 1 ≤ H) (hHh : H ≤ lin.channel_height)
    (hc1 : 1 ≤ lin.channel_count) (hc4 : lin.channel_count ≤ 4)
    (hlen : lin.channels.length = lin.channel_count)
    (hplanes : ∀ p ∈ lin.channels, p.length = lin.channel_width * lin.channel_height)
    (hsz : lin.channel_width * lin.channel_height * 4 * lin.channel_count < 2 ^ 64)
    (hw : 1 ≤ lin.channel_width) (hh : 1 ≤ lin.channel_height)
    (hi' : i < 16) (hcc : cc ≤ lin.channel_count)
    (hheap : ∀ m, heap.succeeds m = true) :
    ∃ b, build_mipmaps_level ops heap lin mode cc (level_data, n) i =
        .ok (Function.update level_data i (some b), n + 6) ∧
      b.channel_count = lin.channel_count ∧ b.channel_width = W ∧ b.channel_height = H ∧
      ∀ k j, k < lin.channel_count → j < W * H →
        b.sample k j = some
          (if k < cc then
            ops.powf (ops.resample mode lin.channel_width lin.channel_height W H
              (lin.channels.getD k []) j) ops.gamma_power
          else
            ops.resample mode lin.channel_width lin.channel_height W H
              (lin.channels.getD k []) j) := by
  have hWH : W * H ≤ lin.channel_width * lin.channel_height := Nat.mul_le_mul hWw hHh
  have hWh : W * lin.channel_height ≤ lin.channel_width * lin.channel_height :=
    Nat.mul_le_mul_right _ hWw
  have hsz1 : W * H * 4 * lin.channel_count < 2 ^ 64 :=
    lt_of_le_of_lt (Nat.mul_le_mul_right _ (Nat.mul_le_mul_right _ hWH)) hsz
  have hsz2 : W * lin.channel_height * 4 * lin.channel_count < 2 ^ 64 :=
    lt_of_le_of_lt (Nat.mul_le_mul_right _ (Nat.mul_le_mul_right _ hWh)) hsz
  have hsz3 : W * H < 2 ^ 64 := by
    have h1 : W * H ≤ W * H * 4 := Nat.le_mul_of_pos_right _ (by norm_num)
    have h2 : W * H * 4 ≤ W * H * 4 * lin.channel_count := Nat.le_mul_of_pos_right _ hc1
    omega
  obtain ⟨b0, hb0, _⟩ := create_buffer_ok heap n W H lin.channel_count (hheap n) hc1 hc4 hsz1
  have hres := resize_buffer_ok ops heap (n + 1) lin W H mode (some b0) hc1 hc4 hlen hplanes
    hw hh hW1 hH1 hsz1 hsz2 hheap
  have hgamma := exponentiate_ok ops
    { channels := (List.range lin.channel_count).map fun c =>
        (List.range (W * H)).map
          (ops.resample mode lin.channel_width lin.channel_height W H (lin.channels.getD c []))
      channel_count := lin.channel_count
      channel_width := W
      channel_height := H } cc ops.gamma_power
    (by
      intro p hp
      simp only [List.mem_map, List.mem_range] at hp
      obtain ⟨c, _, rfl⟩ := hp
      simp)
    hsz3 (by simp; exact hcc)
  refine ⟨image.buffer_t.mk
    ((List.range cc).map (fun k =>
      (((List.range lin.channel_count).map fun c =>
        (List.range (W * H)).map
          (ops.resample mode lin.channel_width lin.channel_height W H
            (lin.channels.getD c []))).getD k []).map fun v => ops.powf v ops.gamma_power) ++
      List.drop cc ((List.range lin.channel_count).map fun c =>
        (List.range (W * H)).map
          (ops.resample mode lin.channel_width lin.channel_height W H
            (lin.channels.getD c []))))
    lin.channel_count W H, ?_, rfl, rfl, rfl, ?_⟩
  · unfold build_mipmaps_level
    simp only [if_pos (show i < TEXTURE_COMPILER_MAX_LEVELS from hi'), hW, hH, hb0, bind,
      Except.bind, hres, image.gamma, hgamma, pure, Except.pure]
  · intro k j hk hj
    have hRk : ∀ k, k < lin.channel_count →
        ((List.range lin.channel_count).map fun c =>
          (List.range (W * H)).map
            (ops.resample mode lin.channel_width lin.channel_height W H
              (lin.channels.getD c []))).getD k [] =
          (List.range (W * H)).map
            (ops.resample mode lin.channel_width lin.channel_height W H
              (lin.channels.getD k [])) := by
      intro k hk
      rw [List.getD_eq_getElem _ _ (by simp; exact hk)]
      simp
    simp only [image.buffer_t.sample]
    by_cases hkc : k < cc
    · rw [List.getElem?_append_left (by simp; exact hkc), List.getElem?_map,
        List.getElem?_range hkc, if_pos hkc]
      simp only [Option.map_some', Option.some_bind, hRk k hk, List.getElem?_map,
        List.getElem?_range hj]
    · rw [List.getElem?_append_right (by simp; omega), if_neg hkc]
      simp only [List.length_map, List.length_range, List.getElem?_drop]
      have e : cc + (k - cc) = k := by omega
      rw [e, List.getElem?_map, List.getElem?_range hk]
      simp only [Option.map_some', Option.some_bind, List.getElem?_map, List.getElem?_range hj]

/-- The loop `for (i = 1; i < level_count; ++i)` of `build_mipmaps`, for `m`
rounds each of which stores a level with the property `P`: the levels 1 to
`m` are stored, the other entries are left, and `6 * m` allocations are
made. -/
theorem build_mipmaps_loop {α : Type} (ops : sample_ops α) (heap : heap_t α)
    (lin : image.buffer_t α) (mode : Int) (cc : Nat) (P : Nat → image.buffer_t α → Prop)
    (hlevel : ∀ (ld : Nat → Option (image.buffer_t α)) n i, 1 ≤ i → i < 16 →
      ∃ b, build_mipmaps_level ops heap lin mode cc (ld, n) i =
        .ok (Function.update ld i (some b), n + 6) ∧ P i b)
    (level_data : Nat → Option (image.buffer_t α)) (n : Nat) :
    ∀ m, m ≤ 15 → ∃ ld,
      (List.range' 1 m).foldlM (build_mipmaps_level ops heap lin mode cc) (level_data, n) =
        .ok (ld, n + 6 * m) ∧
      (∀ i, 1 ≤ i → i ≤ m → ∃ b, ld i = some b ∧ P i b) ∧
      (∀ i, i = 0 ∨ m < i → ld i = level_data i) := by
  intro m
  induction m with
  | zero =>
    intro _
    exact ⟨level_data, rfl, fun i h1 h2 => by omega, fun i _ => rfl⟩
  | succ m ih =>
    intro hm
    obtain ⟨ld, hrun, hin, hout⟩ := ih (by omega)
    obtain ⟨b, hb, hP⟩ := hlevel ld (n + 6 * m) (1 + m) (by omega) (by omega)
    refine ⟨Function.update ld (1 + m) (some b), ?_, ?_, ?_⟩
    · rw [List.range'_1_concat, List.foldlM_append, hrun]
      simp only [bind, Except.bind, List.foldlM_cons, List.foldlM_nil, hb, pure, Except.pure]
      congr 2
    · intro i h1 h2
      by_cases e : i = 1 + m
      · subst e
        exact ⟨b, by simp, hP⟩
      · obtain ⟨b', hb', hP'⟩ := hin i h1 (by omega)
        exact ⟨b', by rw [Function.update_noteq e]; exact hb', hP'⟩
    · intro i hi
      have e : i ≠ 1 + m := by omega
      rw [Function.update_noteq e]
      exact hout i (by omega)

/-- The levels `build_mipmaps` builds from a valid level 0 with dimensions
from 1 to `2 ^ 32 - 1`, for 2 to 16 levels and an allocator that never fails:
level `i >= 1` has the channel count of level 0, width `max(1, w0 >> i)` and
height `max(1, h0 >> i)`; its samples are resampled from level 0 itself, the
planes below `color_count` (3 for a 4-channel image, all planes otherwise)
from the samples raised to `1 / gamma_power` and then raised to
`gamma_power`, the alpha plane of a 4-channel image from the samples as they
are. With one level nothing is converted and `level_data[0]` is level 0. -/
theorem build_mipmaps_levels {α : Type} (ops : sample_ops α) (heap : heap_t α) (n : Nat)
    (level_0 : image.buffer_t α) (mode : Int) (level_count : Nat)
    (level_data : Nat → Option (image.buffer_t α)) (hv : level_0.valid)
    (hw : 1 ≤ level_0.channel_width) (hh : 1 ≤ level_0.channel_height)
    (hw' : level_0.channel_width < 2 ^ 32) (hh' : level_0.channel_height < 2 ^ 32)
    (hheap : ∀ m, heap.succeeds m = true) :
    (2 ≤ level_count → level_count ≤ 16 →
      ∃ level_0' level_data' n',
        build_mipmaps ops heap n level_0 mode level_count level_data =
          .ok (true, level_0', level_data', n') ∧
        level_data' 0 = some level_0' ∧
        ∀ i, 1 ≤ i → i < level_count → ∃ b, level_data' i = some b ∧
          b.channel_count = level_0.channel_count ∧
          b.channel_width = max 1 (level_0.channel_width >>> i) ∧
          b.channel_height = max 1 (level_0.channel_height >>> i) ∧
          ∀ k j, k < level_0.channel_count →
            j < max 1 (level_0.channel_width >>> i) * max 1 (level_0.channel_height >>> i) →
            b.sample k j = some
              (if k < (if 4 = level_0.channel_count then 3 else level_0.channel_count) then
                ops.powf (ops.resample mode level_0.channel_width level_0.channel_height
                  (max 1 (level_0.channel_width >>> i)) (max 1 (level_0.channel_height >>> i))
                  ((level_0.channels.getD k []).map fun v =>
                    ops.powf v (ops.div ops.one ops.gamma_power)) j) ops.gamma_power
              else
                ops.resample mode level_0.channel_width level_0.channel_height
                  (max 1 (level_0.channel_width >>> i)) (max 1 (level_0.channel_height >>> i))
                  (level_0.channels.getD k []) j)) ∧
    build_mipmaps ops heap n level_0 mode 1 level_data =
      .ok (true, level_0, Function.update level_data 0 (some level_0), n) := by
  have hbytes := valid_plane_bytes level_0 hv
  obtain ⟨hc1, hc4, hlen, hplanes, hsz⟩ := hv
  simp only [SIZE_T_MOD] at hsz
  refine ⟨fun hL hL' => ?_, ?_⟩
  · have hcc : (if 4 = level_0.channel_count then 3 else level_0.channel_count) ≤
        level_0.channels.length := by
      split_ifs <;> omega
    obtain ⟨cc, hccdef⟩ : ∃ cc, cc = if 4 = level_0.channel_count then 3
        else level_0.channel_count := ⟨_, rfl⟩
    rw [← hccdef] at hcc ⊢
    have hlin := exponentiate_ok ops level_0 cc (ops.div ops.one ops.gamma_power) hplanes
      (by omega) hcc
    have hlin_len : ((List.range cc).map (fun i => (level_0.channels.getD i []).map fun v =>
        ops.powf v (ops.div ops.one ops.gamma_power)) ++ level_0.channels.drop cc).length =
        level_0.channel_count := by
      simp
      omega
    have hlin_planes : ∀ p ∈ (List.range cc).map (fun i => (level_0.channels.getD i []).map
        fun v => ops.powf v (ops.div ops.one ops.gamma_power)) ++ level_0.channels.drop cc,
        p.length = level_0.channel_width * level_0.channel_height := by
      intro p hp
      rcases List.mem_append.mp hp with h | h
      · simp only [List.mem_map, List.mem_range] at h
        obtain ⟨i, hi, rfl⟩ := h
        rw [List.length_map, List.getD_eq_getElem _ _ (by omega)]
        exact hplanes _ (List.getElem_mem _)
      · exact hplanes p (List.mem_of_mem_drop h)
    have hlin_get : ∀ k, k < level_0.channel_count →
        ((List.range cc).map (fun i => (level_0.channels.getD i []).map fun v =>
          ops.powf v (ops.div ops.one ops.gamma_power)) ++ level_0.channels.drop cc).getD k [] =
        if k < cc then (level_0.channels.getD k []).map fun v =>
          ops.powf v (ops.div ops.one ops.gamma_power)
        else level_0.channels.getD k [] := by
      intro k hk
      rw [List.getD_eq_getElem?_getD, List.getD_eq_getElem?_getD]
      by_cases hkc : k < cc
      · rw [List.getElem?_append_left (by simp; exact hkc), List.getElem?_map,
          List.getElem?_range hkc, if_pos hkc]
        simp
      · rw [List.getElem?_append_right (by simp; omega), if_neg hkc]
        simp only [List.length_map, List.length_range, List.getElem?_drop]
        have e : cc + (k - cc) = k := by omega
        rw [e]
    obtain ⟨ld, hrun, hin, hout⟩ := build_mipmaps_loop ops heap
      { level_0 with channels := (List.range cc).map (fun i =>
          (level_0.channels.getD i []).map fun v =>
            ops.powf v (ops.div ops.one ops.gamma_power)) ++ level_0.channels.drop cc }
      mode cc
      (fun i b => b.channel_count = level_0.channel_count ∧
        b.channel_width = max 1 (level_0.channel_width >>> i) ∧
        b.channel_height = max 1 (level_0.channel_height >>> i) ∧
        ∀ k j, k < level_0.channel_count →
          j < max 1 (level_0.channel_width >>> i) * max 1 (level_0.channel_height >>> i) →
          b.sample k j = some
            (if k < cc then
              ops.powf (ops.resample mode level_0.channel_width level_0.channel_height
                (max 1 (level_0.channel_width >>> i)) (max 1 (level_0.channel_height >>> i))
                ((level_0.channels.getD k []).map fun v =>
                  ops.powf v (ops.div ops.one ops.gamma_power)) j) ops.gamma_power
            else
              ops.resample mode level_0.channel_width level_0.channel_height
                (max 1 (level_0.channel_width >>> i)) (max 1 (level_0.channel_height >>> i))
                (level_0.channels.getD k []) j))
      (by
        intro ld' n' i hi hi'
        obtain ⟨eW, hW1, hWw⟩ := miplevel_width_level level_0.channel_width i hw hw' hi
        obtain ⟨eH, hH1, hHh⟩ := miplevel_width_level level_0.channel_height i hh hh' hi
        rw [eW] at hW1 hWw
        rw [eH] at hH1 hHh
        obtain ⟨b, hb, h1, h2, h3, h4⟩ := build_mipmaps_level_dims ops heap
          { level_0 with channels := (List.range cc).map (fun i =>
              (level_0.channels.getD i []).map fun v =>
                ops.powf v (ops.div ops.one ops.gamma_power)) ++ level_0.channels.drop cc }
          mode cc ld' n' i (max 1 (level_0.channel_width >>> i))
          (max 1 (level_0.channel_height >>> i)) eW eH hW1 hWw hH1 hHh hc1 hc4 hlin_len
          hlin_planes hsz hw hh hi' (by show cc ≤ level_0.channel_count; omega) hheap
        refine ⟨b, hb, h1, h2, h3, fun k j hk hj => ?_⟩
        rw [h4 k j hk hj]
        simp only [hlin_get k hk]
        by_cases hkc : k < cc
        · simp only [if_pos hkc]
        · simp only [if_neg hkc])
      level_data n (level_count - 1) (by omega)
    obtain hgamma := exponentiate_ok ops
      { level_0 with channels := (List.range cc).map (fun i =>
          (level_0.channels.getD i []).map fun v =>
            ops.powf v (ops.div ops.one ops.gamma_power)) ++ level_0.channels.drop cc }
      cc ops.gamma_power hlin_planes
      (by show level_0.channel_width * level_0.channel_height < 2 ^ 64; omega)
      (by rw [hlin_len]; omega)
    obtain ⟨g, hg⟩ : ∃ g, image.exponentiate ops
        { level_0 with channels := (List.range cc).map (fun i =>
          (level_0.channels.getD i []).map fun v =>
            ops.powf v (ops.div ops.one ops.gamma_power)) ++ level_0.channels.drop cc }
        0 cc ops.gamma_power = .ok g := ⟨_, hgamma⟩
    refine ⟨g, Function.update ld 0 (some g), n + 6 * (level_count - 1), ?_, ?_, ?_⟩
    · unfold build_mipmaps
      simp only [← hccdef, if_pos (show level_count > 1 from hL), image.linear, image.gamma,
        hlin, bind, Except.bind, hrun, hg, pure, Except.pure]
    · simp
    · intro i hi hi'
      have e : i ≠ 0 := by omega
      rw [Function.update_noteq e]
      exact hin i hi (by omega)
  · unfold build_mipmaps
    rw [if_neg (by omega)]
    rfl

end TextureCompiler
